import Mathlib

/-!
# Density: the Chameleon decode kernel

A shallow embedding of `src/kernel_chameleon_decode.c`.

* Bytes are natural numbers; every multi-byte load reduces each byte modulo 256.
* A 32-bit or 64-bit machine word is a natural number.
* Behaviour that C leaves undefined (a load beyond the window handed out by the teleport,
  a store beyond the advertised output room, a shift of the `int` constant `1` by 31 or more)
  is the result `none`.
* The dictionary is a total map from slot number to 32-bit word; the C array has 65 536 slots
  and only slots below 65 536 are ever addressed.
-/

namespace Density

/-! ## Types -/

/-- Status codes of the kernel (`DENSITY_KERNEL_DECODE_STATE`). `READY` is the zero value: the
test `if ((returnState = check_state(...))) return returnState;` falls through on it. -/
inductive DENSITY_KERNEL_DECODE_STATE where
  | READY
  | INFO_NEW_BLOCK
  | INFO_EFFICIENCY_CHECK
  | STALL_ON_INPUT_BUFFER
  | STALL_ON_OUTPUT_BUFFER
  | FINISHED
  | ERROR
  deriving DecidableEq, Repr

/-- Resume points of `density_chameleon_decode_process` (`DENSITY_CHAMELEON_DECODE_PROCESS`). -/
inductive DENSITY_CHAMELEON_DECODE_PROCESS where
  | PREPARE_NEW_BLOCK
  | SIGNATURE
  | DECOMPRESS_BODY
  deriving DecidableEq, Repr

/-- A `density_memory_location`. For a location that is read, `ahead` holds the bytes from
`pointer` to the end of the window. For the output location, `stored` holds the bytes written
so far, in order (`pointer` stands right after them). `available_bytes` is the C field. -/
structure density_memory_location where
  ahead : List Nat
  stored : List Nat
  available_bytes : Nat
  deriving DecidableEq, Repr

/-- The header parameters, a union read through `as_bytes`. -/
structure density_main_header_parameters where
  as_bytes : List Nat
  deriving DecidableEq, Repr

/-- The dictionary: `entries i` is `entries[i].as_uint32_t`, for `i` below the number of
entries of the array; the functions that index the array test the index. -/
structure density_chameleon_dictionary where
  entries : Nat → Nat

/-- The decode state `density_chameleon_decode_state`. -/
structure density_chameleon_decode_state where
  process : DENSITY_CHAMELEON_DECODE_PROCESS
  parameters : density_main_header_parameters
  resetCycle : Nat
  signature : Nat
  shift : Nat
  bodyLength : Nat
  signaturesCount : Nat
  efficiencyChecked : Nat
  endDataOverhead : Nat
  dictionary : density_chameleon_dictionary

/-- Modelled from the spec: the memory teleport (`memory_teleport.c` is not part of the sources).
The spec describes a staging layer whose bytes leave in FIFO order; `bytes` is the queue of all
buffered bytes, direct and indirect, oldest first. -/
structure density_memory_teleport where
  bytes : List Nat
  deriving DecidableEq, Repr

/-! ## Constants and primitives that the kernel takes from headers -/

/-- Modelled from the spec: `PREFERRED_EFFICIENCY_CHECK_SIGNATURES` is 64. -/
def DENSITY_CHAMELEON_PREFERRED_EFFICIENCY_CHECK_SIGNATURES : Nat := 64

/-- Modelled from the spec: `PREFERRED_BLOCK_SIGNATURES` is 256. -/
def DENSITY_CHAMELEON_PREFERRED_BLOCK_SIGNATURES : Nat := 256

/-- Modelled from the spec: `MIN_OUTPUT_LOOKAHEAD = PROCESS_UNIT_SIZE = 64·4 = 256` bytes. -/
def DENSITY_CHAMELEON_DECODE_MINIMUM_OUTPUT_LOOKAHEAD : Nat := 256

/-- Modelled from the spec: `PROCESS_UNIT_SIZE = 64·4 = 256` bytes. -/
def DENSITY_CHAMELEON_ENCODE_PROCESS_UNIT_SIZE : Nat := 256

/-- Modelled from the spec: `test(shift) = (sig >> shift) & 1`, so the flag map is 1. -/
def DENSITY_CHAMELEON_SIGNATURE_FLAG_MAP : Nat := 1

/-- Modelled from the spec: `HASH(word32) → u16` is `(word32 * 0x9D46C91B) >> 16`, the product
taken in 32 bits (the macro assigns to a `uint32_t`) and its high 16 bits kept. -/
def DENSITY_CHAMELEON_HASH_ALGORITHM (value32 : Nat) : Nat :=
  ((value32 * 0x9D46C91B) % 2 ^ 32) >>> 16

/-- Modelled from the spec: the dictionary is an "array of 65 536 entries". -/
def density_chameleon_dictionary_entries : Nat := 65536

/-- Modelled from the spec: dictionary reset is a zero-fill of all entries. -/
def density_chameleon_dictionary_reset (_dictionary : density_chameleon_dictionary) :
    density_chameleon_dictionary :=
  { entries := fun _ => 0 }

/-- The value of `DENSITY_LITTLE_ENDIAN_16` on the two bytes loaded at a pointer. -/
def DENSITY_LITTLE_ENDIAN_16 (b0 b1 : Nat) : Nat :=
  b0 % 256 + 256 * (b1 % 256)

/-- The value of `DENSITY_LITTLE_ENDIAN_32` on the four bytes loaded at a pointer. -/
def DENSITY_LITTLE_ENDIAN_32 (b0 b1 b2 b3 : Nat) : Nat :=
  b0 % 256 + 256 * (b1 % 256) + 65536 * (b2 % 256) + 16777216 * (b3 % 256)

/-- The value of `DENSITY_LITTLE_ENDIAN_64` on the eight bytes loaded at a pointer, given
lowest address first. -/
def DENSITY_LITTLE_ENDIAN_64 : List Nat → Nat
  | [] => 0
  | b :: rest => b % 256 + 256 * DENSITY_LITTLE_ENDIAN_64 rest

/-- The four bytes that the store `*(uint32_t *) (out->pointer) = value` leaves in memory. -/
def store_uint32 (value : Nat) : List Nat :=
  [value % 256, value / 256 % 256, value / 65536 % 256, value / 16777216 % 256]

/-- The builtin `__builtin_popcountll`: the number of set bits among the low 64. -/
def popcountll (x : Nat) : Nat :=
  ((List.range 64).map (fun i => x / 2 ^ i % 2)).sum

/-- The C expression `1 << k` on the 32-bit `int` constant 1. C defines it only while `2 ^ k`
fits an `int`, that is for `k ≤ 30`. -/
def int_one_shift_left (k : Nat) : Option Nat :=
  if k < 31 then some (2 ^ k) else none

/-- Subtraction of `uint_fast64_t` values, wrapping modulo `2 ^ 64`. -/
def sub_uint64 (a b : Nat) : Nat :=
  (a % 2 ^ 64 + 2 ^ 64 - b % 2 ^ 64) % 2 ^ 64

/-! ## The teleport operations used by the kernel -/

/-- Modelled from the spec: `available() → u64`, the total of buffered bytes. -/
def density_memory_teleport_available (inp : density_memory_teleport) : Nat :=
  inp.bytes.length

/-- Modelled from the spec: `read(n)` hands out a contiguous window of exactly `n` bytes, the
oldest `n` of the queue, or fails (null) when fewer than `n` are buffered. -/
def density_memory_teleport_read (inp : density_memory_teleport) (bytes : Nat) :
    Option density_memory_location :=
  if bytes ≤ inp.bytes.length then
    some { ahead := inp.bytes.take bytes, stored := [], available_bytes := bytes }
  else none

/-- Modelled from the spec: consuming `n` bytes of the last read window (`cursor_advance(n)` in
the spec). The kernel does it by advancing `pointer` and lowering `available_bytes` of the
location that `read` returned, which aliases the teleport: the `n` oldest bytes leave the queue. -/
def density_memory_teleport_consume (inp : density_memory_teleport) (bytes : Nat) :
    density_memory_teleport :=
  { bytes := inp.bytes.drop bytes }

/-- Modelled from the spec: `copy(out, n)` drains `n` bytes of the queue into `out`. -/
def density_memory_teleport_copy (inp : density_memory_teleport) (out : density_memory_location)
    (bytes : Nat) : density_memory_teleport × density_memory_location :=
  ({ bytes := inp.bytes.drop bytes },
   { out with stored := out.stored ++ inp.bytes.take bytes,
              available_bytes := out.available_bytes - (inp.bytes.take bytes).length })

/-- The caller hands further input to the teleport: the bytes join the queue at its end. -/
def density_memory_teleport_supply (inp : density_memory_teleport) (chunk : List Nat) :
    density_memory_teleport :=
  { bytes := inp.bytes ++ chunk }

/-! ## The kernel, function by function -/

/-- The function `density_chameleon_decode_check_state`. -/
def density_chameleon_decode_check_state (out : density_memory_location)
    (state : density_chameleon_decode_state) :
    Option (DENSITY_KERNEL_DECODE_STATE × density_chameleon_decode_state) :=
  if out.available_bytes < DENSITY_CHAMELEON_DECODE_MINIMUM_OUTPUT_LOOKAHEAD then
    some (.STALL_ON_OUTPUT_BUFFER, state)
  else if state.signaturesCount = DENSITY_CHAMELEON_PREFERRED_EFFICIENCY_CHECK_SIGNATURES then
    if state.efficiencyChecked ^^^ 1 ≠ 0 then
      some (.INFO_EFFICIENCY_CHECK, { state with efficiencyChecked := 1 })
    else some (.READY, state)
  else if state.signaturesCount = DENSITY_CHAMELEON_PREFERRED_BLOCK_SIGNATURES then
    let state := { state with signaturesCount := 0, efficiencyChecked := 0 }
    if state.resetCycle ≠ 0 then
      some (.INFO_NEW_BLOCK, { state with resetCycle := state.resetCycle - 1 })
    else
      let resetDictionaryCycleShift := state.parameters.as_bytes.headD 0
      if resetDictionaryCycleShift ≠ 0 then
        match int_one_shift_left resetDictionaryCycleShift with
        | none => none
        | some v =>
          some (.INFO_NEW_BLOCK,
            { state with dictionary := density_chameleon_dictionary_reset state.dictionary,
                         resetCycle := sub_uint64 v 1 })
      else some (.INFO_NEW_BLOCK, state)
  else some (.READY, state)

/-- The function `density_chameleon_decode_read_signature`: an 8-byte load. -/
def density_chameleon_decode_read_signature (inp : density_memory_location)
    (state : density_chameleon_decode_state) :
    Option (density_memory_location × density_chameleon_decode_state) :=
  if 8 ≤ inp.ahead.length then
    some ({ inp with ahead := inp.ahead.drop 8 },
          { state with signature := DENSITY_LITTLE_ENDIAN_64 (inp.ahead.take 8),
                       shift := 0,
                       signaturesCount := state.signaturesCount + 1 })
  else none

/-- The function `density_chameleon_decode_read_compressed_chunk`: a 2-byte load. The chunk is
returned as the two bytes found in memory. -/
def density_chameleon_decode_read_compressed_chunk (inp : density_memory_location) :
    Option ((Nat × Nat) × density_memory_location) :=
  match inp.ahead with
  | b0 :: b1 :: rest => some ((b0, b1), { inp with ahead := rest })
  | _ => none

/-- The function `density_chameleon_decode_read_uncompressed_chunk`: a 4-byte load. The chunk
is returned as the four bytes found in memory. -/
def density_chameleon_decode_read_uncompressed_chunk (inp : density_memory_location) :
    Option ((Nat × Nat × Nat × Nat) × density_memory_location) :=
  match inp.ahead with
  | b0 :: b1 :: b2 :: b3 :: rest => some ((b0, b1, b2, b3), { inp with ahead := rest })
  | _ => none

/-- The function `density_chameleon_decode_compressed_chunk`. The access
`state->dictionary.entries[index]` is defined for an index below the number of entries of the
array only; an index beyond them is the result `none`. -/
def density_chameleon_decode_compressed_chunk (chunk : Nat × Nat)
    (out : density_memory_location) (state : density_chameleon_decode_state) :
    Option (density_memory_location × density_chameleon_decode_state) :=
  let index := DENSITY_LITTLE_ENDIAN_16 chunk.1 chunk.2
  if index < density_chameleon_dictionary_entries then
    some ({ out with stored := out.stored ++ store_uint32 (state.dictionary.entries index) },
          state)
  else none

/-- The function `density_chameleon_decode_uncompressed_chunk`. The store to
`state->dictionary.entries[hash]` is defined for a `hash` below the number of entries of the
array only; a `hash` beyond them is the result `none`. -/
def density_chameleon_decode_uncompressed_chunk (chunk : Nat × Nat × Nat × Nat)
    (out : density_memory_location) (state : density_chameleon_decode_state) :
    Option (density_memory_location × density_chameleon_decode_state) :=
  let word := DENSITY_LITTLE_ENDIAN_32 chunk.1 chunk.2.1 chunk.2.2.1 chunk.2.2.2
  let hash := DENSITY_CHAMELEON_HASH_ALGORITHM word
  if hash < density_chameleon_dictionary_entries then
    some ({ out with stored := out.stored ++ store_uint32 word },
          { state with dictionary :=
              { entries := fun i => if i = hash then word else state.dictionary.entries i } })
  else none

/-- The function `density_chameleon_decode_kernel`. -/
def density_chameleon_decode_kernel (inp out : density_memory_location) (compressed : Bool)
    (state : density_chameleon_decode_state) :
    Option (density_memory_location × density_memory_location × density_chameleon_decode_state) :=
  if compressed then
    match density_chameleon_decode_read_compressed_chunk inp with
    | none => none
    | some (chunk, inp) =>
      match density_chameleon_decode_compressed_chunk chunk out state with
      | none => none
      | some (out, state) => some (inp, out, state)
  else
    match density_chameleon_decode_read_uncompressed_chunk inp with
    | none => none
    | some (chunk, inp) =>
      match density_chameleon_decode_uncompressed_chunk chunk out state with
      | none => none
      | some (out, state) => some (inp, out, state)

/-- The function `density_chameleon_decode_test_compressed`. The shift of a 64-bit value is
defined for a count below 64 only. -/
def density_chameleon_decode_test_compressed (state : density_chameleon_decode_state) :
    Option Bool :=
  if state.shift < 64 then
    some (decide ((state.signature >>> state.shift) &&& DENSITY_CHAMELEON_SIGNATURE_FLAG_MAP ≠ 0))
  else none

/-- The loop of `density_chameleon_decode_process_data`, `while (state->shift ^ 64)`, unrolled
at most `fuel` times. -/
def density_chameleon_decode_process_data_loop :
    Nat → density_memory_location → density_memory_location → density_chameleon_decode_state →
    Option (density_memory_location × density_memory_location × density_chameleon_decode_state)
  | 0, inp, out, state => if state.shift ^^^ 64 ≠ 0 then none else some (inp, out, state)
  | fuel + 1, inp, out, state =>
    if state.shift ^^^ 64 ≠ 0 then
      match density_chameleon_decode_test_compressed state with
      | none => none
      | some compressed =>
        match density_chameleon_decode_kernel inp out compressed state with
        | none => none
        | some (inp, out, state) =>
          density_chameleon_decode_process_data_loop fuel inp out
            { state with shift := state.shift + 1 }
    else some (inp, out, state)

/-- The function `density_chameleon_decode_process_data`. From a shift of at most 64 the loop
ends within 64 rounds; from a larger shift the first test is already undefined. -/
def density_chameleon_decode_process_data (inp out : density_memory_location)
    (state : density_chameleon_decode_state) :
    Option (density_memory_location × density_memory_location × density_chameleon_decode_state) :=
  density_chameleon_decode_process_data_loop 64 inp out state

/-- The function `density_chameleon_decode_init`. When the shift byte is zero `resetCycle`
is not assigned and keeps the value it had. -/
def density_chameleon_decode_init (state : density_chameleon_decode_state)
    (parameters : density_main_header_parameters) (endDataOverhead : Nat) :
    Option (DENSITY_KERNEL_DECODE_STATE × density_chameleon_decode_state) :=
  let state := { state with signaturesCount := 0, efficiencyChecked := 0,
                            dictionary := density_chameleon_dictionary_reset state.dictionary,
                            parameters := parameters }
  let resetDictionaryCycleShift := state.parameters.as_bytes.headD 0
  if resetDictionaryCycleShift ≠ 0 then
    match int_one_shift_left resetDictionaryCycleShift with
    | none => none
    | some v =>
      some (.READY, { state with resetCycle := sub_uint64 v 1,
                                 endDataOverhead := endDataOverhead,
                                 process := .PREPARE_NEW_BLOCK })
  else
    some (.READY, { state with endDataOverhead := endDataOverhead,
                               process := .PREPARE_NEW_BLOCK })

/-! ## The state machine `density_chameleon_decode_process`

The C function is a `switch` on `state->process` whose cases fall through, closed by
`goto prepare_new_block`. Each case is a function below; it either returns a status or passes
control to the next label, and it always sets `state->process` to that label first, so passing
control is the same as dispatching on `state->process` again. -/

/-- The case `DENSITY_CHAMELEON_DECODE_PROCESS_PREPARE_NEW_BLOCK`. The first component of the
result is the status returned, or `none` when control passes to the next case. -/
def density_chameleon_decode_process_prepare_new_block (inp : density_memory_teleport)
    (out : density_memory_location) (state : density_chameleon_decode_state) :
    Option (Option DENSITY_KERNEL_DECODE_STATE × density_memory_teleport ×
      density_memory_location × density_chameleon_decode_state) :=
  match density_chameleon_decode_check_state out state with
  | none => none
  | some (returnState, state) =>
    if returnState ≠ .READY then some (some returnState, inp, out, state)
    else some (none, inp, out, { state with process := .SIGNATURE })

/-- The case `DENSITY_CHAMELEON_DECODE_PROCESS_SIGNATURE`. The sizes of the block footer and
of the main footer are parameters: their declarations are not part of the sources. -/
def density_chameleon_decode_process_signature (sizeof_block_footer sizeof_main_footer : Nat)
    (inp : density_memory_teleport) (out : density_memory_location)
    (state : density_chameleon_decode_state) (flush : Bool) :
    Option (Option DENSITY_KERNEL_DECODE_STATE × density_memory_teleport ×
      density_memory_location × density_chameleon_decode_state) :=
  let remaining := sub_uint64 (sub_uint64 (density_memory_teleport_available inp)
    sizeof_block_footer) sizeof_main_footer
  if flush = true ∧ remaining < DENSITY_CHAMELEON_ENCODE_PROCESS_UNIT_SIZE then
    if remaining > out.available_bytes then some (some .STALL_ON_OUTPUT_BUFFER, inp, out, state)
    else
      let r := density_memory_teleport_copy inp out remaining
      some (some .FINISHED, r.1, r.2, state)
  else
    match density_memory_teleport_read inp 8 with
    | none => some (some .STALL_ON_INPUT_BUFFER, inp, out, state)
    | some readMemoryLocation =>
      match density_chameleon_decode_read_signature readMemoryLocation state with
      | none => none
      | some (_, state) =>
        some (none, density_memory_teleport_consume inp 8, out,
          { state with bodyLength := 4 * 64 - popcountll state.signature * (4 - 2),
                       process := .DECOMPRESS_BODY })

/-- The case `DENSITY_CHAMELEON_DECODE_PROCESS_DECOMPRESS_BODY`. The 64 stores of
`process_data` write 256 bytes at `out->pointer` without a test; with fewer than 256 bytes of
room advertised in `out->available_bytes` they overrun it, which is the result `none`. -/
def density_chameleon_decode_process_decompress_body (inp : density_memory_teleport)
    (out : density_memory_location) (state : density_chameleon_decode_state) :
    Option (Option DENSITY_KERNEL_DECODE_STATE × density_memory_teleport ×
      density_memory_location × density_chameleon_decode_state) :=
  match density_memory_teleport_read inp state.bodyLength with
  | none => some (some .STALL_ON_INPUT_BUFFER, inp, out, state)
  | some readMemoryLocation =>
    if out.available_bytes < 64 * 4 then none
    else
      match density_chameleon_decode_process_data readMemoryLocation out state with
      | none => none
      | some (_, out, state') =>
        some (none, density_memory_teleport_consume inp state.bodyLength,
          { out with available_bytes := out.available_bytes - 64 * 4 },
          { state' with process := .PREPARE_NEW_BLOCK })

/-- One case of the `switch`, chosen by `state->process`. -/
def density_chameleon_decode_process_case (sizeof_block_footer sizeof_main_footer : Nat)
    (inp : density_memory_teleport) (out : density_memory_location)
    (state : density_chameleon_decode_state) (flush : Bool) :
    Option (Option DENSITY_KERNEL_DECODE_STATE × density_memory_teleport ×
      density_memory_location × density_chameleon_decode_state) :=
  match state.process with
  | .PREPARE_NEW_BLOCK => density_chameleon_decode_process_prepare_new_block inp out state
  | .SIGNATURE =>
    density_chameleon_decode_process_signature sizeof_block_footer sizeof_main_footer
      inp out state flush
  | .DECOMPRESS_BODY => density_chameleon_decode_process_decompress_body inp out state

/-- The cases of the `switch` run one after the other, at most `fuel` of them. -/
def density_chameleon_decode_process_fuel (sizeof_block_footer sizeof_main_footer : Nat)
    (flush : Bool) :
    Nat → density_memory_teleport → density_memory_location → density_chameleon_decode_state →
    Option (DENSITY_KERNEL_DECODE_STATE × density_memory_teleport ×
      density_memory_location × density_chameleon_decode_state)
  | 0, _, _, _ => none
  | fuel + 1, inp, out, state =>
    match density_chameleon_decode_process_case sizeof_block_footer sizeof_main_footer
        inp out state flush with
    | none => none
    | some (some returnState, inp, out, state) => some (returnState, inp, out, state)
    | some (none, inp, out, state) =>
      density_chameleon_decode_process_fuel sizeof_block_footer sizeof_main_footer flush
        fuel inp out state

/-- The function `density_chameleon_decode_process`. Every block takes three cases and lowers
`out->available_bytes` by 256 after `check_state` found at least 256, so
`3 * (available_bytes / 256) + 3` cases are enough for one call. -/
def density_chameleon_decode_process (sizeof_block_footer sizeof_main_footer : Nat)
    (inp : density_memory_teleport) (out : density_memory_location)
    (state : density_chameleon_decode_state) (flush : Bool) :
    Option (DENSITY_KERNEL_DECODE_STATE × density_memory_teleport ×
      density_memory_location × density_chameleon_decode_state) :=
  density_chameleon_decode_process_fuel sizeof_block_footer sizeof_main_footer flush
    (3 * (out.available_bytes / 256) + 3) inp out state

/-- The function `density_chameleon_decode_finish`. -/
def density_chameleon_decode_finish (_state : density_chameleon_decode_state) :
    DENSITY_KERNEL_DECODE_STATE :=
  .READY

/-! ## The body decode as the specification words it

The definitions of this section follow the text of the specification, not the C source; they
are compared with the kernel further down. -/

/-- The running data of the body decode of the specification: the input cursor, the dictionary
and the output written so far. -/
structure body_decode_reference_state where
  cursor : Nat
  dict : Nat → Nat
  output : List Nat

/-- The specification's `test(shift) = (sig >> shift) & 1`. -/
def reference_test (sig shift : Nat) : Nat :=
  sig / 2 ^ shift % 2

/-- A little-endian unsigned 16-bit value at offset `cursor` of `body`. -/
def reference_read_u16 (body : List Nat) (cursor : Nat) : Nat :=
  body.getD cursor 0 + 256 * body.getD (cursor + 1) 0

/-- A little-endian unsigned 32-bit value at offset `cursor` of `body`. -/
def reference_read_u32 (body : List Nat) (cursor : Nat) : Nat :=
  body.getD cursor 0 + 256 * body.getD (cursor + 1) 0 + 256 ^ 2 * body.getD (cursor + 2) 0
    + 256 ^ 3 * body.getD (cursor + 3) 0

/-- The 4 bytes of a 32-bit word, lowest first. -/
def reference_word_bytes (word : Nat) : List Nat :=
  (List.range 4).map (fun k => word / 256 ^ k % 256)

/-- One word of the body decode of the specification: "if `test(shift)` is 1, read a
little-endian u16 `I` from input, write the 4 bytes of `dict.lookup(I)` to output; else read a
little-endian u32 `W`, `dict.store(HASH(W), W)`, write `W` to output." -/
def body_decode_reference_word (sig : Nat) (body : List Nat) (s : body_decode_reference_state)
    (shift : Nat) : body_decode_reference_state :=
  if reference_test sig shift = 1 then
    let I := reference_read_u16 body s.cursor
    { cursor := s.cursor + 2, dict := s.dict, output := s.output ++ reference_word_bytes (s.dict I) }
  else
    let W := reference_read_u32 body s.cursor
    { cursor := s.cursor + 4,
      dict := Function.update s.dict (DENSITY_CHAMELEON_HASH_ALGORITHM W) W,
      output := s.output ++ reference_word_bytes W }

/-- The body decode of the specification, "for `shift` in 0..64", from dictionary `dict`. -/
def body_decode_reference (dict : Nat → Nat) (sig : Nat) (body : List Nat) :
    body_decode_reference_state :=
  (List.range 64).foldl (body_decode_reference_word sig body)
    { cursor := 0, dict := dict, output := [] }

/-- The number of body bytes taken by the words `shift, …, shift + n - 1` of a block with
signature `sig`: 2 for a set bit, 4 for a clear bit. -/
def signature_body_bytes (sig : Nat) : Nat → Nat → Nat
  | _, 0 => 0
  | shift, n + 1 =>
    (if sig / 2 ^ shift % 2 = 1 then 2 else 4) + signature_body_bytes sig (shift + 1) n

/-! ## The caller of the kernel

The public streaming API is outside the sources; the specification fixes how it drives the
kernel: "`INFO_*` as continue without changing buffers, `STALL_*` as refill the indicated buffer
and re-enter, `FINISHED` as terminal". -/

/-- Modelled from the spec: the caller loops back into `process` on `INFO_*` without touching
the buffers; at most `fuel` calls are made. -/
def decode_reenter_fuel (sizeof_block_footer sizeof_main_footer : Nat) (flush : Bool) :
    Nat → density_memory_teleport → density_memory_location → density_chameleon_decode_state →
    Option (DENSITY_KERNEL_DECODE_STATE × density_memory_teleport ×
      density_memory_location × density_chameleon_decode_state)
  | 0, _, _, _ => none
  | fuel + 1, inp, out, state =>
    match density_chameleon_decode_process sizeof_block_footer sizeof_main_footer
        inp out state flush with
    | none => none
    | some (returnState, inp, out, state) =>
      if returnState = .INFO_NEW_BLOCK ∨ returnState = .INFO_EFFICIENCY_CHECK then
        decode_reenter_fuel sizeof_block_footer sizeof_main_footer flush fuel inp out state
      else some (returnState, inp, out, state)

/-- Modelled from the spec: `process` re-entered on `INFO_*` until another status comes back.
Between two `INFO_*` statuses a block is decoded or the flag that caused the first is cleared,
so `2 * (available_bytes / 256) + 3` calls are enough. -/
def decode_reenter (sizeof_block_footer sizeof_main_footer : Nat)
    (inp : density_memory_teleport) (out : density_memory_location)
    (state : density_chameleon_decode_state) (flush : Bool) :
    Option (DENSITY_KERNEL_DECODE_STATE × density_memory_teleport ×
      density_memory_location × density_chameleon_decode_state) :=
  decode_reenter_fuel sizeof_block_footer sizeof_main_footer flush
    (2 * (out.available_bytes / 256) + 3) inp out state

/-- Modelled from the spec: after a stall the caller supplies the next chunk of input and
re-enters, with the output location as the kernel left it and `flush` clear. -/
def decode_supply (sizeof_block_footer sizeof_main_footer : Nat)
    (r : Option (DENSITY_KERNEL_DECODE_STATE × density_memory_teleport ×
      density_memory_location × density_chameleon_decode_state)) (chunk : List Nat) :
    Option (DENSITY_KERNEL_DECODE_STATE × density_memory_teleport ×
      density_memory_location × density_chameleon_decode_state) :=
  match r with
  | none => none
  | some (_, inp, out, state) =>
    decode_reenter sizeof_block_footer sizeof_main_footer
      (density_memory_teleport_supply inp chunk) out state false

/-- Modelled from the spec: a stream delivered chunk by chunk. -/
def decode_chunks (sizeof_block_footer sizeof_main_footer : Nat)
    (inp : density_memory_teleport) (out : density_memory_location)
    (state : density_chameleon_decode_state) (chunks : List (List Nat)) :
    Option (DENSITY_KERNEL_DECODE_STATE × density_memory_teleport ×
      density_memory_location × density_chameleon_decode_state) :=
  chunks.foldl (decode_supply sizeof_block_footer sizeof_main_footer)
    (decode_reenter sizeof_block_footer sizeof_main_footer inp out state false)

/-- A decode state before `init`; `init` overwrites every field but `resetCycle`, `signature`,
`shift` and `bodyLength`. -/
def blank_state : density_chameleon_decode_state :=
  { process := .PREPARE_NEW_BLOCK, parameters := { as_bytes := [] }, resetCycle := 0,
    signature := 0, shift := 0, bodyLength := 0, signaturesCount := 0, efficiencyChecked := 0,
    endDataOverhead := 0, dictionary := { entries := fun _ => 0 } }

/-- Modelled from the spec: a whole stream decoded in one piece with `flush` set, from a state
initialised with parameter byte `p`: `init`, then `process` re-entered on `INFO_*`. The result
is the status and the bytes written. -/
def decode_flushed (sizeof_block_footer sizeof_main_footer : Nat) (p : Nat)
    (endDataOverhead : Nat) (room : Nat) (stream : List Nat) :
    Option (DENSITY_KERNEL_DECODE_STATE × List Nat) :=
  match density_chameleon_decode_init blank_state { as_bytes := [p] } endDataOverhead with
  | none => none
  | some (_, state) =>
    match decode_reenter sizeof_block_footer sizeof_main_footer { bytes := stream }
        { ahead := [], stored := [], available_bytes := room } state true with
    | none => none
    | some (returnState, _, out, _) => some (returnState, out.stored)

/-- Modelled from the spec: a whole stream decoded with `flush` clear until the kernel stalls,
then re-entered with `flush` set (the `continue` then `finish` of the public API), from a state
initialised with parameter byte `p`. The result is the last status and the bytes written. -/
def decode_continue_then_flush (sizeof_block_footer sizeof_main_footer : Nat) (p : Nat)
    (endDataOverhead : Nat) (room : Nat) (stream : List Nat) :
    Option (DENSITY_KERNEL_DECODE_STATE × List Nat) :=
  match density_chameleon_decode_init blank_state { as_bytes := [p] } endDataOverhead with
  | none => none
  | some (_, state) =>
    match decode_reenter sizeof_block_footer sizeof_main_footer { bytes := stream }
        { ahead := [], stored := [], available_bytes := room } state false with
    | none => none
    | some (_, inp, out, state) =>
      match decode_reenter sizeof_block_footer sizeof_main_footer inp out state true with
      | none => none
      | some (returnState, _, out, _) => some (returnState, out.stored)

/-- Modelled from the spec: a whole stream decoded with `flush` clear, from a state initialised
with parameter byte `p`: `init`, then `process` re-entered on `INFO_*`. The result is the status,
the bytes left in the teleport and the bytes written. -/
def decode_unflushed (sizeof_block_footer sizeof_main_footer : Nat) (p : Nat)
    (endDataOverhead : Nat) (room : Nat) (stream : List Nat) :
    Option (DENSITY_KERNEL_DECODE_STATE × List Nat × List Nat) :=
  match density_chameleon_decode_init blank_state { as_bytes := [p] } endDataOverhead with
  | none => none
  | some (_, state) =>
    match decode_reenter sizeof_block_footer sizeof_main_footer { bytes := stream }
        { ahead := [], stored := [], available_bytes := room } state false with
    | none => none
    | some (returnState, inp, out, _) => some (returnState, inp.bytes, out.stored)

/-! ## The encoder, as far as the specification fixes it -/

/-- Modelled from the spec: the encoder's choice for one 32-bit word (the encoder,
`kernel_chameleon_encode.c`, is not part of the sources). With `h = HASH(W)`, a word found at
slot `h` is emitted as the 16-bit index `h` (signature bit 1); any other word is stored at slot
`h` and emitted literally (signature bit 0). The result is the bit, the bytes, the dictionary. -/
def chameleon_encode_word (dict : Nat → Nat) (W : Nat) : Nat × List Nat × (Nat → Nat) :=
  let h := DENSITY_CHAMELEON_HASH_ALGORITHM W
  if dict h = W then (1, [h % 256, h / 256 % 256], dict)
  else (0, reference_word_bytes W, Function.update dict h W)

/-- Modelled from the spec: the words of a block encoded in order; the result is the list of
signature bits, first word first, the body and the dictionary. -/
def chameleon_encode_words : (Nat → Nat) → List Nat → List Nat × List Nat × (Nat → Nat)
  | dict, [] => ([], [], dict)
  | dict, W :: rest =>
    let r := chameleon_encode_word dict W
    let t := chameleon_encode_words r.2.2 rest
    (r.1 :: t.1, r.2.1 ++ t.2.1, t.2.2)

/-- Modelled from the spec: the signature whose bit `i` (LSB = 0) is the `i`-th bit of the
list. -/
def signature_of_bits : List Nat → Nat
  | [] => 0
  | b :: rest => b + 2 * signature_of_bits rest

/-- Modelled from the spec: the little-endian 32-bit words of a byte string whose length is a
multiple of 4. -/
def words_of_bytes : List Nat → List Nat
  | b0 :: b1 :: b2 :: b3 :: rest =>
    (b0 + 256 * b1 + 256 ^ 2 * b2 + 256 ^ 3 * b3) :: words_of_bytes rest
  | _ => []

/-- Modelled from the spec: the 8 bytes of a signature, little-endian on the wire. -/
def signature_bytes (sig : Nat) : List Nat :=
  (List.range 8).map (fun k => sig / 256 ^ k % 256)

/-- Modelled from the spec: the kernel encoding of `X` from dictionary `dict`, `fuel` bounding
the number of blocks. Each run of 256 bytes becomes a block, "a signature word followed by
`64·4 − popcount(signature)·2` bytes of body"; a shorter rest is the tail and is emitted
verbatim. The dictionary is reset before the blocks numbered `n · 2 ^ k` with `n ≥ 1`, for a
parameter byte `k ≠ 0`. -/
def chameleon_encode_blocks (k : Nat) : Nat → (Nat → Nat) → Nat → List Nat → List Nat
  | 0, _, _, X => X
  | fuel + 1, dict, block, X =>
    if X.length < 256 then X
    else
      let dict := if k ≠ 0 ∧ block ≠ 0 ∧ block % 2 ^ k = 0 then (fun _ => 0) else dict
      let r := chameleon_encode_words dict (words_of_bytes (X.take 256))
      signature_bytes (signature_of_bits r.1) ++ r.2.1
        ++ chameleon_encode_blocks k fuel r.2.2 (block + 1) (X.drop 256)

/-- Modelled from the spec: the stream of `X` under parameter byte `p` as the kernel decoder
receives it, the kernel encoding from a zeroed dictionary followed by the block footer and the
main footer. -/
def chameleon_encode (p : Nat) (X block_footer main_footer : List Nat) : List Nat :=
  chameleon_encode_blocks p (X.length / 256 + 1) (fun _ => 0) 0 X ++ block_footer ++ main_footer

/-! ## Particular inputs -/

/-- The block of scenario 3 of the specification: signature `0xFFFFFFFFFFFFFFFE`, the literal
word `00 00 00 00`, then 63 references to slot `HASH(0) = 0`. -/
def scenario3_block : List Nat :=
  [0xFE, 0xFF, 0xFF, 0xFF, 0xFF, 0xFF, 0xFF, 0xFF] ++ [0, 0, 0, 0] ++ List.replicate 126 0

/-- The signature of `scenario3_block`. -/
def scenario3_signature : Nat := 0xFFFFFFFFFFFFFFFE

/-- The body of `scenario3_block`: 4 + 63 · 2 = 130 bytes. -/
def scenario3_body : List Nat :=
  [0, 0, 0, 0] ++ List.replicate 126 0

/-- A state at the SIGNATURE case, as `process` leaves it when it stalls there. -/
def signature_state : density_chameleon_decode_state :=
  { blank_state with process := .SIGNATURE }

/-- A short tail followed by 8 bytes of footers. -/
def tail_and_footers : density_memory_teleport :=
  { bytes := [1, 2, 3] ++ [9, 9, 9, 9, 8, 8, 8, 8] }

/-- The state that `init` makes of `blank_state` for the parameter byte 0. -/
def initial_state (endDataOverhead : Nat) : density_chameleon_decode_state :=
  { blank_state with parameters := { as_bytes := [0] }, endDataOverhead := endDataOverhead }

/-- An output location with nothing stored and `room` bytes available. -/
def fresh_output (room : Nat) : density_memory_location :=
  { ahead := [], stored := [], available_bytes := room }

/-- A byte string of 64 equal words `01 00 00 00`. -/
def sixty_four_ones : List Nat :=
  (List.replicate 64 [1, 0, 0, 0]).flatten

/-- A tail of 255 bytes that starts with the byte `0x0F`. -/
def tail_255 : List Nat :=
  0x0F :: List.replicate 254 0

/-- The byte string `sixty_four_ones` followed by a tail of 8 bytes. -/
def sixty_four_ones_and_tail : List Nat :=
  sixty_four_ones ++ [1, 2, 3, 4, 5, 6, 7, 8]

/-- A block footer of 4 bytes, for the examples. -/
def example_block_footer : List Nat := [9, 9, 9, 9]

/-- A main footer of 4 bytes, for the examples. -/
def example_main_footer : List Nat := [8, 8, 8, 8]

/-! ## Measures for the two loops -/

/-- A bound on the number of cases `process` still runs: three per block that the output has
room for, plus those left of the current block. -/
def process_measure (out : density_memory_location) (state : density_chameleon_decode_state) :
    Nat :=
  3 * (out.available_bytes / 256) +
    (match state.process with
     | .PREPARE_NEW_BLOCK => 3
     | .SIGNATURE => 2
     | .DECOMPRESS_BODY => 1)

/-- Whether the next `check_state` answers with an `INFO_*` status: 1 if `process` is entered at
PREPARE_NEW_BLOCK and `check_state` returns one, else 0. -/
def info_pending (out : density_memory_location) (state : density_chameleon_decode_state) :
    Nat :=
  if state.process = .PREPARE_NEW_BLOCK then
    match density_chameleon_decode_check_state out state with
    | some (returnState, _) =>
      if returnState = .INFO_NEW_BLOCK ∨ returnState = .INFO_EFFICIENCY_CHECK then 1 else 0
    | none => 0
  else 0

/-- A bound on the number of calls of `process` that `decode_reenter` still makes. -/
def reenter_measure (out : density_memory_location) (state : density_chameleon_decode_state) :
    Nat :=
  2 * (out.available_bytes / 256) + info_pending out state + 1

/-- What holds of the output location and the state whenever `process` is entered in a run that
started with `init`: the shift byte is one for which `1 << shift` is defined; past
PREPARE_NEW_BLOCK the output still has the 256 bytes that `check_state` found; at
DECOMPRESS_BODY the shift is 0 and `bodyLength` is the one computed from the signature. -/
def decode_invariant (out : density_memory_location) (state : density_chameleon_decode_state) :
    Prop :=
  state.parameters.as_bytes.headD 0 < 31 ∧
  (state.process = .SIGNATURE → 256 ≤ out.available_bytes) ∧
  (state.process = .DECOMPRESS_BODY →
    256 ≤ out.available_bytes ∧ state.shift = 0 ∧
    state.bodyLength = 256 - 2 * popcountll state.signature)

instance decode_invariant_decidable (out : density_memory_location)
    (state : density_chameleon_decode_state) : Decidable (decode_invariant out state) := by
  unfold decode_invariant
  infer_instance

/-- A state whose counter has reached 256 with `resetCycle` at 0, for the parameter byte 1. -/
def new_block_state : density_chameleon_decode_state :=
  { blank_state with parameters := { as_bytes := [1] }, signaturesCount := 256,
                     efficiencyChecked := 1 }

/-! ## Runs that start with `init` -/

/-- The number of signatures that a case of `process` reads: one when it is the SIGNATURE case
and it passes control on to DECOMPRESS_BODY (first component of its result `none`), else
none. -/
def signatures_read (state : density_chameleon_decode_state)
    (r : Option DENSITY_KERNEL_DECODE_STATE) : Nat :=
  if state.process = .SIGNATURE ∧ r = none then 1 else 0

/-- The states of a run that started with `init` on `parameters`, each with the number of
signatures read so far: `init` yields a state with none read, and every case of `process`,
entered with any footer sizes, teleport, output location and `flush`, yields the next state.
A call of `process` is a sequence of such cases, so the states between two calls are among
them. -/
inductive run_state (parameters : density_main_header_parameters) :
    Nat → density_chameleon_decode_state → Prop where
  | init (state0 : density_chameleon_decode_state) (endDataOverhead : Nat)
      (r : DENSITY_KERNEL_DECODE_STATE) (state : density_chameleon_decode_state) :
      density_chameleon_decode_init state0 parameters endDataOverhead = some (r, state) →
      run_state parameters 0 state
  | case (n : Nat) (state : density_chameleon_decode_state)
      (sizeof_block_footer sizeof_main_footer : Nat) (inp : density_memory_teleport)
      (out : density_memory_location) (flush : Bool)
      (r : Option DENSITY_KERNEL_DECODE_STATE) (inp' : density_memory_teleport)
      (out' : density_memory_location) (state' : density_chameleon_decode_state) :
      run_state parameters n state →
      density_chameleon_decode_process_case sizeof_block_footer sizeof_main_footer
        inp out state flush = some (r, inp', out', state') →
      run_state parameters (n + signatures_read state r) state'

/-- What holds of the counters in every state of a run. -/
def counter_invariant (state : density_chameleon_decode_state) : Prop :=
  state.signaturesCount ≤ 256 ∧
  (state.process = .SIGNATURE → state.signaturesCount < 256) ∧
  (state.process = .DECOMPRESS_BODY → 1 ≤ state.signaturesCount) ∧
  state.efficiencyChecked ≤ 1 ∧
  (state.efficiencyChecked = 1 → 64 ≤ state.signaturesCount)

/-- What ties the counters of a state to the number `n` of signatures read so far, for the
shift byte `k` of `parameters`: with `E` the number of times `signaturesCount` was set back
from 256 to 0, `n = 256 * E + signaturesCount` and `resetCycle = 2 ^ k - 1 - E % 2 ^ k`; and
when the next signature to be read is numbered by a multiple of `256 * 2 ^ k`, the dictionary
is zero. -/
def cadence_invariant (parameters : density_main_header_parameters) (n : Nat)
    (state : density_chameleon_decode_state) : Prop :=
  state.parameters = parameters ∧
  (∃ E : Nat, n = 256 * E + state.signaturesCount ∧
    state.resetCycle + E % 2 ^ parameters.as_bytes.headD 0 + 1
      = 2 ^ parameters.as_bytes.headD 0) ∧
  (state.process ≠ .DECOMPRESS_BODY → state.signaturesCount ≠ 256 →
    n % (256 * 2 ^ parameters.as_bytes.headD 0) = 0 →
    state.dictionary.entries = fun _ => 0)

/-- The state that `init` makes of `blank_state` for the parameter byte 1. -/
def initial_state_shift1 : density_chameleon_decode_state :=
  { blank_state with parameters := { as_bytes := [1] }, resetCycle := 1 }

/-- A block whose 64 words are all references to slot `HASH(1) = 0x9D46`: signature
`0xFFFFFFFFFFFFFFFF`, then 64 times the bytes `46 9D`. -/
def all_references_block : List Nat :=
  [0xFF, 0xFF, 0xFF, 0xFF, 0xFF, 0xFF, 0xFF, 0xFF] ++ (List.replicate 64 [0x46, 0x9D]).flatten

/-- A block that stores the word 1 once and refers to it 63 times: signature
`0xFFFFFFFFFFFFFFFE`, the literal `01 00 00 00`, then 63 times the bytes `46 9D`. -/
def one_literal_block : List Nat :=
  [0xFE, 0xFF, 0xFF, 0xFF, 0xFF, 0xFF, 0xFF, 0xFF] ++ [1, 0, 0, 0]
    ++ (List.replicate 63 [0x46, 0x9D]).flatten

/-- A state before `init` whose `resetCycle` holds 5. -/
def prior_state_cycle5 : density_chameleon_decode_state :=
  { blank_state with resetCycle := 5 }

/-- A state whose counter has reached 256 with `resetCycle` at 0, for the parameter byte 32. -/
def new_block_state_shift32 : density_chameleon_decode_state :=
  { blank_state with parameters := { as_bytes := [32] }, signaturesCount := 256 }

/-- The state in which `process` stalls after it has read the signature of the block of
scenario 3, from the state that `init` makes for the parameter byte 0. -/
def scenario3_body_state : density_chameleon_decode_state :=
  { initial_state 0 with process := .DECOMPRESS_BODY, signature := scenario3_signature,
                         shift := 0, bodyLength := 130, signaturesCount := 1 }

/-- Modelled from the spec: a stream delivered in two pieces to a state initialised with
parameter byte `p`: `process` is called on the first piece with `flush` clear and, after it
has returned, re-entered with the second piece supplied, the output location as the kernel
left it, and `flush` set. The result is the last status and the bytes written. -/
def decode_cut_then_flush (sizeof_block_footer sizeof_main_footer : Nat) (p : Nat)
    (room : Nat) (first second : List Nat) : Option (DENSITY_KERNEL_DECODE_STATE × List Nat) :=
  match density_chameleon_decode_init blank_state { as_bytes := [p] } 0 with
  | none => none
  | some (_, state) =>
    match density_chameleon_decode_process sizeof_block_footer sizeof_main_footer
        { bytes := first } (fresh_output room) state false with
    | none => none
    | some (_, inp, out, state) =>
      match density_chameleon_decode_process sizeof_block_footer sizeof_main_footer
          (density_memory_teleport_supply inp second) out state true with
      | none => none
      | some (returnState, _, out, _) => some (returnState, out.stored)

/-- The stream of scenario 3 of the specification: its block, then a block footer and a main
footer of 4 bytes each. -/
def scenario3_stream : List Nat :=
  scenario3_block ++ example_block_footer ++ example_main_footer

/-- A state whose counter has reached 256 with `resetCycle` at 0, for the parameter byte 40. -/
def new_block_state_shift40 : density_chameleon_decode_state :=
  { blank_state with parameters := { as_bytes := [40] }, signaturesCount := 256,
                     efficiencyChecked := 1 }

/-- The state of a run on the parameter byte 1 after `c` blocks of 64 references each
(signature `0xFFFFFFFFFFFFFFFF`, body of 128 bytes): such blocks leave the dictionary as `init`
made it. -/
def references_state (c : Nat) : density_chameleon_decode_state :=
  { initial_state_shift1 with signature := 0xFFFFFFFFFFFFFFFF, shift := 64, bodyLength := 128,
                              signaturesCount := c }

/-! ## Elementary facts -/

theorem shift_xor_ne_zero (shift : Nat) : shift ^^^ 64 ≠ 0 ↔ shift ≠ 64 :=
  Nat.xor_ne_zero

theorem hash_lt (value32 : Nat) : DENSITY_CHAMELEON_HASH_ALGORITHM value32 < 65536 := by
  unfold DENSITY_CHAMELEON_HASH_ALGORITHM
  rw [Nat.shiftRight_eq_div_pow]
  have h : value32 * 0x9D46C91B % 2 ^ 32 < 2 ^ 32 := Nat.mod_lt _ (by norm_num)
  norm_num at h ⊢
  omega

theorem little_endian_16_lt (b0 b1 : Nat) : DENSITY_LITTLE_ENDIAN_16 b0 b1 < 65536 := by
  unfold DENSITY_LITTLE_ENDIAN_16
  omega

theorem compressed_chunk_eq (chunk : Nat × Nat) (out : density_memory_location)
    (state : density_chameleon_decode_state) :
    density_chameleon_decode_compressed_chunk chunk out state
      = some
          ({ out with stored := out.stored ++
                store_uint32 (state.dictionary.entries (DENSITY_LITTLE_ENDIAN_16 chunk.1 chunk.2)) },
           state) := by
  unfold density_chameleon_decode_compressed_chunk density_chameleon_dictionary_entries
  simp only [if_pos (little_endian_16_lt chunk.1 chunk.2)]

theorem uncompressed_chunk_eq (chunk : Nat × Nat × Nat × Nat) (out : density_memory_location)
    (state : density_chameleon_decode_state) :
    density_chameleon_decode_uncompressed_chunk chunk out state
      = some
          ({ out with stored := out.stored ++
                store_uint32 (DENSITY_LITTLE_ENDIAN_32 chunk.1 chunk.2.1 chunk.2.2.1 chunk.2.2.2) },
          { state with dictionary :=
              { entries := fun i =>
                  if i = DENSITY_CHAMELEON_HASH_ALGORITHM
                      (DENSITY_LITTLE_ENDIAN_32 chunk.1 chunk.2.1 chunk.2.2.1 chunk.2.2.2)
                  then DENSITY_LITTLE_ENDIAN_32 chunk.1 chunk.2.1 chunk.2.2.1 chunk.2.2.2
                  else state.dictionary.entries i } }) := by
  unfold density_chameleon_decode_uncompressed_chunk density_chameleon_dictionary_entries
  simp only [if_pos (hash_lt _)]

theorem kernel_frame (inp out : density_memory_location) (compressed : Bool)
    (state : density_chameleon_decode_state)
    (inp1 out1 : density_memory_location) (state1 : density_chameleon_decode_state)
    (h : density_chameleon_decode_kernel inp out compressed state = some (inp1, out1, state1)) :
    ∃ (written : List Nat) (d1 : density_chameleon_dictionary),
      out1 = { out with stored := out.stored ++ written } ∧
      state1 = { state with dictionary := d1 } := by
  unfold density_chameleon_decode_kernel at h
  split at h
  · split at h
    · simp at h
    · rw [compressed_chunk_eq] at h
      simp only [Option.some.injEq, Prod.mk.injEq] at h
      exact ⟨_, state.dictionary, h.2.1.symm, h.2.2.symm⟩
  · split at h
    · simp at h
    · rw [uncompressed_chunk_eq] at h
      simp only [Option.some.injEq, Prod.mk.injEq] at h
      exact ⟨_, _, h.2.1.symm, h.2.2.symm⟩

theorem test_compressed_eq (state : density_chameleon_decode_state) (h : state.shift < 64) :
    density_chameleon_decode_test_compressed state
      = some (decide (state.signature / 2 ^ state.shift % 2 = 1)) := by
  unfold density_chameleon_decode_test_compressed DENSITY_CHAMELEON_SIGNATURE_FLAG_MAP
  rw [if_pos h, Nat.and_one_is_mod, Nat.shiftRight_eq_div_pow]
  congr 1
  apply decide_eq_decide.mpr
  omega

theorem signature_body_bytes_add_sum (sig : Nat) :
    ∀ n shift, signature_body_bytes sig shift n
      + 2 * ((List.range' shift n).map (fun i => sig / 2 ^ i % 2)).sum = 4 * n := by
  intro n
  induction n with
  | zero => intro shift; simp [signature_body_bytes]
  | succ n ih =>
    intro shift
    have h := ih (shift + 1)
    rw [List.range'_succ]
    simp only [signature_body_bytes, List.map_cons, List.sum_cons]
    have hb : sig / 2 ^ shift % 2 < 2 := Nat.mod_lt _ (by decide)
    split <;> omega

theorem popcountll_le (sig : Nat) : 2 * popcountll sig ≤ 256 := by
  have h := signature_body_bytes_add_sum sig 64 0
  unfold popcountll
  rw [List.range_eq_range']
  omega

theorem signature_body_bytes_eq (sig : Nat) :
    signature_body_bytes sig 0 64 = 256 - 2 * popcountll sig := by
  have h := signature_body_bytes_add_sum sig 64 0
  unfold popcountll
  rw [List.range_eq_range']
  omega

/-! ## The loop of `process_data` -/

theorem process_data_loop_run :
    ∀ (n : Nat) (inp out : density_memory_location) (state : density_chameleon_decode_state)
      (w rest : List Nat),
      state.shift + n = 64 → inp.ahead = w ++ rest →
      w.length = signature_body_bytes state.signature state.shift n →
      ∃ (written : List Nat) (d : density_chameleon_dictionary),
        density_chameleon_decode_process_data_loop n inp out state
          = some ({ inp with ahead := rest }, { out with stored := out.stored ++ written },
                  { state with shift := 64, dictionary := d })
        ∧ written.length = 4 * n := by
  intro n
  induction n with
  | zero =>
    intro inp out state w rest hs hw hl
    refine ⟨[], state.dictionary, ?_, rfl⟩
    have hw0 : w = [] := List.length_eq_zero.mp (by simpa [signature_body_bytes] using hl)
    have hs64 : state.shift = 64 := by omega
    subst hw0
    simp only [List.nil_append] at hw
    simp only [density_chameleon_decode_process_data_loop, hs64, Nat.xor_self, ne_eq,
      not_true_eq_false, if_false, List.append_nil]
    rw [← hw, ← hs64]
  | succ n ih =>
    intro inp out state w rest hs hw hl
    have hlt : state.shift < 64 := by omega
    have hne : state.shift ^^^ 64 ≠ 0 := (shift_xor_ne_zero _).mpr (by omega)
    rw [density_chameleon_decode_process_data_loop, if_pos hne, test_compressed_eq state hlt]
    simp only [signature_body_bytes] at hl
    by_cases hbit : state.signature / 2 ^ state.shift % 2 = 1
    · rw [if_pos hbit] at hl
      obtain ⟨b0, w1, rfl⟩ : ∃ b0 w1, w = b0 :: w1 := by
        cases w with
        | nil => simp at hl; omega
        | cons b0 w1 => exact ⟨b0, w1, rfl⟩
      obtain ⟨b1, w2, rfl⟩ : ∃ b1 w2, w1 = b1 :: w2 := by
        cases w1 with
        | nil => simp at hl; omega
        | cons b1 w2 => exact ⟨b1, w2, rfl⟩
      simp only [List.length_cons] at hl
      simp only [hbit, decide_True, density_chameleon_decode_kernel, if_true,
        density_chameleon_decode_read_compressed_chunk, hw, List.cons_append,
        compressed_chunk_eq]
      obtain ⟨written, d, hrun, hlen⟩ := ih { inp with ahead := w2 ++ rest }
        { out with
            stored := out.stored ++ store_uint32 (state.dictionary.entries (DENSITY_LITTLE_ENDIAN_16 b0 b1)) }
        { state with shift := state.shift + 1 } w2 rest (by simp; omega) rfl
        (by simp; omega)
      refine ⟨store_uint32 (state.dictionary.entries (DENSITY_LITTLE_ENDIAN_16 b0 b1))
        ++ written, d, ?_, ?_⟩
      · rw [hrun]; simp
      · simp [store_uint32, hlen]; omega
    · rw [if_neg hbit] at hl
      obtain ⟨b0, b1, b2, b3, w4, rfl⟩ : ∃ b0 b1 b2 b3 w4, w = b0 :: b1 :: b2 :: b3 :: w4 := by
        match w, hl with
        | b0 :: b1 :: b2 :: b3 :: w4, _ => exact ⟨b0, b1, b2, b3, w4, rfl⟩
        | [], hl => simp at hl; omega
        | [_], hl => simp at hl; omega
        | [_, _], hl => simp at hl; omega
        | [_, _, _], hl => simp at hl; omega
      simp only [List.length_cons] at hl
      simp only [hbit, decide_False, density_chameleon_decode_kernel, Bool.false_eq_true,
        if_false, density_chameleon_decode_read_uncompressed_chunk, hw, List.cons_append,
        uncompressed_chunk_eq]
      obtain ⟨written, d, hrun, hlen⟩ := ih { inp with ahead := w4 ++ rest }
        { out with stored := out.stored ++ store_uint32 (DENSITY_LITTLE_ENDIAN_32 b0 b1 b2 b3) }
        { state with
            shift := state.shift + 1,
            dictionary := { entries := fun i =>
              if i = DENSITY_CHAMELEON_HASH_ALGORITHM (DENSITY_LITTLE_ENDIAN_32 b0 b1 b2 b3)
              then DENSITY_LITTLE_ENDIAN_32 b0 b1 b2 b3 else state.dictionary.entries i } }
        w4 rest (by simp; omega) rfl (by simp; omega)
      refine ⟨store_uint32 (DENSITY_LITTLE_ENDIAN_32 b0 b1 b2 b3) ++ written, d, ?_, ?_⟩
      · rw [hrun]; simp
      · simp [store_uint32, hlen]; omega

/-! ## The loop of `process_data` against the reference -/

theorem drop_eq_cons_imp {l : List Nat} {c b : Nat} {r : List Nat} (h : l.drop c = b :: r) :
    l.getD c 0 = b ∧ l.drop (c + 1) = r := by
  induction c generalizing l with
  | zero =>
    cases l with
    | nil => simp at h
    | cons a t => simp at h; simp [h]
  | succ c ih =>
    cases l with
    | nil => simp at h
    | cons a t => simp at h; simpa using ih h

theorem store_uint32_eq_reference (word : Nat) :
    store_uint32 word = reference_word_bytes word := by
  simp [store_uint32, reference_word_bytes, List.range_succ]

theorem process_data_loop_reference (sig : Nat) (body base : List Nat) :
    ∀ (n : Nat) (inp out : density_memory_location) (state : density_chameleon_decode_state)
      (acc : body_decode_reference_state),
      state.shift + n = 64 → state.signature = sig →
      (∀ b ∈ inp.ahead, b < 256) →
      inp.ahead = body.drop acc.cursor →
      acc.cursor + signature_body_bytes sig state.shift n = body.length →
      state.dictionary.entries = acc.dict → out.stored = base ++ acc.output →
      density_chameleon_decode_process_data_loop n inp out state
        = some ({ inp with ahead := [] },
            { out with stored := base ++
                ((List.range' state.shift n).foldl (body_decode_reference_word sig body) acc).output },
            { state with shift := 64, dictionary :=
                { entries :=
                  ((List.range' state.shift n).foldl (body_decode_reference_word sig body) acc).dict } })
      := by
  intro n
  induction n with
  | zero =>
    intro inp out state acc hs hsig hb hw hl hd ho
    have hs64 : state.shift = 64 := by omega
    simp only [signature_body_bytes, Nat.add_zero] at hl
    have hnil : inp.ahead = [] := by rw [hw, hl]; simp
    simp only [density_chameleon_decode_process_data_loop, hs64, Nat.xor_self, ne_eq,
      not_true_eq_false, if_false, List.range'_zero, List.foldl_nil]
    rw [← hnil, ← ho, ← hd, ← hs64]
  | succ n ih =>
    intro inp out state acc hs hsig hb hw hl hd ho
    have hlt : state.shift < 64 := by omega
    have hne : state.shift ^^^ 64 ≠ 0 := (shift_xor_ne_zero _).mpr (by omega)
    rw [density_chameleon_decode_process_data_loop, if_pos hne, test_compressed_eq state hlt,
      List.range'_succ, List.foldl_cons]
    simp only [signature_body_bytes] at hl
    by_cases hbit : sig / 2 ^ state.shift % 2 = 1
    · have hbit' : state.signature / 2 ^ state.shift % 2 = 1 := by rw [hsig]; exact hbit
      rw [if_pos hbit] at hl
      obtain ⟨b0, b1, w2, hahead⟩ : ∃ b0 b1 w2, inp.ahead = b0 :: b1 :: w2 := by
        have hlen : inp.ahead.length = body.length - acc.cursor := by rw [hw]; simp
        match hm : inp.ahead with
        | b0 :: b1 :: w2 => exact ⟨b0, b1, w2, rfl⟩
        | [] => rw [hm] at hlen; simp at hlen; omega
        | [_] => rw [hm] at hlen; simp at hlen; omega
      have hb0 : b0 < 256 := hb b0 (by simp [hahead])
      have hb1 : b1 < 256 := hb b1 (by simp [hahead])
      obtain ⟨hg0, hd1⟩ := drop_eq_cons_imp (hw ▸ hahead : body.drop acc.cursor = b0 :: b1 :: w2)
      obtain ⟨hg1, hd2⟩ := drop_eq_cons_imp hd1
      have hidx : DENSITY_LITTLE_ENDIAN_16 b0 b1 = reference_read_u16 body acc.cursor := by
        unfold DENSITY_LITTLE_ENDIAN_16 reference_read_u16
        rw [hg0, hg1, Nat.mod_eq_of_lt hb0, Nat.mod_eq_of_lt hb1]
      simp only [hbit', decide_True, density_chameleon_decode_kernel, if_true,
        density_chameleon_decode_read_compressed_chunk, hahead,
        compressed_chunk_eq]
      have hstep : body_decode_reference_word sig body acc state.shift
          = { cursor := acc.cursor + 2, dict := acc.dict,
              output := acc.output ++ reference_word_bytes
                (acc.dict (reference_read_u16 body acc.cursor)) } := by
        simp [body_decode_reference_word, reference_test, hbit]
      rw [hstep]
      have := ih { inp with ahead := w2 }
        { out with
            stored := out.stored ++ store_uint32 (state.dictionary.entries (DENSITY_LITTLE_ENDIAN_16 b0 b1)) }
        { state with shift := state.shift + 1 }
        { cursor := acc.cursor + 2, dict := acc.dict,
          output := acc.output ++ reference_word_bytes
            (acc.dict (reference_read_u16 body acc.cursor)) }
        (by simp; omega) hsig
        (by intro b hbm; exact hb b (by simp [hahead, hbm]))
        (by simpa using hd2.symm) (by simp; omega) hd
        (by simp [ho, hd, hidx, store_uint32_eq_reference])
      simpa using this
    · have hbit' : ¬ state.signature / 2 ^ state.shift % 2 = 1 := by rw [hsig]; exact hbit
      rw [if_neg hbit] at hl
      obtain ⟨b0, b1, b2, b3, w4, hahead⟩ :
          ∃ b0 b1 b2 b3 w4, inp.ahead = b0 :: b1 :: b2 :: b3 :: w4 := by
        have hlen : inp.ahead.length = body.length - acc.cursor := by rw [hw]; simp
        match hm : inp.ahead with
        | b0 :: b1 :: b2 :: b3 :: w4 => exact ⟨b0, b1, b2, b3, w4, rfl⟩
        | [] => rw [hm] at hlen; simp at hlen; omega
        | [_] => rw [hm] at hlen; simp at hlen; omega
        | [_, _] => rw [hm] at hlen; simp at hlen; omega
        | [_, _, _] => rw [hm] at hlen; simp at hlen; omega
      have hb0 : b0 < 256 := hb b0 (by simp [hahead])
      have hb1 : b1 < 256 := hb b1 (by simp [hahead])
      have hb2 : b2 < 256 := hb b2 (by simp [hahead])
      have hb3 : b3 < 256 := hb b3 (by simp [hahead])
      obtain ⟨hg0, hd1⟩ := drop_eq_cons_imp
        (hw ▸ hahead : body.drop acc.cursor = b0 :: b1 :: b2 :: b3 :: w4)
      obtain ⟨hg1, hd2⟩ := drop_eq_cons_imp hd1
      obtain ⟨hg2, hd3⟩ := drop_eq_cons_imp hd2
      obtain ⟨hg3, hd4⟩ := drop_eq_cons_imp hd3
      have hword : DENSITY_LITTLE_ENDIAN_32 b0 b1 b2 b3 = reference_read_u32 body acc.cursor := by
        unfold DENSITY_LITTLE_ENDIAN_32 reference_read_u32
        rw [hg0, hg1, hg2, hg3, Nat.mod_eq_of_lt hb0, Nat.mod_eq_of_lt hb1,
          Nat.mod_eq_of_lt hb2, Nat.mod_eq_of_lt hb3]
        norm_num
      simp only [hbit', decide_False, density_chameleon_decode_kernel, Bool.false_eq_true,
        if_false, density_chameleon_decode_read_uncompressed_chunk, hahead,
        uncompressed_chunk_eq]
      have hstep : body_decode_reference_word sig body acc state.shift
          = { cursor := acc.cursor + 4,
              dict := Function.update acc.dict
                (DENSITY_CHAMELEON_HASH_ALGORITHM (reference_read_u32 body acc.cursor))
                (reference_read_u32 body acc.cursor),
              output := acc.output ++ reference_word_bytes (reference_read_u32 body acc.cursor) } := by
        simp [body_decode_reference_word, reference_test, hbit]
      rw [hstep]
      have := ih { inp with ahead := w4 }
        { out with stored := out.stored ++ store_uint32 (DENSITY_LITTLE_ENDIAN_32 b0 b1 b2 b3) }
        { state with
            shift := state.shift + 1
            dictionary := { entries := fun i =>
              if i = DENSITY_CHAMELEON_HASH_ALGORITHM (DENSITY_LITTLE_ENDIAN_32 b0 b1 b2 b3)
              then DENSITY_LITTLE_ENDIAN_32 b0 b1 b2 b3 else state.dictionary.entries i } }
        { cursor := acc.cursor + 4,
          dict := Function.update acc.dict
            (DENSITY_CHAMELEON_HASH_ALGORITHM (reference_read_u32 body acc.cursor))
            (reference_read_u32 body acc.cursor),
          output := acc.output ++ reference_word_bytes (reference_read_u32 body acc.cursor) }
        (by simp; omega) hsig
        (by intro b hbm; exact hb b (by simp [hahead, hbm]))
        (by simpa using hd4.symm) (by simp; omega)
        (by funext i; simp [Function.update, hword, hd])
        (by simp [ho, hword, store_uint32_eq_reference])
      simpa using this

/-! ## The cases of `process`, one at a time -/

theorem signature_phase_run (sizeof_block_footer sizeof_main_footer : Nat)
    (inp : density_memory_teleport) (out : density_memory_location)
    (state : density_chameleon_decode_state) (flush : Bool)
    (hnotail : ¬ (flush = true ∧
      sub_uint64 (sub_uint64 (density_memory_teleport_available inp) sizeof_block_footer)
        sizeof_main_footer < DENSITY_CHAMELEON_ENCODE_PROCESS_UNIT_SIZE))
    (h8 : 8 ≤ inp.bytes.length) :
    density_chameleon_decode_process_signature sizeof_block_footer sizeof_main_footer
        inp out state flush
      = some (none, density_memory_teleport_consume inp 8, out,
          { state with signature := DENSITY_LITTLE_ENDIAN_64 (inp.bytes.take 8),
                       shift := 0,
                       signaturesCount := state.signaturesCount + 1,
                       bodyLength := 256 - 2 * popcountll (DENSITY_LITTLE_ENDIAN_64 (inp.bytes.take 8)),
                       process := .DECOMPRESS_BODY }) := by
  unfold density_chameleon_decode_process_signature
  simp only [if_neg hnotail, density_memory_teleport_read, if_pos h8,
    density_chameleon_decode_read_signature, List.length_take, Nat.min_eq_left h8,
    Nat.le_refl, if_true, List.take_take, Nat.min_self]
  have : 4 * 64 - popcountll (DENSITY_LITTLE_ENDIAN_64 (List.take 8 inp.bytes)) * (4 - 2)
      = 256 - 2 * popcountll (DENSITY_LITTLE_ENDIAN_64 (List.take 8 inp.bytes)) := by omega
  rw [this]

theorem decompress_body_run (inp : density_memory_teleport) (out : density_memory_location)
    (state : density_chameleon_decode_state) (hshift : state.shift = 0)
    (hlen : state.bodyLength = 256 - 2 * popcountll state.signature)
    (hin : state.bodyLength ≤ inp.bytes.length) (hout : 256 ≤ out.available_bytes) :
    ∃ (written : List Nat) (d : density_chameleon_dictionary),
      density_chameleon_decode_process_data
          { ahead := inp.bytes.take state.bodyLength, stored := [],
            available_bytes := state.bodyLength } out state
        = some ({ ahead := [], stored := [], available_bytes := state.bodyLength },
            { out with stored := out.stored ++ written },
            { state with shift := 64, dictionary := d })
      ∧ density_chameleon_decode_process_decompress_body inp out state
        = some (none, density_memory_teleport_consume inp state.bodyLength,
            { out with stored := out.stored ++ written,
                       available_bytes := out.available_bytes - 256 },
            { state with shift := 64, dictionary := d, process := .PREPARE_NEW_BLOCK })
      ∧ written.length = 256 := by
  obtain ⟨written, d, hrun, hw⟩ := process_data_loop_run 64
    { ahead := inp.bytes.take state.bodyLength, stored := [],
      available_bytes := state.bodyLength } out state
    (inp.bytes.take state.bodyLength) [] (by omega) (by simp)
    (by rw [hshift, signature_body_bytes_eq, ← hlen, List.length_take]; omega)
  have hrun' : density_chameleon_decode_process_data
      { ahead := inp.bytes.take state.bodyLength, stored := [],
        available_bytes := state.bodyLength } out state
      = some ({ ahead := [], stored := [], available_bytes := state.bodyLength },
          { out with stored := out.stored ++ written },
          { state with shift := 64, dictionary := d }) := hrun
  refine ⟨written, d, hrun', ?_, by omega⟩
  unfold density_chameleon_decode_process_decompress_body
  simp only [density_memory_teleport_read, if_pos hin]
  rw [if_neg (by omega), hrun']

theorem process_of_case_return (sizeof_block_footer sizeof_main_footer : Nat)
    (inp : density_memory_teleport) (out : density_memory_location)
    (state : density_chameleon_decode_state) (flush : Bool)
    (returnState : DENSITY_KERNEL_DECODE_STATE) (inp' : density_memory_teleport)
    (out' : density_memory_location) (state' : density_chameleon_decode_state)
    (h : density_chameleon_decode_process_case sizeof_block_footer sizeof_main_footer
      inp out state flush = some (some returnState, inp', out', state')) :
    density_chameleon_decode_process sizeof_block_footer sizeof_main_footer inp out state flush
      = some (returnState, inp', out', state') := by
  unfold density_chameleon_decode_process
  rw [show 3 * (out.available_bytes / 256) + 3 = (3 * (out.available_bytes / 256) + 2) + 1 from rfl,
    density_chameleon_decode_process_fuel, h]

theorem sub_uint64_footers (avail sizeof_block_footer sizeof_main_footer : Nat)
    (havail : avail < 2 ^ 64) (hfoot : sizeof_block_footer + sizeof_main_footer ≤ avail) :
    sub_uint64 (sub_uint64 avail sizeof_block_footer) sizeof_main_footer
      = avail - sizeof_block_footer - sizeof_main_footer := by
  unfold sub_uint64
  have h1 : sizeof_block_footer < 2 ^ 64 := by omega
  have h2 : sizeof_main_footer < 2 ^ 64 := by omega
  rw [Nat.mod_eq_of_lt havail, Nat.mod_eq_of_lt h1, Nat.mod_eq_of_lt h2]
  have h3 : (avail + 2 ^ 64 - sizeof_block_footer) % 2 ^ 64 = avail - sizeof_block_footer := by
    rw [show avail + 2 ^ 64 - sizeof_block_footer = (avail - sizeof_block_footer) + 2 ^ 64 by omega,
      Nat.add_mod_right, Nat.mod_eq_of_lt (by omega)]
  rw [h3, Nat.mod_eq_of_lt (by omega : avail - sizeof_block_footer < 2 ^ 64),
    show avail - sizeof_block_footer + 2 ^ 64 - sizeof_main_footer
      = (avail - sizeof_block_footer - sizeof_main_footer) + 2 ^ 64 by omega,
    Nat.add_mod_right, Nat.mod_eq_of_lt (by omega)]

/-! ## The claims -/

/-- C2. Body decode equals the reference definition: for every dictionary, every signature and
every body of `256 - 2 * popcount` bytes, `density_chameleon_decode_process_data` started at
shift 0 reads the whole body, ends at shift 64, and its output and final dictionary are those of
the word-by-word decode of the specification (a set bit: the current entry at the little-endian
16-bit index; a clear bit: the little-endian 32-bit literal `W`, stored at `HASH(W)` before the
next word). -/
theorem body_decode_equals_reference (dict : Nat → Nat) (sig : Nat) (body : List Nat)
    (out : density_memory_location) (state : density_chameleon_decode_state)
    (hbytes : ∀ b ∈ body, b < 256) (hlen : body.length = 256 - 2 * popcountll sig) :
    density_chameleon_decode_process_data
        { ahead := body, stored := [], available_bytes := body.length } out
        { state with signature := sig, shift := 0, dictionary := { entries := dict } }
      = some ({ ahead := [], stored := [], available_bytes := body.length },
          { out with stored := out.stored ++ (body_decode_reference dict sig body).output },
          { state with signature := sig, shift := 64,
                       dictionary := { entries := (body_decode_reference dict sig body).dict } })
    := by
  have h := process_data_loop_reference sig body out.stored 64
    { ahead := body, stored := [], available_bytes := body.length } out
    { state with signature := sig, shift := 0, dictionary := { entries := dict } }
    { cursor := 0, dict := dict, output := [] } rfl rfl hbytes (by simp)
    (by simp only [Nat.zero_add]; rw [signature_body_bytes_eq, hlen]) rfl (by simp)
  unfold density_chameleon_decode_process_data body_decode_reference
  rw [h, List.range_eq_range']

set_option maxRecDepth 100000 in
/-- Witness of C2: the body of scenario 3 under signature `0xFFFFFFFFFFFFFFFE`. -/
theorem body_decode_equals_reference_witness :
    (∀ b ∈ scenario3_body, b < 256) ∧
    scenario3_body.length = 256 - 2 * popcountll scenario3_signature ∧
    density_chameleon_decode_process_data
        { ahead := scenario3_body, stored := [], available_bytes := scenario3_body.length }
        (fresh_output 256)
        { blank_state with signature := scenario3_signature, shift := 0,
                           dictionary := { entries := fun _ => 0 } }
      = some ({ ahead := [], stored := [], available_bytes := scenario3_body.length },
          { ahead := [],
            stored := (body_decode_reference (fun _ => 0) scenario3_signature scenario3_body).output,
            available_bytes := 256 },
          { blank_state with
              signature := scenario3_signature,
              shift := 64,
              dictionary := ⟨(body_decode_reference (fun _ => 0) scenario3_signature scenario3_body).dict⟩ }) :=
  ⟨by decide, by decide,
   body_decode_equals_reference (fun _ => 0) scenario3_signature scenario3_body (fresh_output 256)
     blank_state (by decide) (by decide)⟩

/-- C3. Body length law: at the SIGNATURE case (outside the flush tail branch) with a whole
block buffered, the signature `S` is the little-endian value of the next 8 bytes, the decoder
sets `bodyLength = 256 - 2 * popcount S`, the 64 rounds of `process_data` leave nothing of the
window of `bodyLength` bytes, and after the DECOMPRESS_BODY case the teleport has lost exactly
`8 + (256 - 2 * popcount S)` bytes. -/
theorem block_consumes_signature_and_body (sizeof_block_footer sizeof_main_footer : Nat)
    (inp : density_memory_teleport) (out : density_memory_location)
    (state : density_chameleon_decode_state) (flush : Bool)
    (hnotail : ¬ (flush = true ∧
      sub_uint64 (sub_uint64 (density_memory_teleport_available inp) sizeof_block_footer)
        sizeof_main_footer < DENSITY_CHAMELEON_ENCODE_PROCESS_UNIT_SIZE))
    (hin : 8 + (256 - 2 * popcountll (DENSITY_LITTLE_ENDIAN_64 (inp.bytes.take 8)))
      ≤ inp.bytes.length)
    (hout : 256 ≤ out.available_bytes) :
    ∃ (state1 state2 : density_chameleon_decode_state) (out1 out2 : density_memory_location),
      density_chameleon_decode_process_signature sizeof_block_footer sizeof_main_footer
          inp out state flush
        = some (none, { bytes := inp.bytes.drop 8 }, out, state1)
      ∧ state1.signature = DENSITY_LITTLE_ENDIAN_64 (inp.bytes.take 8)
      ∧ state1.bodyLength = 256 - 2 * popcountll state1.signature
      ∧ density_chameleon_decode_process_data
          { ahead := (inp.bytes.drop 8).take state1.bodyLength, stored := [],
            available_bytes := state1.bodyLength } out state1
        = some ({ ahead := [], stored := [], available_bytes := state1.bodyLength }, out1, state2)
      ∧ density_chameleon_decode_process_decompress_body { bytes := inp.bytes.drop 8 } out state1
        = some (none,
            { bytes := inp.bytes.drop (8 + (256 - 2 * popcountll state1.signature)) },
            out2, { state2 with process := .PREPARE_NEW_BLOCK }) := by
  have hsig := signature_phase_run sizeof_block_footer sizeof_main_footer inp out state flush
    hnotail (by omega)
  obtain ⟨written, d, hdata, hbody, -⟩ := decompress_body_run { bytes := inp.bytes.drop 8 } out
    { state with signature := DENSITY_LITTLE_ENDIAN_64 (inp.bytes.take 8),
                 shift := 0,
                 signaturesCount := state.signaturesCount + 1,
                 bodyLength := 256 - 2 * popcountll (DENSITY_LITTLE_ENDIAN_64 (inp.bytes.take 8)),
                 process := .DECOMPRESS_BODY }
    rfl rfl (by simp only [List.length_drop]; omega) hout
  refine ⟨_, _, _,
    { out with stored := out.stored ++ written, available_bytes := out.available_bytes - 256 },
    hsig, rfl, rfl, hdata, ?_⟩
  rw [hbody]
  simp [density_memory_teleport_consume, Nat.add_comm]

set_option maxRecDepth 100000 in
/-- Witness of C3: the block of scenario 3, not flushed, with 256 bytes of output room. -/
theorem block_consumes_signature_and_body_witness :
    ¬ (false = true ∧
      sub_uint64 (sub_uint64 (density_memory_teleport_available { bytes := scenario3_block }) 0) 0
        < DENSITY_CHAMELEON_ENCODE_PROCESS_UNIT_SIZE) ∧
    8 + (256 - 2 * popcountll (DENSITY_LITTLE_ENDIAN_64 (scenario3_block.take 8)))
      ≤ scenario3_block.length ∧
    256 ≤ (fresh_output 256).available_bytes ∧
    ∃ (state1 state2 : density_chameleon_decode_state) (out1 out2 : density_memory_location),
      density_chameleon_decode_process_signature 0 0
          { bytes := scenario3_block } (fresh_output 256) blank_state false
        = some (none, { bytes := scenario3_block.drop 8 }, fresh_output 256, state1)
      ∧ state1.signature = DENSITY_LITTLE_ENDIAN_64 (scenario3_block.take 8)
      ∧ state1.bodyLength = 256 - 2 * popcountll state1.signature
      ∧ density_chameleon_decode_process_data
          { ahead := (scenario3_block.drop 8).take state1.bodyLength, stored := [],
            available_bytes := state1.bodyLength } (fresh_output 256) state1
        = some ({ ahead := [], stored := [], available_bytes := state1.bodyLength }, out1, state2)
      ∧ density_chameleon_decode_process_decompress_body { bytes := scenario3_block.drop 8 }
          (fresh_output 256) state1
        = some (none,
            { bytes := scenario3_block.drop (8 + (256 - 2 * popcountll state1.signature)) },
            out2, { state2 with process := .PREPARE_NEW_BLOCK }) :=
  ⟨by simp, by decide, by decide,
   block_consumes_signature_and_body 0 0 { bytes := scenario3_block } (fresh_output 256)
     blank_state false (by simp) (by decide) (by decide)⟩

/-- C4. Block output size: for every dictionary, signature and body, the DECOMPRESS_BODY case
stores exactly 256 bytes after those already stored and lowers `out.available_bytes` by exactly
256, whatever the popcount of the signature; `process_data` itself stores the 256 bytes and
leaves `available_bytes` alone. -/
theorem block_writes_256_bytes (inp : density_memory_teleport) (out : density_memory_location)
    (state : density_chameleon_decode_state) (hshift : state.shift = 0)
    (hlen : state.bodyLength = 256 - 2 * popcountll state.signature)
    (hin : state.bodyLength ≤ inp.bytes.length) (hout : 256 ≤ out.available_bytes) :
    ∃ (written : List Nat) (inp' : density_memory_teleport)
      (loc : density_memory_location) (state' : density_chameleon_decode_state),
      written.length = 256
      ∧ density_chameleon_decode_process_data
          { ahead := inp.bytes.take state.bodyLength, stored := [],
            available_bytes := state.bodyLength } out state
        = some (loc, { out with stored := out.stored ++ written }, state')
      ∧ density_chameleon_decode_process_decompress_body inp out state
        = some (none, inp',
            { out with stored := out.stored ++ written,
                       available_bytes := out.available_bytes - 256 },
            { state' with process := .PREPARE_NEW_BLOCK }) := by
  obtain ⟨written, d, hdata, hbody, hw⟩ := decompress_body_run inp out state hshift hlen hin hout
  exact ⟨written, _, _, _, hw, hdata, hbody⟩

set_option maxRecDepth 100000 in
/-- Witness of C4: the body of scenario 3 in the teleport, 300 bytes of output room. -/
theorem block_writes_256_bytes_witness :
    ({ blank_state with signature := scenario3_signature, bodyLength := 130 } :
      density_chameleon_decode_state).shift = 0 ∧
    (130 : Nat) = 256 - 2 * popcountll scenario3_signature ∧
    130 ≤ scenario3_body.length ∧
    256 ≤ (fresh_output 300).available_bytes ∧
    ∃ (written : List Nat) (inp' : density_memory_teleport)
      (loc : density_memory_location) (state' : density_chameleon_decode_state),
      written.length = 256
      ∧ density_chameleon_decode_process_data
          { ahead := scenario3_body.take 130, stored := [], available_bytes := 130 }
          (fresh_output 300)
          { blank_state with signature := scenario3_signature, bodyLength := 130 }
        = some (loc, { fresh_output 300 with stored := (fresh_output 300).stored ++ written },
            state')
      ∧ density_chameleon_decode_process_decompress_body { bytes := scenario3_body }
          (fresh_output 300)
          { blank_state with signature := scenario3_signature, bodyLength := 130 }
        = some (none, inp',
            { fresh_output 300 with stored := (fresh_output 300).stored ++ written,
                                    available_bytes := (fresh_output 300).available_bytes - 256 },
            { state' with process := .PREPARE_NEW_BLOCK }) :=
  ⟨rfl, by decide, by decide, by decide,
   block_writes_256_bytes { bytes := scenario3_body } (fresh_output 300)
     { blank_state with signature := scenario3_signature, bodyLength := 130 }
     rfl (by decide) (by decide) (by decide)⟩

/-- C5. Decoder store rule: decoding a compressed word is defined (its index is within the
dictionary) and returns the state, so the dictionary, as it was; decoding a literal word `W` is
defined, puts `W` at slot `HASH(W)` and leaves every other slot as it was. -/
theorem decoder_store_rule (chunk2 : Nat × Nat) (chunk4 : Nat × Nat × Nat × Nat)
    (out : density_memory_location) (state : density_chameleon_decode_state) :
    (∃ out' : density_memory_location,
      density_chameleon_decode_compressed_chunk chunk2 out state = some (out', state))
    ∧ ∃ (out' : density_memory_location) (state' : density_chameleon_decode_state),
        density_chameleon_decode_uncompressed_chunk chunk4 out state = some (out', state')
        ∧ state'.dictionary.entries
            (DENSITY_CHAMELEON_HASH_ALGORITHM
              (DENSITY_LITTLE_ENDIAN_32 chunk4.1 chunk4.2.1 chunk4.2.2.1 chunk4.2.2.2))
          = DENSITY_LITTLE_ENDIAN_32 chunk4.1 chunk4.2.1 chunk4.2.2.1 chunk4.2.2.2
        ∧ ∀ i, i ≠ DENSITY_CHAMELEON_HASH_ALGORITHM
              (DENSITY_LITTLE_ENDIAN_32 chunk4.1 chunk4.2.1 chunk4.2.2.1 chunk4.2.2.2) →
            state'.dictionary.entries i = state.dictionary.entries i := by
  refine ⟨⟨_, compressed_chunk_eq chunk2 out state⟩,
    _, _, uncompressed_chunk_eq chunk4 out state, ?_, ?_⟩
  · simp
  · intro i hi
    simp [hi]

theorem check_state_ready_room (out : density_memory_location)
    (state0 state1 : density_chameleon_decode_state)
    (hcheck : density_chameleon_decode_check_state out state0 = some (.READY, state1)) :
    256 ≤ out.available_bytes := by
  by_contra h
  have hlt : out.available_bytes < DENSITY_CHAMELEON_DECODE_MINIMUM_OUTPUT_LOOKAHEAD := by
    unfold DENSITY_CHAMELEON_DECODE_MINIMUM_OUTPUT_LOOKAHEAD; omega
  unfold density_chameleon_decode_check_state at hcheck
  rw [if_pos hlt] at hcheck
  simp at hcheck

/-- C6. No out-of-bounds access: once `check_state` has answered READY for the output, for
every dictionary, every signature and every window of exactly `256 - 2 * popcount` bytes of
arbitrary content, `process_data` from shift 0 has a result, where a load beyond the window or
a dictionary access at an index of 65 536 or more would leave it without one; it uses up the
whole window and stores exactly 256 bytes, which the output has room for. And whatever the
bytes of a chunk are, the index at which `compressed_chunk` reads the dictionary and the hash
at which `uncompressed_chunk` writes it are below the 65 536 entries, so neither function is
ever without a result. -/
theorem body_decode_in_bounds (window : List Nat) (out : density_memory_location)
    (state0 state1 state : density_chameleon_decode_state)
    (hcheck : density_chameleon_decode_check_state out state0 = some (.READY, state1))
    (hshift : state.shift = 0)
    (hlen : window.length = 256 - 2 * popcountll state.signature) :
    (∃ (written : List Nat) (d : density_chameleon_dictionary),
      density_chameleon_decode_process_data
          { ahead := window, stored := [], available_bytes := window.length } out state
        = some ({ ahead := [], stored := [], available_bytes := window.length },
            { out with stored := out.stored ++ written },
            { state with shift := 64, dictionary := d })
      ∧ written.length = 256 ∧ written.length ≤ out.available_bytes)
    ∧ (∀ (chunk : Nat × Nat) (out2 : density_memory_location)
        (state2 : density_chameleon_decode_state),
        DENSITY_LITTLE_ENDIAN_16 chunk.1 chunk.2 < density_chameleon_dictionary_entries
        ∧ density_chameleon_decode_compressed_chunk chunk out2 state2 ≠ none)
    ∧ (∀ (chunk : Nat × Nat × Nat × Nat) (out2 : density_memory_location)
        (state2 : density_chameleon_decode_state),
        DENSITY_CHAMELEON_HASH_ALGORITHM
            (DENSITY_LITTLE_ENDIAN_32 chunk.1 chunk.2.1 chunk.2.2.1 chunk.2.2.2)
          < density_chameleon_dictionary_entries
        ∧ density_chameleon_decode_uncompressed_chunk chunk out2 state2 ≠ none)
    ∧ density_chameleon_dictionary_entries = 65536 := by
  have hroom := check_state_ready_room out state0 state1 hcheck
  refine ⟨?_, ?_, ?_, rfl⟩
  · obtain ⟨written, d, hrun, hw⟩ := process_data_loop_run 64
      { ahead := window, stored := [], available_bytes := window.length } out state
      window [] (by omega) (by simp) (by rw [hshift, signature_body_bytes_eq, hlen])
    exact ⟨written, d, hrun, by omega, by omega⟩
  · intro chunk out2 state2
    refine ⟨little_endian_16_lt _ _, ?_⟩
    rw [compressed_chunk_eq]
    simp
  · intro chunk out2 state2
    refine ⟨hash_lt _, ?_⟩
    rw [uncompressed_chunk_eq]
    simp

set_option maxRecDepth 100000 in
/-- Witness of C6: the body of scenario 3 with 256 bytes of output room. -/
theorem body_decode_in_bounds_witness :
    density_chameleon_decode_check_state (fresh_output 256) blank_state
      = some (.READY, blank_state) ∧
    ({ blank_state with signature := scenario3_signature } :
      density_chameleon_decode_state).shift = 0 ∧
    scenario3_body.length = 256 - 2 * popcountll scenario3_signature ∧
    ∃ (written : List Nat) (d : density_chameleon_dictionary),
      density_chameleon_decode_process_data
          { ahead := scenario3_body, stored := [], available_bytes := scenario3_body.length }
          (fresh_output 256) { blank_state with signature := scenario3_signature }
        = some ({ ahead := [], stored := [], available_bytes := scenario3_body.length },
            { ahead := [], stored := [] ++ written, available_bytes := 256 },
            { blank_state with signature := scenario3_signature, shift := 64, dictionary := d })
      ∧ written.length = 256 ∧ written.length ≤ (fresh_output 256).available_bytes :=
  ⟨rfl, rfl, by decide,
   (body_decode_in_bounds scenario3_body (fresh_output 256) blank_state blank_state
     { blank_state with signature := scenario3_signature } rfl rfl (by decide)).1⟩

theorem process_case_signature (sizeof_block_footer sizeof_main_footer : Nat)
    (inp : density_memory_teleport) (out : density_memory_location)
    (state : density_chameleon_decode_state) (flush : Bool)
    (hphase : state.process = .SIGNATURE) :
    density_chameleon_decode_process_case sizeof_block_footer sizeof_main_footer
        inp out state flush
      = density_chameleon_decode_process_signature sizeof_block_footer sizeof_main_footer
          inp out state flush := by
  unfold density_chameleon_decode_process_case
  rw [hphase]

/-- C7. Flush tail handling: at the SIGNATURE case with `flush` set and at least the two footers
buffered, let `remaining` be the buffered bytes less the two footer sizes. If `remaining < 256`
and `remaining ≤ out.available_bytes`, `process` returns FINISHED having moved exactly the next
`remaining` bytes from the teleport to the output, with the state (signature, dictionary,
`signaturesCount`) untouched; if `remaining < 256` and `remaining > out.available_bytes` it
returns STALL_ON_OUTPUT_BUFFER and changes nothing; if `remaining ≥ 256` the case does what it
does with `flush` clear: it reads the 8-byte signature. -/
theorem flush_tail_handling (sizeof_block_footer sizeof_main_footer : Nat)
    (inp : density_memory_teleport) (out : density_memory_location)
    (state : density_chameleon_decode_state)
    (hphase : state.process = .SIGNATURE) (havail : inp.bytes.length < 2 ^ 64)
    (hfoot : sizeof_block_footer + sizeof_main_footer ≤ inp.bytes.length) :
    (inp.bytes.length - sizeof_block_footer - sizeof_main_footer < 256 →
      inp.bytes.length - sizeof_block_footer - sizeof_main_footer ≤ out.available_bytes →
      density_chameleon_decode_process sizeof_block_footer sizeof_main_footer inp out state true
        = some (.FINISHED,
            { bytes := inp.bytes.drop
                (inp.bytes.length - sizeof_block_footer - sizeof_main_footer) },
            { out with
                stored := out.stored ++ inp.bytes.take
                  (inp.bytes.length - sizeof_block_footer - sizeof_main_footer)
                available_bytes := out.available_bytes
                  - (inp.bytes.length - sizeof_block_footer - sizeof_main_footer) },
            state)
      ∧ (inp.bytes.take (inp.bytes.length - sizeof_block_footer - sizeof_main_footer)).length
        = inp.bytes.length - sizeof_block_footer - sizeof_main_footer)
    ∧ (inp.bytes.length - sizeof_block_footer - sizeof_main_footer < 256 →
      out.available_bytes < inp.bytes.length - sizeof_block_footer - sizeof_main_footer →
      density_chameleon_decode_process sizeof_block_footer sizeof_main_footer inp out state true
        = some (.STALL_ON_OUTPUT_BUFFER, inp, out, state))
    ∧ (256 ≤ inp.bytes.length - sizeof_block_footer - sizeof_main_footer →
      density_chameleon_decode_process_case sizeof_block_footer sizeof_main_footer
          inp out state true
        = density_chameleon_decode_process_case sizeof_block_footer sizeof_main_footer
          inp out state false
      ∧ density_chameleon_decode_process_case sizeof_block_footer sizeof_main_footer
          inp out state true
        = some (none, { bytes := inp.bytes.drop 8 }, out,
            { state with
                signature := DENSITY_LITTLE_ENDIAN_64 (inp.bytes.take 8)
                shift := 0
                signaturesCount := state.signaturesCount + 1
                bodyLength := 256 - 2 * popcountll (DENSITY_LITTLE_ENDIAN_64 (inp.bytes.take 8))
                process := .DECOMPRESS_BODY })) := by
  have hrem := sub_uint64_footers inp.bytes.length sizeof_block_footer sizeof_main_footer
    havail hfoot
  refine ⟨?_, ?_, ?_⟩
  · intro hlt hle
    have hlen : (inp.bytes.take
        (inp.bytes.length - sizeof_block_footer - sizeof_main_footer)).length
        = inp.bytes.length - sizeof_block_footer - sizeof_main_footer := by
      rw [List.length_take]; omega
    refine ⟨?_, hlen⟩
    apply process_of_case_return
    rw [process_case_signature _ _ _ _ _ _ hphase]
    unfold density_chameleon_decode_process_signature
    simp only [density_memory_teleport_available, hrem,
      DENSITY_CHAMELEON_ENCODE_PROCESS_UNIT_SIZE, hlt, and_self, if_true,
      density_memory_teleport_copy, hlen]
    rw [if_neg (by omega)]
  · intro hlt hgt
    apply process_of_case_return
    rw [process_case_signature _ _ _ _ _ _ hphase]
    unfold density_chameleon_decode_process_signature
    simp only [density_memory_teleport_available, hrem,
      DENSITY_CHAMELEON_ENCODE_PROCESS_UNIT_SIZE, hlt, and_self, if_true]
    rw [if_pos (by omega)]
  · intro hge
    have hnt : ∀ flush : Bool, ¬ (flush = true ∧
        sub_uint64 (sub_uint64 (density_memory_teleport_available inp) sizeof_block_footer)
          sizeof_main_footer < DENSITY_CHAMELEON_ENCODE_PROCESS_UNIT_SIZE) := by
      intro flush
      simp only [density_memory_teleport_available, hrem,
        DENSITY_CHAMELEON_ENCODE_PROCESS_UNIT_SIZE]
      omega
    have h1 := signature_phase_run sizeof_block_footer sizeof_main_footer inp out state true
      (hnt true) (by omega)
    have h2 := signature_phase_run sizeof_block_footer sizeof_main_footer inp out state false
      (hnt false) (by omega)
    rw [process_case_signature _ _ _ _ _ _ hphase, process_case_signature _ _ _ _ _ _ hphase,
      h1, h2]
    exact ⟨rfl, rfl⟩

/-- Witness of C7: three tail bytes and 8 bytes of footers, flushed at the SIGNATURE case with
256 bytes of output room: the three bytes are copied and the status is FINISHED. -/
theorem flush_tail_handling_witness :
    signature_state.process = .SIGNATURE ∧
    tail_and_footers.bytes.length < 2 ^ 64 ∧
    4 + 4 ≤ tail_and_footers.bytes.length ∧
    density_chameleon_decode_process 4 4 tail_and_footers (fresh_output 256) signature_state true
      = some (.FINISHED,
          { bytes := tail_and_footers.bytes.drop (tail_and_footers.bytes.length - 4 - 4) },
          { fresh_output 256 with
              stored := (fresh_output 256).stored
                ++ tail_and_footers.bytes.take (tail_and_footers.bytes.length - 4 - 4)
              available_bytes := (fresh_output 256).available_bytes
                - (tail_and_footers.bytes.length - 4 - 4) },
          signature_state) :=
  ⟨rfl, by decide, by decide,
   ((flush_tail_handling 4 4 tail_and_footers (fresh_output 256) signature_state
      rfl (by decide) (by decide)).1 (by decide) (by decide)).1⟩

/-! ## Supplying input: one case of `process`, `flush` clear -/

theorem check_state_cases (out : density_memory_location)
    (state : density_chameleon_decode_state) (r : DENSITY_KERNEL_DECODE_STATE)
    (state' : density_chameleon_decode_state)
    (h : density_chameleon_decode_check_state out state = some (r, state')) :
    state'.process = state.process ∧
    ((r = .STALL_ON_OUTPUT_BUFFER ∧ state' = state ∧ out.available_bytes < 256)
     ∨ (r = .READY ∧ state' = state ∧ 256 ≤ out.available_bytes)
     ∨ (r = .INFO_EFFICIENCY_CHECK ∧ 256 ≤ out.available_bytes ∧
          state'.signaturesCount = 64 ∧ state'.efficiencyChecked = 1)
     ∨ (r = .INFO_NEW_BLOCK ∧ 256 ≤ out.available_bytes ∧ state'.signaturesCount = 0)) := by
  unfold density_chameleon_decode_check_state at h
  simp only [DENSITY_CHAMELEON_DECODE_MINIMUM_OUTPUT_LOOKAHEAD,
    DENSITY_CHAMELEON_PREFERRED_EFFICIENCY_CHECK_SIGNATURES,
    DENSITY_CHAMELEON_PREFERRED_BLOCK_SIGNATURES] at h
  split at h
  · simp only [Option.some.injEq, Prod.mk.injEq] at h
    obtain ⟨rfl, rfl⟩ := h
    exact ⟨rfl, Or.inl ⟨rfl, rfl, by assumption⟩⟩
  · rename_i hroom
    have hroom' : 256 ≤ out.available_bytes := by omega
    split at h
    · rename_i hcount
      split at h
      · simp only [Option.some.injEq, Prod.mk.injEq] at h
        obtain ⟨rfl, rfl⟩ := h
        exact ⟨rfl, Or.inr (Or.inr (Or.inl ⟨rfl, hroom', hcount, rfl⟩))⟩
      · simp only [Option.some.injEq, Prod.mk.injEq] at h
        obtain ⟨rfl, rfl⟩ := h
        exact ⟨rfl, Or.inr (Or.inl ⟨rfl, rfl, hroom'⟩)⟩
    · split at h
      · split at h
        · simp only [Option.some.injEq, Prod.mk.injEq] at h
          obtain ⟨rfl, rfl⟩ := h
          exact ⟨rfl, Or.inr (Or.inr (Or.inr ⟨rfl, hroom', rfl⟩))⟩
        · split at h
          · split at h
            · simp at h
            · simp only [Option.some.injEq, Prod.mk.injEq] at h
              obtain ⟨rfl, rfl⟩ := h
              exact ⟨rfl, Or.inr (Or.inr (Or.inr ⟨rfl, hroom', rfl⟩))⟩
          · simp only [Option.some.injEq, Prod.mk.injEq] at h
            obtain ⟨rfl, rfl⟩ := h
            exact ⟨rfl, Or.inr (Or.inr (Or.inr ⟨rfl, hroom', rfl⟩))⟩
      · simp only [Option.some.injEq, Prod.mk.injEq] at h
        obtain ⟨rfl, rfl⟩ := h
        exact ⟨rfl, Or.inr (Or.inl ⟨rfl, rfl, hroom'⟩)⟩

theorem process_data_loop_room :
    ∀ (n : Nat) (inp out : density_memory_location) (state : density_chameleon_decode_state)
      (inp' out' : density_memory_location) (state' : density_chameleon_decode_state),
      density_chameleon_decode_process_data_loop n inp out state = some (inp', out', state') →
      out'.available_bytes = out.available_bytes := by
  intro n
  induction n with
  | zero =>
    intro inp out state inp' out' state' h
    simp only [density_chameleon_decode_process_data_loop] at h
    split at h
    · simp at h
    · simp only [Option.some.injEq, Prod.mk.injEq] at h
      rw [← h.2.1]
  | succ n ih =>
    intro inp out state inp' out' state' h
    rw [density_chameleon_decode_process_data_loop] at h
    split at h
    · split at h
      · simp at h
      · rename_i compressed _
        split at h
        · simp at h
        · rename_i inp1 out1 state1 hk
          have hroom := ih _ _ _ _ _ _ h
          rw [hroom]
          obtain ⟨written, d1, hout1, -⟩ := kernel_frame _ _ _ _ _ _ _ hk
          rw [hout1]
    · simp only [Option.some.injEq, Prod.mk.injEq] at h
      rw [← h.2.1]

theorem process_case_supply (sizeof_block_footer sizeof_main_footer : Nat)
    (inp : density_memory_teleport) (out : density_memory_location)
    (state : density_chameleon_decode_state) (x : List Nat)
    (hstall : ∀ inp' out' state',
      density_chameleon_decode_process_case sizeof_block_footer sizeof_main_footer
        inp out state false ≠ some (some .STALL_ON_INPUT_BUFFER, inp', out', state')) :
    density_chameleon_decode_process_case sizeof_block_footer sizeof_main_footer
        (density_memory_teleport_supply inp x) out state false
      = (density_chameleon_decode_process_case sizeof_block_footer sizeof_main_footer
          inp out state false).map
          (fun r => (r.1, density_memory_teleport_supply r.2.1 x, r.2.2.1, r.2.2.2)) := by
  unfold density_chameleon_decode_process_case at hstall ⊢
  cases hp : state.process with
  | PREPARE_NEW_BLOCK =>
    simp only [hp] at hstall ⊢
    unfold density_chameleon_decode_process_prepare_new_block
    cases density_chameleon_decode_check_state out state with
    | none => rfl
    | some r =>
      obtain ⟨returnState, state'⟩ := r
      simp only
      split <;> rfl
  | SIGNATURE =>
    simp only [hp] at hstall ⊢
    unfold density_chameleon_decode_process_signature at hstall ⊢
    simp only [Bool.false_eq_true, false_and, if_false, density_memory_teleport_read,
      density_memory_teleport_supply, List.length_append] at hstall ⊢
    by_cases h8 : 8 ≤ inp.bytes.length
    · rw [if_pos (by omega), if_pos h8, List.take_append_of_le_length h8]
      simp only [density_chameleon_decode_read_signature, List.length_take,
        Nat.min_eq_left h8, Nat.le_refl, if_true, Option.map_some', density_memory_teleport_consume,
        List.drop_append_of_le_length h8]
    · rw [if_neg h8] at hstall
      exact absurd rfl (hstall inp out state)
  | DECOMPRESS_BODY =>
    simp only [hp] at hstall ⊢
    unfold density_chameleon_decode_process_decompress_body at hstall ⊢
    simp only [density_memory_teleport_read, density_memory_teleport_supply,
      List.length_append] at hstall ⊢
    by_cases hn : state.bodyLength ≤ inp.bytes.length
    · rw [if_pos (by omega), if_pos hn, List.take_append_of_le_length hn]
      simp only
      split
      · rfl
      · cases density_chameleon_decode_process_data
          { ahead := List.take state.bodyLength inp.bytes, stored := [],
            available_bytes := state.bodyLength } out state with
        | none => rfl
        | some r =>
          simp only [Option.map_some', density_memory_teleport_consume,
            List.drop_append_of_le_length hn]
    · rw [if_neg hn] at hstall
      exact absurd rfl (hstall inp out state)

theorem check_state_after_info (out : density_memory_location)
    (state : density_chameleon_decode_state) (hroom : 256 ≤ out.available_bytes)
    (h : (state.signaturesCount = 64 ∧ state.efficiencyChecked = 1) ∨ state.signaturesCount = 0) :
    density_chameleon_decode_check_state out state = some (.READY, state) := by
  unfold density_chameleon_decode_check_state
  simp only [DENSITY_CHAMELEON_DECODE_MINIMUM_OUTPUT_LOOKAHEAD,
    DENSITY_CHAMELEON_PREFERRED_EFFICIENCY_CHECK_SIGNATURES,
    DENSITY_CHAMELEON_PREFERRED_BLOCK_SIGNATURES]
  rw [if_neg (by omega)]
  rcases h with ⟨h64, h1⟩ | h0
  · rw [if_pos h64, h1]
    simp
  · rw [if_neg (by omega), if_neg (by omega)]

theorem process_case_return (sizeof_block_footer sizeof_main_footer : Nat)
    (inp : density_memory_teleport) (out : density_memory_location)
    (state : density_chameleon_decode_state) (s : DENSITY_KERNEL_DECODE_STATE)
    (inp' : density_memory_teleport) (out' : density_memory_location)
    (state' : density_chameleon_decode_state)
    (h : density_chameleon_decode_process_case sizeof_block_footer sizeof_main_footer
      inp out state false = some (some s, inp', out', state')) :
    inp' = inp ∧ out' = out ∧
    (((s = .STALL_ON_INPUT_BUFFER ∨ s = .STALL_ON_OUTPUT_BUFFER) ∧ state' = state)
     ∨ ((s = .INFO_NEW_BLOCK ∨ s = .INFO_EFFICIENCY_CHECK) ∧
        state.process = .PREPARE_NEW_BLOCK ∧ state'.process = .PREPARE_NEW_BLOCK ∧
        info_pending out state = 1 ∧ info_pending out state' = 0)) := by
  unfold density_chameleon_decode_process_case at h
  cases hp : state.process with
  | PREPARE_NEW_BLOCK =>
    simp only [hp] at h
    unfold density_chameleon_decode_process_prepare_new_block at h
    cases hc : density_chameleon_decode_check_state out state with
    | none => simp [hc] at h
    | some r =>
      obtain ⟨returnState, state1⟩ := r
      simp only [hc] at h
      split at h
      · simp only [Option.some.injEq, Prod.mk.injEq] at h
        obtain ⟨rfl, rfl, rfl, rfl⟩ := h
        obtain ⟨hproc, hcases⟩ := check_state_cases out state _ _ hc
        refine ⟨rfl, rfl, ?_⟩
        rcases hcases with ⟨hs, hst, -⟩ | ⟨hs, -, -⟩ | ⟨hs, hroom, h64, h1⟩ | ⟨hs, hroom, h0⟩
        · exact Or.inl ⟨Or.inr hs, hst⟩
        · rename_i hne; exact absurd hs hne
        · refine Or.inr ⟨Or.inr hs, rfl, by rw [hproc, hp], ?_, ?_⟩
          · simp [info_pending, hp, hc, hs]
          · simp [info_pending, hproc, hp,
              check_state_after_info out state1 hroom (Or.inl ⟨h64, h1⟩)]
        · refine Or.inr ⟨Or.inl hs, rfl, by rw [hproc, hp], ?_, ?_⟩
          · simp [info_pending, hp, hc, hs]
          · simp [info_pending, hproc, hp,
              check_state_after_info out state1 hroom (Or.inr h0)]
      · simp at h
  | SIGNATURE =>
    simp only [hp] at h
    unfold density_chameleon_decode_process_signature at h
    simp only [Bool.false_eq_true, false_and, if_false] at h
    split at h
    · simp only [Option.some.injEq, Prod.mk.injEq] at h
      obtain ⟨rfl, rfl, rfl, rfl⟩ := h
      exact ⟨rfl, rfl, Or.inl ⟨Or.inl rfl, rfl⟩⟩
    · split at h <;> simp at h
  | DECOMPRESS_BODY =>
    simp only [hp] at h
    unfold density_chameleon_decode_process_decompress_body at h
    split at h
    · simp only [Option.some.injEq, Prod.mk.injEq] at h
      obtain ⟨rfl, rfl, rfl, rfl⟩ := h
      exact ⟨rfl, rfl, Or.inl ⟨Or.inl rfl, rfl⟩⟩
    · split at h
      · simp at h
      · split at h <;> simp at h

theorem process_case_continue (sizeof_block_footer sizeof_main_footer : Nat)
    (inp : density_memory_teleport) (out : density_memory_location)
    (state : density_chameleon_decode_state)
    (inp' : density_memory_teleport) (out' : density_memory_location)
    (state' : density_chameleon_decode_state) {flush : Bool}
    (h : density_chameleon_decode_process_case sizeof_block_footer sizeof_main_footer
      inp out state flush = some (none, inp', out', state')) :
    process_measure out' state' < process_measure out state ∧
    out'.available_bytes ≤ out.available_bytes ∧
    (state'.process = .PREPARE_NEW_BLOCK → out'.available_bytes + 256 ≤ out.available_bytes) := by
  unfold density_chameleon_decode_process_case at h
  cases hp : state.process with
  | PREPARE_NEW_BLOCK =>
    simp only [hp] at h
    unfold density_chameleon_decode_process_prepare_new_block at h
    cases hc : density_chameleon_decode_check_state out state with
    | none => simp [hc] at h
    | some r =>
      obtain ⟨returnState, state1⟩ := r
      simp only [hc] at h
      split at h
      · simp at h
      · simp only [Option.some.injEq, Prod.mk.injEq, true_and] at h
        obtain ⟨rfl, rfl, rfl⟩ := h
        simp [process_measure, hp]
  | SIGNATURE =>
    simp only [hp] at h
    unfold density_chameleon_decode_process_signature at h
    by_cases hfl : flush = true ∧
        sub_uint64 (sub_uint64 (density_memory_teleport_available inp) sizeof_block_footer)
          sizeof_main_footer < DENSITY_CHAMELEON_ENCODE_PROCESS_UNIT_SIZE
    · simp only [if_pos hfl] at h
      split at h <;> simp at h
    · simp only [if_neg hfl] at h
      split at h
      · simp at h
      · split at h
        · simp at h
        · simp only [Option.some.injEq, Prod.mk.injEq, true_and] at h
          obtain ⟨rfl, rfl, rfl⟩ := h
          simp [process_measure, hp]
  | DECOMPRESS_BODY =>
    simp only [hp] at h
    unfold density_chameleon_decode_process_decompress_body at h
    split at h
    · simp at h
    · split at h
      · simp at h
      · rename_i hroom
        split at h
        · simp at h
        · rename_i loc out1 state1 hdata
          simp only [Option.some.injEq, Prod.mk.injEq, true_and] at h
          obtain ⟨rfl, rfl, rfl⟩ := h
          have hr := process_data_loop_room _ _ _ _ _ _ _ hdata
          simp only [process_measure, hp, hr]
          omega

/-! ## Supplying input: one call of `process`, `flush` clear -/

theorem process_measure_pos (out : density_memory_location)
    (state : density_chameleon_decode_state) : 1 ≤ process_measure out state := by
  unfold process_measure
  cases state.process <;> simp

theorem process_measure_le (out : density_memory_location)
    (state : density_chameleon_decode_state) :
    process_measure out state ≤ 3 * (out.available_bytes / 256) + 3 := by
  unfold process_measure
  cases state.process <;> simp

theorem info_pending_eq_one (out : density_memory_location)
    (state : density_chameleon_decode_state) (h : info_pending out state = 1) :
    state.process = .PREPARE_NEW_BLOCK := by
  unfold info_pending at h
  by_contra hne
  rw [if_neg hne] at h
  exact absurd h (by decide)

theorem info_pending_le (out : density_memory_location)
    (state : density_chameleon_decode_state) : info_pending out state ≤ 1 := by
  unfold info_pending
  split
  · split
    · split <;> simp
    · simp
  · simp

theorem process_fuel_irrelevant (sizeof_block_footer sizeof_main_footer : Nat)
    {flush : Bool} :
    ∀ (f1 f2 : Nat) (inp : density_memory_teleport) (out : density_memory_location)
      (state : density_chameleon_decode_state),
      process_measure out state ≤ f1 → process_measure out state ≤ f2 →
      density_chameleon_decode_process_fuel sizeof_block_footer sizeof_main_footer flush
          f1 inp out state
        = density_chameleon_decode_process_fuel sizeof_block_footer sizeof_main_footer flush
          f2 inp out state := by
  intro f1
  induction f1 with
  | zero =>
    intro f2 inp out state h1 _
    have := process_measure_pos out state
    omega
  | succ f1 ih =>
    intro f2 inp out state h1 h2
    cases f2 with
    | zero =>
      have := process_measure_pos out state
      omega
    | succ f2 =>
      rw [density_chameleon_decode_process_fuel, density_chameleon_decode_process_fuel]
      cases hc : density_chameleon_decode_process_case sizeof_block_footer sizeof_main_footer
          inp out state flush with
      | none => rfl
      | some r =>
        obtain ⟨status, inp1, out1, state1⟩ := r
        cases status with
        | some s => rfl
        | none =>
          have hm := (process_case_continue _ _ _ _ _ _ _ _ hc).1
          exact ih f2 inp1 out1 state1 (by omega) (by omega)

theorem process_fuel_facts (sizeof_block_footer sizeof_main_footer : Nat) :
    ∀ (f : Nat) (inp : density_memory_teleport) (out : density_memory_location)
      (state : density_chameleon_decode_state) (s : DENSITY_KERNEL_DECODE_STATE)
      (inp' : density_memory_teleport) (out' : density_memory_location)
      (state' : density_chameleon_decode_state),
      density_chameleon_decode_process_fuel sizeof_block_footer sizeof_main_footer false
          f inp out state = some (s, inp', out', state') →
      out'.available_bytes ≤ out.available_bytes ∧
      (((s = .STALL_ON_INPUT_BUFFER ∨ s = .STALL_ON_OUTPUT_BUFFER) ∧
          density_chameleon_decode_process_case sizeof_block_footer sizeof_main_footer
            inp' out' state' false = some (some s, inp', out', state'))
       ∨ ((s = .INFO_NEW_BLOCK ∨ s = .INFO_EFFICIENCY_CHECK) ∧
          state'.process = .PREPARE_NEW_BLOCK ∧ info_pending out' state' = 0 ∧
          (out'.available_bytes + 256 ≤ out.available_bytes
           ∨ (out'.available_bytes = out.available_bytes ∧ info_pending out state = 1)))) := by
  intro f
  induction f with
  | zero =>
    intro inp out state s inp' out' state' h
    simp [density_chameleon_decode_process_fuel] at h
  | succ f ih =>
    intro inp out state s inp' out' state' h
    rw [density_chameleon_decode_process_fuel] at h
    cases hc : density_chameleon_decode_process_case sizeof_block_footer sizeof_main_footer
        inp out state false with
    | none => simp [hc] at h
    | some r =>
      obtain ⟨status, inp1, out1, state1⟩ := r
      cases status with
      | some s1 =>
        simp only [hc, Option.some.injEq, Prod.mk.injEq] at h
        obtain ⟨rfl, rfl, rfl, rfl⟩ := h
        obtain ⟨rfl, rfl, hcases⟩ := process_case_return _ _ _ _ _ _ _ _ _ hc
        refine ⟨Nat.le_refl _, ?_⟩
        rcases hcases with ⟨hs, rfl⟩ | ⟨hs, -, hp', hpend, hpend'⟩
        · exact Or.inl ⟨hs, hc⟩
        · exact Or.inr ⟨hs, hp', hpend', Or.inr ⟨rfl, hpend⟩⟩
      | none =>
        simp only [hc] at h
        obtain ⟨-, hle, hprep⟩ := process_case_continue _ _ _ _ _ _ _ _ hc
        obtain ⟨hle', hcases⟩ := ih _ _ _ _ _ _ _ h
        refine ⟨by omega, ?_⟩
        rcases hcases with hstall | ⟨hs, hp', hpend', hq⟩
        · exact Or.inl hstall
        · refine Or.inr ⟨hs, hp', hpend', Or.inl ?_⟩
          rcases hq with hq | ⟨hq, hpend1⟩
          · omega
          · have := hprep (info_pending_eq_one _ _ hpend1)
            omega

theorem process_fuel_supply (sizeof_block_footer sizeof_main_footer : Nat) (x : List Nat) :
    ∀ (f : Nat) (inp : density_memory_teleport) (out : density_memory_location)
      (state : density_chameleon_decode_state),
      process_measure out state ≤ f →
      match density_chameleon_decode_process_fuel sizeof_block_footer sizeof_main_footer false
          f inp out state with
      | none =>
        density_chameleon_decode_process_fuel sizeof_block_footer sizeof_main_footer false
          f (density_memory_teleport_supply inp x) out state = none
      | some (s, inp', out', state') =>
        if s = .STALL_ON_INPUT_BUFFER then
          density_chameleon_decode_process_fuel sizeof_block_footer sizeof_main_footer false
              f (density_memory_teleport_supply inp x) out state
            = density_chameleon_decode_process sizeof_block_footer sizeof_main_footer
              (density_memory_teleport_supply inp' x) out' state' false
        else
          density_chameleon_decode_process_fuel sizeof_block_footer sizeof_main_footer false
              f (density_memory_teleport_supply inp x) out state
            = some (s, density_memory_teleport_supply inp' x, out', state') := by
  intro f
  induction f with
  | zero =>
    intro inp out state hm
    have := process_measure_pos out state
    omega
  | succ f ih =>
    intro inp out state hm
    rw [density_chameleon_decode_process_fuel]
    cases hc : density_chameleon_decode_process_case sizeof_block_footer sizeof_main_footer
        inp out state false with
    | none =>
      simp only
      rw [density_chameleon_decode_process_fuel,
        process_case_supply _ _ _ _ _ x (by intro a b c; rw [hc]; simp), hc]
      rfl
    | some r =>
      obtain ⟨status, inp1, out1, state1⟩ := r
      cases status with
      | some s1 =>
        simp only
        by_cases hs : s1 = .STALL_ON_INPUT_BUFFER
        · rw [if_pos hs]
          subst hs
          obtain ⟨rfl, rfl, hcases⟩ := process_case_return _ _ _ _ _ _ _ _ _ hc
          rcases hcases with ⟨-, rfl⟩ | ⟨hs, -⟩
          · unfold density_chameleon_decode_process
            exact process_fuel_irrelevant _ _ _ _ _ _ _ hm (process_measure_le _ _)
          · rcases hs with hs | hs <;> exact absurd hs (by decide)
        · rw [if_neg hs, density_chameleon_decode_process_fuel,
            process_case_supply _ _ _ _ _ x
              (by intro a b c; rw [hc]; simp only [ne_eq, Option.some.injEq, Prod.mk.injEq,
                not_and]; intro h; exact absurd h hs), hc]
          rfl
      | none =>
        simp only
        have hm1 := (process_case_continue _ _ _ _ _ _ _ _ hc).1
        have hih := ih inp1 out1 state1 (by omega)
        rw [density_chameleon_decode_process_fuel,
          process_case_supply _ _ _ _ _ x (by intro a b c; rw [hc]; simp), hc]
        exact hih

theorem process_supply_none (sizeof_block_footer sizeof_main_footer : Nat) (x : List Nat)
    (inp : density_memory_teleport) (out : density_memory_location)
    (state : density_chameleon_decode_state)
    (h : density_chameleon_decode_process sizeof_block_footer sizeof_main_footer
      inp out state false = none) :
    density_chameleon_decode_process sizeof_block_footer sizeof_main_footer
      (density_memory_teleport_supply inp x) out state false = none := by
  have hs := process_fuel_supply sizeof_block_footer sizeof_main_footer x
    (3 * (out.available_bytes / 256) + 3) inp out state (process_measure_le _ _)
  unfold density_chameleon_decode_process at h ⊢
  rw [h] at hs
  exact hs

theorem process_supply_stall (sizeof_block_footer sizeof_main_footer : Nat) (x : List Nat)
    (inp : density_memory_teleport) (out : density_memory_location)
    (state : density_chameleon_decode_state)
    (inp' : density_memory_teleport) (out' : density_memory_location)
    (state' : density_chameleon_decode_state)
    (h : density_chameleon_decode_process sizeof_block_footer sizeof_main_footer
      inp out state false = some (.STALL_ON_INPUT_BUFFER, inp', out', state')) :
    density_chameleon_decode_process sizeof_block_footer sizeof_main_footer
        (density_memory_teleport_supply inp x) out state false
      = density_chameleon_decode_process sizeof_block_footer sizeof_main_footer
        (density_memory_teleport_supply inp' x) out' state' false := by
  have hs := process_fuel_supply sizeof_block_footer sizeof_main_footer x
    (3 * (out.available_bytes / 256) + 3) inp out state (process_measure_le _ _)
  unfold density_chameleon_decode_process at h
  rw [h] at hs
  simp only [if_true] at hs
  exact hs

theorem process_supply_other (sizeof_block_footer sizeof_main_footer : Nat) (x : List Nat)
    (inp : density_memory_teleport) (out : density_memory_location)
    (state : density_chameleon_decode_state) (s : DENSITY_KERNEL_DECODE_STATE)
    (inp' : density_memory_teleport) (out' : density_memory_location)
    (state' : density_chameleon_decode_state)
    (h : density_chameleon_decode_process sizeof_block_footer sizeof_main_footer
      inp out state false = some (s, inp', out', state'))
    (hs : s ≠ .STALL_ON_INPUT_BUFFER) :
    density_chameleon_decode_process sizeof_block_footer sizeof_main_footer
        (density_memory_teleport_supply inp x) out state false
      = some (s, density_memory_teleport_supply inp' x, out', state') := by
  have hsup := process_fuel_supply sizeof_block_footer sizeof_main_footer x
    (3 * (out.available_bytes / 256) + 3) inp out state (process_measure_le _ _)
  unfold density_chameleon_decode_process at h
  rw [h] at hsup
  simp only [if_neg hs] at hsup
  exact hsup

theorem process_info_measure (sizeof_block_footer sizeof_main_footer : Nat)
    (inp : density_memory_teleport) (out : density_memory_location)
    (state : density_chameleon_decode_state) (s : DENSITY_KERNEL_DECODE_STATE)
    (inp' : density_memory_teleport) (out' : density_memory_location)
    (state' : density_chameleon_decode_state)
    (h : density_chameleon_decode_process sizeof_block_footer sizeof_main_footer
      inp out state false = some (s, inp', out', state')) :
    out'.available_bytes ≤ out.available_bytes ∧
    ((s = .INFO_NEW_BLOCK ∨ s = .INFO_EFFICIENCY_CHECK) →
      reenter_measure out' state' < reenter_measure out state) := by
  obtain ⟨hle, hcases⟩ := process_fuel_facts _ _ _ _ _ _ _ _ _ _ h
  refine ⟨hle, ?_⟩
  intro hinfo
  rcases hcases with ⟨hs, -⟩ | ⟨-, -, hpend', hq⟩
  · rcases hs with rfl | rfl <;> rcases hinfo with hi | hi <;> exact absurd hi (by decide)
  · unfold reenter_measure
    rw [hpend']
    rcases hq with hq | ⟨hq, hpend⟩
    · omega
    · rw [hq, hpend]
      omega

theorem reenter_measure_pos (out : density_memory_location)
    (state : density_chameleon_decode_state) : 1 ≤ reenter_measure out state := by
  unfold reenter_measure
  omega

theorem reenter_measure_le (out : density_memory_location)
    (state : density_chameleon_decode_state) :
    reenter_measure out state ≤ 2 * (out.available_bytes / 256) + 2 := by
  have := info_pending_le out state
  unfold reenter_measure
  omega

theorem reenter_fuel_irrelevant (sizeof_block_footer sizeof_main_footer : Nat) :
    ∀ (n1 n2 : Nat) (inp : density_memory_teleport) (out : density_memory_location)
      (state : density_chameleon_decode_state),
      reenter_measure out state ≤ n1 → reenter_measure out state ≤ n2 →
      decode_reenter_fuel sizeof_block_footer sizeof_main_footer false n1 inp out state
        = decode_reenter_fuel sizeof_block_footer sizeof_main_footer false n2 inp out state := by
  intro n1
  induction n1 with
  | zero =>
    intro n2 inp out state h1 _
    have := reenter_measure_pos out state
    omega
  | succ n1 ih =>
    intro n2 inp out state h1 h2
    cases n2 with
    | zero =>
      have := reenter_measure_pos out state
      omega
    | succ n2 =>
      rw [decode_reenter_fuel, decode_reenter_fuel]
      cases hp : density_chameleon_decode_process sizeof_block_footer sizeof_main_footer
          inp out state false with
      | none => rfl
      | some r =>
        obtain ⟨s, inp', out', state'⟩ := r
        simp only
        by_cases hinfo : s = .INFO_NEW_BLOCK ∨ s = .INFO_EFFICIENCY_CHECK
        · rw [if_pos hinfo, if_pos hinfo]
          have hm := (process_info_measure _ _ _ _ _ _ _ _ _ hp).2 hinfo
          exact ih n2 inp' out' state' (by omega) (by omega)
        · rw [if_neg hinfo, if_neg hinfo]

/-! ## Supplying input: the caller's loop -/

theorem decode_reenter_fuel_eq (sizeof_block_footer sizeof_main_footer : Nat) (n : Nat)
    (inp : density_memory_teleport) (out : density_memory_location)
    (state : density_chameleon_decode_state) (h : reenter_measure out state ≤ n) :
    decode_reenter_fuel sizeof_block_footer sizeof_main_footer false n inp out state
      = decode_reenter sizeof_block_footer sizeof_main_footer inp out state false := by
  unfold decode_reenter
  exact reenter_fuel_irrelevant _ _ _ _ _ _ _ h
    (by have := reenter_measure_le out state; omega)

theorem decode_reenter_eq (sizeof_block_footer sizeof_main_footer : Nat)
    (inp : density_memory_teleport) (out : density_memory_location)
    (state : density_chameleon_decode_state) :
    decode_reenter sizeof_block_footer sizeof_main_footer inp out state false
      = match density_chameleon_decode_process sizeof_block_footer sizeof_main_footer
          inp out state false with
        | none => none
        | some (s, inp', out', state') =>
          if s = .INFO_NEW_BLOCK ∨ s = .INFO_EFFICIENCY_CHECK then
            decode_reenter sizeof_block_footer sizeof_main_footer inp' out' state' false
          else some (s, inp', out', state') := by
  conv_lhs => unfold decode_reenter
  rw [show 2 * (out.available_bytes / 256) + 3 = (2 * (out.available_bytes / 256) + 2) + 1
    from rfl, decode_reenter_fuel]
  cases hp : density_chameleon_decode_process sizeof_block_footer sizeof_main_footer
      inp out state false with
  | none => rfl
  | some r =>
    obtain ⟨s, inp', out', state'⟩ := r
    simp only
    by_cases hinfo : s = .INFO_NEW_BLOCK ∨ s = .INFO_EFFICIENCY_CHECK
    · rw [if_pos hinfo, if_pos hinfo]
      have hm := (process_info_measure _ _ _ _ _ _ _ _ _ hp).2 hinfo
      have hle := reenter_measure_le out state
      exact decode_reenter_fuel_eq _ _ _ _ _ _ (by omega)
    · rw [if_neg hinfo, if_neg hinfo]

theorem decode_supply_reenter (sizeof_block_footer sizeof_main_footer : Nat) (x : List Nat) :
    ∀ (n : Nat) (inp : density_memory_teleport) (out : density_memory_location)
      (state : density_chameleon_decode_state),
      reenter_measure out state ≤ n →
      decode_supply sizeof_block_footer sizeof_main_footer
          (decode_reenter sizeof_block_footer sizeof_main_footer inp out state false) x
        = decode_reenter sizeof_block_footer sizeof_main_footer
          (density_memory_teleport_supply inp x) out state false := by
  intro n
  induction n with
  | zero =>
    intro inp out state h
    have := reenter_measure_pos out state
    omega
  | succ n ih =>
    intro inp out state hm
    rw [decode_reenter_eq _ _ inp, decode_reenter_eq _ _ (density_memory_teleport_supply inp x)]
    cases hp : density_chameleon_decode_process sizeof_block_footer sizeof_main_footer
        inp out state false with
    | none =>
      rw [process_supply_none _ _ x _ _ _ hp]
      rfl
    | some r =>
      obtain ⟨s, inp', out', state'⟩ := r
      simp only
      by_cases hinfo : s = .INFO_NEW_BLOCK ∨ s = .INFO_EFFICIENCY_CHECK
      · have hne : s ≠ .STALL_ON_INPUT_BUFFER := by
          rcases hinfo with rfl | rfl <;> decide
        rw [if_pos hinfo, process_supply_other _ _ x _ _ _ _ _ _ _ hp hne]
        simp only
        rw [if_pos hinfo]
        have hlt := (process_info_measure _ _ _ _ _ _ _ _ _ hp).2 hinfo
        exact ih inp' out' state' (by omega)
      · rw [if_neg hinfo]
        simp only [decode_supply]
        by_cases hstall : s = .STALL_ON_INPUT_BUFFER
        · subst hstall
          rw [process_supply_stall _ _ x _ _ _ _ _ _ hp]
          exact decode_reenter_eq _ _ _ _ _
        · rw [process_supply_other _ _ x _ _ _ _ _ _ _ hp hstall]
          simp only
          rw [if_neg hinfo, decode_reenter_eq]
          obtain ⟨-, hcases⟩ := process_fuel_facts _ _ _ _ _ _ _ _ _ _ hp
          rcases hcases with ⟨-, hcase⟩ | ⟨hi, -⟩
          · have hp' := process_of_case_return _ _ _ _ _ _ _ _ _ _ hcase
            rw [process_supply_other _ _ x _ _ _ _ _ _ _ hp' hstall]
            simp only
            rw [if_neg hinfo]
          · exact absurd hi hinfo

theorem decode_chunks_fold (sizeof_block_footer sizeof_main_footer : Nat) :
    ∀ (chunks : List (List Nat)) (inp : density_memory_teleport) (out : density_memory_location)
      (state : density_chameleon_decode_state),
      chunks.foldl (decode_supply sizeof_block_footer sizeof_main_footer)
          (decode_reenter sizeof_block_footer sizeof_main_footer inp out state false)
        = decode_reenter sizeof_block_footer sizeof_main_footer
          (density_memory_teleport_supply inp chunks.flatten) out state false := by
  intro chunks
  induction chunks with
  | nil =>
    intro inp out state
    simp [density_memory_teleport_supply]
  | cons x xs ih =>
    intro inp out state
    rw [List.foldl_cons, decode_supply_reenter _ _ x _ _ _ _ (Nat.le_refl _), ih]
    simp [density_memory_teleport_supply, List.append_assoc]

/-! ## Where the kernel departs from the specification -/

set_option maxRecDepth 1000000 in
/-- C1. Round trip fails on the code: for `X` = 64 words `01 00 00 00` followed by the 8 bytes
`01 … 08` and parameter byte 0, the stream of the encoder is a 138-byte block, the tail and the
footers. Decoded in one piece with `flush` set, the kernel takes the flush tail branch
(146 bytes remain, fewer than 256) and returns FINISHED with the 146 compressed bytes as output,
not `X`. Decoded with `flush` clear first and `flush` set afterwards, it decodes the block, then
reads the tail as a signature, stalls on input for a body that never comes, and the output is
the first 256 bytes of `X` only. -/
theorem round_trip_fails :
    sixty_four_ones_and_tail.length = 264 ∧
    chameleon_encode 0 sixty_four_ones_and_tail example_block_footer example_main_footer
      = [0xFE, 0xFF, 0xFF, 0xFF, 0xFF, 0xFF, 0xFF, 0xFF] ++ [1, 0, 0, 0]
        ++ (List.replicate 63 [0x46, 0x9D]).flatten ++ [1, 2, 3, 4, 5, 6, 7, 8]
        ++ example_block_footer ++ example_main_footer ∧
    decode_flushed 4 4 0 8 4096
        (chameleon_encode 0 sixty_four_ones_and_tail example_block_footer example_main_footer)
      = some (.FINISHED, chameleon_encode 0 sixty_four_ones_and_tail [] []) ∧
    chameleon_encode 0 sixty_four_ones_and_tail [] [] ≠ sixty_four_ones_and_tail ∧
    decode_continue_then_flush 4 4 0 8 4096
        (chameleon_encode 0 sixty_four_ones_and_tail example_block_footer example_main_footer)
      = some (.STALL_ON_INPUT_BUFFER, sixty_four_ones) ∧
    sixty_four_ones ≠ sixty_four_ones_and_tail := by
  decide

set_option maxRecDepth 1000000 in
/-- C8. Scenario 3 fails on the code: the one-block stream of scenario 3 (signature
`0xFFFFFFFFFFFFFFFE`, the literal `00 00 00 00`, 63 references to slot 0) followed by the two
footers, supplied in full with `flush` set to a freshly initialised state, is not decoded: 138
bytes remain before the footers, fewer than 256, so the kernel copies these 138 bytes verbatim
and returns FINISHED, with 256 bytes of output room and with 4096. With `flush` clear the same
call decodes the block to 256 zero bytes. -/
theorem scenario3_flushed_is_copied :
    decode_flushed 4 4 0 8 256 (scenario3_block ++ example_block_footer ++ example_main_footer)
      = some (.FINISHED, scenario3_block) ∧
    decode_flushed 4 4 0 8 4096 (scenario3_block ++ example_block_footer ++ example_main_footer)
      = some (.FINISHED, scenario3_block) ∧
    scenario3_block.length = 138 ∧
    scenario3_block ≠ List.replicate 256 0 ∧
    decode_unflushed 4 4 0 8 256 (scenario3_block ++ example_block_footer ++ example_main_footer)
      = some (.STALL_ON_OUTPUT_BUFFER, example_block_footer ++ example_main_footer,
          List.replicate 256 0) := by
  decide

set_option maxRecDepth 1000000 in
/-- C9. Footer reservation fails on the code: from a state initialised with
`endDataOverhead = 8`, with `flush` clear, (1) a stream made of a 255-byte tail and 8 footer
bytes loses its first footer byte to the kernel, which reads the head of the tail as a
signature of popcount 4, takes a body of 248 bytes (247 of the tail and one of the footer) and
writes that footer byte to the output: 7 bytes are left in the teleport; (2) a stream made of
the 8 footer bytes alone is read whole as a signature. -/
theorem footer_consumed_without_flush :
    decode_unflushed 4 4 0 8 256 (tail_255 ++ example_block_footer ++ example_main_footer)
      = some (.STALL_ON_OUTPUT_BUFFER, [9, 9, 9, 8, 8, 8, 8],
          List.replicate 252 0 ++ [0, 0, 0, 9]) ∧
    decode_unflushed 4 4 0 8 256 (example_block_footer ++ example_main_footer)
      = some (.STALL_ON_INPUT_BUFFER, [], []) := by
  decide

theorem process_of_two_cases (sizeof_block_footer sizeof_main_footer : Nat)
    (inp : density_memory_teleport) (out : density_memory_location)
    (state : density_chameleon_decode_state) (flush : Bool)
    (inp1 : density_memory_teleport) (out1 : density_memory_location)
    (state1 : density_chameleon_decode_state)
    (returnState : DENSITY_KERNEL_DECODE_STATE) (inp2 : density_memory_teleport)
    (out2 : density_memory_location) (state2 : density_chameleon_decode_state)
    (h1 : density_chameleon_decode_process_case sizeof_block_footer sizeof_main_footer
      inp out state flush = some (none, inp1, out1, state1))
    (h2 : density_chameleon_decode_process_case sizeof_block_footer sizeof_main_footer
      inp1 out1 state1 flush = some (some returnState, inp2, out2, state2)) :
    density_chameleon_decode_process sizeof_block_footer sizeof_main_footer inp out state flush
      = some (returnState, inp2, out2, state2) := by
  unfold density_chameleon_decode_process
  rw [show 3 * (out.available_bytes / 256) + 3 = ((3 * (out.available_bytes / 256) + 1) + 1) + 1
    from rfl, density_chameleon_decode_process_fuel, h1]
  simp only
  rw [density_chameleon_decode_process_fuel, h2]

/-- Any stream with fewer than 256 bytes before the two footers, decoded in one piece with
`flush` set from a freshly initialised state with at least 256 bytes of output room, is copied
to the output byte for byte, whatever it holds. -/
theorem decode_flushed_short_stream (stream block_footer main_footer : List Nat)
    (endDataOverhead room : Nat) (hshort : stream.length < 256) (hroom : 256 ≤ room)
    (hsize : stream.length + block_footer.length + main_footer.length < 2 ^ 64) :
    decode_flushed block_footer.length main_footer.length 0 endDataOverhead room
        (stream ++ block_footer ++ main_footer)
      = some (.FINISHED, stream) := by
  have hinit : density_chameleon_decode_init blank_state { as_bytes := [0] } endDataOverhead
      = some (.READY, initial_state endDataOverhead) := rfl
  have hcheck : density_chameleon_decode_check_state
      { ahead := [], stored := [], available_bytes := room }
      (initial_state endDataOverhead)
      = some (.READY, initial_state endDataOverhead) :=
    check_state_after_info _ _ hroom (Or.inr rfl)
  have h1 : density_chameleon_decode_process_case block_footer.length main_footer.length
      { bytes := stream ++ block_footer ++ main_footer }
      { ahead := [], stored := [], available_bytes := room }
      (initial_state endDataOverhead) true
      = some (none, { bytes := stream ++ block_footer ++ main_footer },
          { ahead := [], stored := [], available_bytes := room },
          { (initial_state endDataOverhead) with process := .SIGNATURE }) := by
    unfold density_chameleon_decode_process_case
    simp only [initial_state, blank_state, density_chameleon_decode_process_prepare_new_block]
    simp only [initial_state, blank_state] at hcheck
    rw [hcheck]
    simp
  have hlen : (stream ++ block_footer ++ main_footer).length
      = stream.length + block_footer.length + main_footer.length := by
    simp only [List.length_append]
  have hrem : sub_uint64 (sub_uint64 (stream ++ block_footer ++ main_footer).length
      block_footer.length) main_footer.length = stream.length := by
    rw [sub_uint64_footers _ _ _ (by omega) (by omega)]
    omega
  have h2 : density_chameleon_decode_process_case block_footer.length main_footer.length
      { bytes := stream ++ block_footer ++ main_footer }
      { ahead := [], stored := [], available_bytes := room }
      { (initial_state endDataOverhead) with process := .SIGNATURE } true
      = some (some .FINISHED, { bytes := block_footer ++ main_footer },
          { ahead := [], stored := stream, available_bytes := room - stream.length },
          { (initial_state endDataOverhead) with process := .SIGNATURE }) := by
    unfold density_chameleon_decode_process_case
    simp only [initial_state, blank_state, density_chameleon_decode_process_signature,
      density_memory_teleport_available, hrem, DENSITY_CHAMELEON_ENCODE_PROCESS_UNIT_SIZE,
      hshort, and_self, if_true, density_memory_teleport_copy]
    rw [if_neg (by omega)]
    simp [List.append_assoc, List.take_append_of_le_length, List.drop_append_of_le_length]
  have hp := process_of_two_cases _ _ _ _ _ _ _ _ _ _ _ _ _ h1 h2
  unfold decode_flushed
  rw [hinit]
  simp only
  unfold decode_reenter
  rw [show 2 * (room / 256) + 3 = (2 * (room / 256) + 2) + 1 from rfl, decode_reenter_fuel, hp]
  simp

/-! ## No fault and no exhaustion of fuel in a run that started with `init` -/

theorem init_invariant (state0 : density_chameleon_decode_state)
    (parameters : density_main_header_parameters) (endDataOverhead : Nat)
    (r : DENSITY_KERNEL_DECODE_STATE) (state : density_chameleon_decode_state)
    (h : density_chameleon_decode_init state0 parameters endDataOverhead = some (r, state))
    (out : density_memory_location) : decode_invariant out state := by
  unfold density_chameleon_decode_init at h
  simp only at h
  split at h
  · rename_i hk
    split at h
    · simp at h
    · rename_i v hv
      simp only [Option.some.injEq, Prod.mk.injEq] at h
      obtain ⟨-, rfl⟩ := h
      unfold int_one_shift_left at hv
      refine ⟨?_, by simp, by simp⟩
      by_contra hge
      rw [if_neg hge] at hv
      simp at hv
  · rename_i hk
    simp only [Option.some.injEq, Prod.mk.injEq] at h
    obtain ⟨-, rfl⟩ := h
    refine ⟨?_, by simp, by simp⟩
    simp only [ne_eq, Decidable.not_not] at hk
    simp only [hk]
    decide

theorem check_state_total (out : density_memory_location)
    (state : density_chameleon_decode_state)
    (hk : state.parameters.as_bytes.headD 0 < 31) :
    ∃ (r : DENSITY_KERNEL_DECODE_STATE) (state' : density_chameleon_decode_state),
      density_chameleon_decode_check_state out state = some (r, state')
      ∧ state'.parameters = state.parameters := by
  unfold density_chameleon_decode_check_state
  split
  · exact ⟨_, _, rfl, rfl⟩
  · split
    · split
      · exact ⟨_, _, rfl, rfl⟩
      · exact ⟨_, _, rfl, rfl⟩
    · split
      · simp only
        split
        · exact ⟨_, _, rfl, rfl⟩
        · split
          · simp only [int_one_shift_left, if_pos hk]
            exact ⟨_, _, rfl, rfl⟩
          · exact ⟨_, _, rfl, rfl⟩
      · exact ⟨_, _, rfl, rfl⟩

theorem process_case_total (sizeof_block_footer sizeof_main_footer : Nat)
    (inp : density_memory_teleport) (out : density_memory_location)
    (state : density_chameleon_decode_state) (flush : Bool)
    (hinv : decode_invariant out state) :
    ∃ (r : Option DENSITY_KERNEL_DECODE_STATE) (inp' : density_memory_teleport)
      (out' : density_memory_location) (state' : density_chameleon_decode_state),
      density_chameleon_decode_process_case sizeof_block_footer sizeof_main_footer
        inp out state flush = some (r, inp', out', state')
      ∧ (r ≠ some .FINISHED → decode_invariant out' state') := by
  obtain ⟨hk, hsig, hbody⟩ := hinv
  unfold density_chameleon_decode_process_case
  cases hp : state.process with
  | PREPARE_NEW_BLOCK =>
    simp only
    unfold density_chameleon_decode_process_prepare_new_block
    obtain ⟨r, state1, hc, hpar⟩ := check_state_total out state hk
    obtain ⟨hproc, hcases⟩ := check_state_cases out state r state1 hc
    rw [hc]
    simp only
    by_cases hr : r = .READY
    · subst hr
      rw [if_neg (by simp)]
      refine ⟨_, _, _, _, rfl, fun _ => ⟨by simpa [hpar] using hk, ?_, by simp⟩⟩
      intro _
      rcases hcases with ⟨h, -⟩ | ⟨-, -, h⟩ | ⟨h, -⟩ | ⟨h, -⟩
      · exact absurd h (by decide)
      · exact h
      · exact absurd h (by decide)
      · exact absurd h (by decide)
    · rw [if_pos hr]
      refine ⟨_, _, _, _, rfl, fun _ => ⟨by rw [hpar]; exact hk, ?_, ?_⟩⟩
      · intro h; rw [hproc, hp] at h; exact absurd h (by decide)
      · intro h; rw [hproc, hp] at h; exact absurd h (by decide)
  | SIGNATURE =>
    simp only
    have hroom := hsig hp
    unfold density_chameleon_decode_process_signature
    by_cases hfl : flush = true ∧
        sub_uint64 (sub_uint64 (density_memory_teleport_available inp) sizeof_block_footer)
          sizeof_main_footer < DENSITY_CHAMELEON_ENCODE_PROCESS_UNIT_SIZE
    · simp only [if_pos hfl]
      split
      · exact ⟨_, _, _, _, rfl, fun _ => ⟨hk, hsig, hbody⟩⟩
      · exact ⟨_, _, _, _, rfl, fun h => absurd rfl h⟩
    · simp only [if_neg hfl, density_memory_teleport_read]
      by_cases h8 : 8 ≤ inp.bytes.length
      · simp only [if_pos h8, density_chameleon_decode_read_signature, List.length_take,
          Nat.min_eq_left h8, Nat.le_refl, if_true]
        refine ⟨_, _, _, _, rfl, fun _ => ⟨hk, by simp, ?_⟩⟩
        intro _
        refine ⟨hroom, rfl, ?_⟩
        simp only
        omega
      · simp only [if_neg h8]
        exact ⟨_, _, _, _, rfl, fun _ => ⟨hk, hsig, hbody⟩⟩
  | DECOMPRESS_BODY =>
    simp only
    obtain ⟨hroom, hshift, hlen⟩ := hbody hp
    by_cases hn : state.bodyLength ≤ inp.bytes.length
    · obtain ⟨written, d, -, hrun, -⟩ := decompress_body_run inp out state hshift hlen hn hroom
      rw [hrun]
      exact ⟨_, _, _, _, rfl, fun _ => ⟨hk, by simp, by simp⟩⟩
    · unfold density_chameleon_decode_process_decompress_body
      simp only [density_memory_teleport_read, if_neg hn]
      exact ⟨_, _, _, _, rfl, fun _ => ⟨hk, hsig, hbody⟩⟩

theorem process_fuel_total (sizeof_block_footer sizeof_main_footer : Nat) (flush : Bool) :
    ∀ (f : Nat) (inp : density_memory_teleport) (out : density_memory_location)
      (state : density_chameleon_decode_state),
      process_measure out state ≤ f → decode_invariant out state →
      ∃ (s : DENSITY_KERNEL_DECODE_STATE) (inp' : density_memory_teleport)
        (out' : density_memory_location) (state' : density_chameleon_decode_state),
        density_chameleon_decode_process_fuel sizeof_block_footer sizeof_main_footer flush
          f inp out state = some (s, inp', out', state')
        ∧ (s ≠ .FINISHED → decode_invariant out' state') := by
  intro f
  induction f with
  | zero =>
    intro inp out state hm _
    have := process_measure_pos out state
    omega
  | succ f ih =>
    intro inp out state hm hinv
    obtain ⟨r, inp1, out1, state1, hc, hinv1⟩ := process_case_total sizeof_block_footer
      sizeof_main_footer inp out state flush hinv
    rw [density_chameleon_decode_process_fuel, hc]
    cases r with
    | some s =>
      exact ⟨s, inp1, out1, state1, rfl, fun h => hinv1 (by simpa using h)⟩
    | none =>
      have hm1 := (process_case_continue _ _ _ _ _ _ _ _ hc).1
      exact ih inp1 out1 state1 (by omega) (hinv1 (by simp))

theorem process_total (sizeof_block_footer sizeof_main_footer : Nat)
    (inp : density_memory_teleport) (out : density_memory_location)
    (state : density_chameleon_decode_state) (flush : Bool)
    (hinv : decode_invariant out state) :
    ∃ (s : DENSITY_KERNEL_DECODE_STATE) (inp' : density_memory_teleport)
      (out' : density_memory_location) (state' : density_chameleon_decode_state),
      density_chameleon_decode_process sizeof_block_footer sizeof_main_footer
        inp out state flush = some (s, inp', out', state')
      ∧ (s ≠ .FINISHED → decode_invariant out' state') :=
  process_fuel_total _ _ _ _ _ _ _ (process_measure_le _ _) hinv

theorem decode_reenter_fuel_total (sizeof_block_footer sizeof_main_footer : Nat) :
    ∀ (n : Nat) (inp : density_memory_teleport) (out : density_memory_location)
      (state : density_chameleon_decode_state),
      reenter_measure out state ≤ n → decode_invariant out state →
      ∃ (s : DENSITY_KERNEL_DECODE_STATE) (inp' : density_memory_teleport)
        (out' : density_memory_location) (state' : density_chameleon_decode_state),
        decode_reenter_fuel sizeof_block_footer sizeof_main_footer false n inp out state
          = some (s, inp', out', state')
        ∧ decode_invariant out' state'
        ∧ (s = .STALL_ON_INPUT_BUFFER ∨ s = .STALL_ON_OUTPUT_BUFFER) := by
  intro n
  induction n with
  | zero =>
    intro inp out state hm _
    have := reenter_measure_pos out state
    omega
  | succ n ih =>
    intro inp out state hm hinv
    obtain ⟨s, inp1, out1, state1, hp, hinv1⟩ := process_total sizeof_block_footer
      sizeof_main_footer inp out state false hinv
    rw [decode_reenter_fuel, hp]
    simp only
    obtain ⟨-, hcases⟩ := process_fuel_facts _ _ _ _ _ _ _ _ _ _ hp
    by_cases hinfo : s = .INFO_NEW_BLOCK ∨ s = .INFO_EFFICIENCY_CHECK
    · rw [if_pos hinfo]
      have hlt := (process_info_measure _ _ _ _ _ _ _ _ _ hp).2 hinfo
      exact ih inp1 out1 state1 (by omega)
        (hinv1 (by rcases hinfo with rfl | rfl <;> decide))
    · rw [if_neg hinfo]
      rcases hcases with ⟨hs, -⟩ | ⟨hi, -⟩
      · exact ⟨s, inp1, out1, state1, rfl,
          hinv1 (by rcases hs with rfl | rfl <;> decide), hs⟩
      · exact absurd hi hinfo

theorem decode_reenter_total (sizeof_block_footer sizeof_main_footer : Nat)
    (inp : density_memory_teleport) (out : density_memory_location)
    (state : density_chameleon_decode_state) (hinv : decode_invariant out state) :
    ∃ (s : DENSITY_KERNEL_DECODE_STATE) (inp' : density_memory_teleport)
      (out' : density_memory_location) (state' : density_chameleon_decode_state),
      decode_reenter sizeof_block_footer sizeof_main_footer inp out state false
        = some (s, inp', out', state')
      ∧ decode_invariant out' state'
      ∧ (s = .STALL_ON_INPUT_BUFFER ∨ s = .STALL_ON_OUTPUT_BUFFER) :=
  decode_reenter_fuel_total _ _ _ _ _ _
    (by have := reenter_measure_le out state; omega) hinv

/-- Streaming with `flush` clear on every delivery: from any teleport content, output location
and decode state met in a run that started with `init`, and for every way of cutting further
input into chunks, supplying the chunks one after the other (re-entering `process` after each
stall, and on `INFO_*`, with the output location as the kernel left it) returns, and so does
supplying their concatenation in one piece, and both end with the same status (a stall), the
same teleport, the same output (bytes stored and room left) and the same state (dictionary,
signature, counters, phase). -/
theorem streaming_equivalence (sizeof_block_footer sizeof_main_footer : Nat)
    (inp : density_memory_teleport) (out : density_memory_location)
    (state : density_chameleon_decode_state) (chunks : List (List Nat))
    (hinv : decode_invariant out state) :
    ∃ (s : DENSITY_KERNEL_DECODE_STATE) (inp' : density_memory_teleport)
      (out' : density_memory_location) (state' : density_chameleon_decode_state),
      decode_chunks sizeof_block_footer sizeof_main_footer inp out state chunks
        = some (s, inp', out', state')
      ∧ decode_reenter sizeof_block_footer sizeof_main_footer
          (density_memory_teleport_supply inp chunks.flatten) out state false
        = some (s, inp', out', state')
      ∧ (s = .STALL_ON_INPUT_BUFFER ∨ s = .STALL_ON_OUTPUT_BUFFER) := by
  obtain ⟨s, inp', out', state', hrun, -, hs⟩ := decode_reenter_total sizeof_block_footer
    sizeof_main_footer (density_memory_teleport_supply inp chunks.flatten) out state hinv
  refine ⟨s, inp', out', state', ?_, hrun, hs⟩
  unfold decode_chunks
  rw [decode_chunks_fold _ _ chunks inp out state, hrun]

/-- An instance of `streaming_equivalence`: the block of scenario 3 cut after its fifth byte,
from a blank state with 256 bytes of output room. -/
theorem streaming_equivalence_instance :
    decode_invariant (fresh_output 256) blank_state ∧
    ∃ (s : DENSITY_KERNEL_DECODE_STATE) (inp' : density_memory_teleport)
      (out' : density_memory_location) (state' : density_chameleon_decode_state),
      decode_chunks 4 4 { bytes := [] } (fresh_output 256) blank_state
          [scenario3_block.take 5, scenario3_block.drop 5]
        = some (s, inp', out', state')
      ∧ decode_reenter 4 4
          (density_memory_teleport_supply { bytes := [] }
            [scenario3_block.take 5, scenario3_block.drop 5].flatten)
          (fresh_output 256) blank_state false
        = some (s, inp', out', state')
      ∧ (s = .STALL_ON_INPUT_BUFFER ∨ s = .STALL_ON_OUTPUT_BUFFER) :=
  ⟨by decide,
   streaming_equivalence 4 4 { bytes := [] } (fresh_output 256) blank_state
     [scenario3_block.take 5, scenario3_block.drop 5] (by decide)⟩

/-! ## The encoder of the specification, decoded block by block -/

theorem signature_of_bits_bit :
    ∀ (bits : List Nat) (i : Nat), (∀ b ∈ bits, b ≤ 1) →
      signature_of_bits bits / 2 ^ i % 2 = bits.getD i 0 := by
  intro bits
  induction bits with
  | nil => intro i _; simp [signature_of_bits]
  | cons b rest ih =>
    intro i hb
    have hb0 : b ≤ 1 := hb b (by simp)
    have hrest : ∀ x ∈ rest, x ≤ 1 := fun x hx => hb x (by simp [hx])
    cases i with
    | zero =>
      simp only [signature_of_bits, pow_zero, Nat.div_one, List.getD_cons_zero]
      omega
    | succ i =>
      have h2 : (b + 2 * signature_of_bits rest) / 2 ^ (i + 1)
          = signature_of_bits rest / 2 ^ i := by
        have h1 : (b + 2 * signature_of_bits rest) / 2 ^ (i + 1)
            = (b + 2 * signature_of_bits rest) / 2 / 2 ^ i := by
          rw [Nat.pow_succ, Nat.mul_comm (2 ^ i) 2, Nat.div_div_eq_div_mul]
        have h3 : (b + 2 * signature_of_bits rest) / 2 = signature_of_bits rest := by omega
        rw [h1, h3]
      simp only [signature_of_bits, h2, List.getD_cons_succ]
      exact ih i hrest

theorem signature_of_bits_lt :
    ∀ (bits : List Nat), (∀ b ∈ bits, b ≤ 1) → signature_of_bits bits < 2 ^ bits.length := by
  intro bits
  induction bits with
  | nil => intro _; simp [signature_of_bits]
  | cons b rest ih =>
    intro hb
    have hb0 : b ≤ 1 := hb b (by simp)
    have := ih (fun x hx => hb x (by simp [hx]))
    simp only [signature_of_bits, List.length_cons, Nat.pow_succ]
    omega

theorem little_endian_64_signature_bytes (sig : Nat) (h : sig < 2 ^ 64) :
    DENSITY_LITTLE_ENDIAN_64 (signature_bytes sig) = sig := by
  simp only [signature_bytes, List.range_succ, List.range_zero, List.nil_append,
    List.cons_append, List.map_cons, List.map_nil, DENSITY_LITTLE_ENDIAN_64]
  norm_num at h ⊢
  omega

theorem signature_bytes_length (sig : Nat) : (signature_bytes sig).length = 8 := by
  simp [signature_bytes]

theorem signature_bytes_lt (sig : Nat) : ∀ b ∈ signature_bytes sig, b < 256 := by
  intro b hb
  simp only [signature_bytes, List.mem_map] at hb
  obtain ⟨k, -, rfl⟩ := hb
  exact Nat.mod_lt _ (by decide)

theorem reference_word_bytes_lt (W : Nat) : ∀ b ∈ reference_word_bytes W, b < 256 := by
  intro b hb
  simp only [reference_word_bytes, List.mem_map] at hb
  obtain ⟨k, -, rfl⟩ := hb
  exact Nat.mod_lt _ (by decide)

theorem reference_word_bytes_eq (W : Nat) :
    reference_word_bytes W
      = [W % 256, W / 256 % 256, W / 65536 % 256, W / 16777216 % 256] :=
  (store_uint32_eq_reference W).symm

theorem encode_word_facts (dict : Nat → Nat) (W : Nat) :
    (chameleon_encode_word dict W).1 ≤ 1
    ∧ (chameleon_encode_word dict W).2.1.length
        = (if (chameleon_encode_word dict W).1 = 1 then 2 else 4)
    ∧ ∀ b ∈ (chameleon_encode_word dict W).2.1, b < 256 := by
  unfold chameleon_encode_word
  simp only
  split
  · refine ⟨Nat.le_refl _, by simp, ?_⟩
    intro b hb
    simp only [List.mem_cons, List.mem_singleton, List.not_mem_nil, or_false] at hb
    rcases hb with rfl | rfl <;> exact Nat.mod_lt _ (by decide)
  · refine ⟨by omega, by simp [reference_word_bytes], reference_word_bytes_lt W⟩

theorem reference_word_of_encode (dict : Nat → Nat) (W : Nat) (hW : W < 2 ^ 32)
    (SIG : Nat) (BODY : List Nat) (s c : Nat) (out rest : List Nat)
    (hbit : SIG / 2 ^ s % 2 = (chameleon_encode_word dict W).1)
    (hbody : BODY.drop c = (chameleon_encode_word dict W).2.1 ++ rest) :
    body_decode_reference_word SIG BODY { cursor := c, dict := dict, output := out } s
      = { cursor := c + (chameleon_encode_word dict W).2.1.length,
          dict := (chameleon_encode_word dict W).2.2,
          output := out ++ reference_word_bytes W } := by
  unfold chameleon_encode_word at hbit hbody ⊢
  unfold body_decode_reference_word reference_test
  simp only at hbit hbody ⊢
  have hh := hash_lt W
  by_cases hhit : dict (DENSITY_CHAMELEON_HASH_ALGORITHM W) = W
  · simp only [if_pos hhit] at hbit hbody ⊢
    simp only [List.cons_append, List.nil_append] at hbody
    obtain ⟨hg0, hd1⟩ := drop_eq_cons_imp hbody
    obtain ⟨hg1, -⟩ := drop_eq_cons_imp hd1
    have hidx : reference_read_u16 BODY c = DENSITY_CHAMELEON_HASH_ALGORITHM W := by
      unfold reference_read_u16
      rw [hg0, hg1]
      omega
    rw [if_pos hbit, hidx, hhit]
    rfl
  · simp only [if_neg hhit] at hbit hbody ⊢
    rw [reference_word_bytes_eq] at hbody
    simp only [List.cons_append, List.nil_append] at hbody
    obtain ⟨hg0, hd1⟩ := drop_eq_cons_imp hbody
    obtain ⟨hg1, hd2⟩ := drop_eq_cons_imp hd1
    obtain ⟨hg2, hd3⟩ := drop_eq_cons_imp hd2
    obtain ⟨hg3, -⟩ := drop_eq_cons_imp hd3
    have hword : reference_read_u32 BODY c = W := by
      unfold reference_read_u32
      rw [hg0, hg1, hg2, hg3]
      norm_num at hW ⊢
      omega
    rw [if_neg (by omega), hword]
    simp [reference_word_bytes]

theorem encode_words_facts :
    ∀ (ws : List Nat) (dict : Nat → Nat),
      (chameleon_encode_words dict ws).1.length = ws.length
      ∧ (∀ b ∈ (chameleon_encode_words dict ws).1, b ≤ 1)
      ∧ (∀ b ∈ (chameleon_encode_words dict ws).2.1, b < 256) := by
  intro ws
  induction ws with
  | nil => intro dict; simp [chameleon_encode_words]
  | cons W rest ih =>
    intro dict
    obtain ⟨hbit, -, hbytes⟩ := encode_word_facts dict W
    obtain ⟨hl, hb, hy⟩ := ih (chameleon_encode_word dict W).2.2
    simp only [chameleon_encode_words, List.length_cons, hl, List.mem_cons, List.mem_append,
      true_and]
    refine ⟨?_, ?_⟩
    · rintro b (rfl | hb')
      · exact hbit
      · exact hb b hb'
    · rintro b (hb' | hb')
      · exact hbytes b hb'
      · exact hy b hb'

theorem reference_fold_of_encode (SIG : Nat) (BODY : List Nat) :
    ∀ (ws : List Nat) (dict : Nat → Nat) (s c : Nat) (out rest : List Nat),
      (∀ W ∈ ws, W < 2 ^ 32) →
      (∀ j, j < ws.length →
        SIG / 2 ^ (s + j) % 2 = (chameleon_encode_words dict ws).1.getD j 0) →
      BODY.drop c = (chameleon_encode_words dict ws).2.1 ++ rest →
      (List.range' s ws.length).foldl (body_decode_reference_word SIG BODY)
          { cursor := c, dict := dict, output := out }
        = { cursor := c + (chameleon_encode_words dict ws).2.1.length,
            dict := (chameleon_encode_words dict ws).2.2,
            output := out ++ ws.flatMap reference_word_bytes }
      ∧ signature_body_bytes SIG s ws.length = (chameleon_encode_words dict ws).2.1.length := by
  intro ws
  induction ws with
  | nil =>
    intro dict s c out rest _ _ _
    simp [chameleon_encode_words, signature_body_bytes]
  | cons W ws ih =>
    intro dict s c out rest hW hbits hbody
    have hW0 : W < 2 ^ 32 := hW W (by simp)
    have hbit0 : SIG / 2 ^ s % 2 = (chameleon_encode_word dict W).1 := by
      have := hbits 0 (by simp)
      simpa [chameleon_encode_words] using this
    simp only [chameleon_encode_words, List.append_assoc] at hbody
    have hstep := reference_word_of_encode dict W hW0 SIG BODY s c out _ hbit0 hbody
    obtain ⟨-, hlen, -⟩ := encode_word_facts dict W
    have hbody' : BODY.drop (c + (chameleon_encode_word dict W).2.1.length)
        = (chameleon_encode_words (chameleon_encode_word dict W).2.2 ws).2.1 ++ rest := by
      rw [← List.drop_drop, hbody, List.drop_left]
    obtain ⟨hfold, hbytes⟩ := ih (chameleon_encode_word dict W).2.2 (s + 1)
      (c + (chameleon_encode_word dict W).2.1.length) (out ++ reference_word_bytes W) rest
      (fun x hx => hW x (by simp [hx]))
      (by
        intro j hj
        have := hbits (j + 1) (by simp; omega)
        simp only [chameleon_encode_words, List.getD_cons_succ] at this
        rw [← this]
        congr 3
        omega)
      hbody'
    refine ⟨?_, ?_⟩
    · simp only [List.length_cons, List.range'_succ, List.foldl_cons, hstep, hfold,
        chameleon_encode_words, List.length_append, List.flatMap_cons, List.append_assoc,
        Nat.add_assoc]
    · simp only [List.length_cons, signature_body_bytes, hbytes, chameleon_encode_words,
        List.length_append, hlen, hbit0]

theorem words_of_bytes_facts :
    ∀ (m : Nat) (chunk : List Nat), chunk.length = 4 * m → (∀ b ∈ chunk, b < 256) →
      (words_of_bytes chunk).length = m
      ∧ (∀ W ∈ words_of_bytes chunk, W < 2 ^ 32)
      ∧ (words_of_bytes chunk).flatMap reference_word_bytes = chunk := by
  intro m
  induction m with
  | zero =>
    intro chunk hl _
    have : chunk = [] := List.length_eq_zero.mp (by omega)
    subst this
    simp [words_of_bytes]
  | succ m ih =>
    intro chunk hl hb
    match chunk, hl, hb with
    | b0 :: b1 :: b2 :: b3 :: rest, hl, hb =>
      have h0 : b0 < 256 := hb b0 (by simp)
      have h1 : b1 < 256 := hb b1 (by simp)
      have h2 : b2 < 256 := hb b2 (by simp)
      have h3 : b3 < 256 := hb b3 (by simp)
      obtain ⟨hlen, hlt, hflat⟩ := ih rest (by simp at hl; omega)
        (fun b hbm => hb b (by simp [hbm]))
      simp only [words_of_bytes, List.length_cons, hlen, List.mem_cons, List.flatMap_cons,
        hflat, reference_word_bytes_eq, true_and, List.cons_append, List.nil_append]
      refine ⟨?_, ?_⟩
      · rintro W (rfl | hWm)
        · norm_num
          omega
        · exact hlt W hWm
      · have e0 : (b0 + 256 * b1 + 256 ^ 2 * b2 + 256 ^ 3 * b3) % 256 = b0 := by
          norm_num; omega
        have e1 : (b0 + 256 * b1 + 256 ^ 2 * b2 + 256 ^ 3 * b3) / 256 % 256 = b1 := by
          norm_num; omega
        have e2 : (b0 + 256 * b1 + 256 ^ 2 * b2 + 256 ^ 3 * b3) / 65536 % 256 = b2 := by
          norm_num; omega
        have e3 : (b0 + 256 * b1 + 256 ^ 2 * b2 + 256 ^ 3 * b3) / 16777216 % 256 = b3 := by
          norm_num; omega
        rw [e0, e1, e2, e3]
    | [], hl, _ => simp at hl
    | [_], hl, _ => simp at hl; omega
    | [_, _], hl, _ => simp at hl; omega
    | [_, _, _], hl, _ => simp at hl; omega

theorem process_data_of_encoded_block (chunk : List Nat) (hlen : chunk.length = 256)
    (hb : ∀ b ∈ chunk, b < 256) (dict : Nat → Nat) (out : density_memory_location)
    (state : density_chameleon_decode_state) (hshift : state.shift = 0)
    (hsig : state.signature
      = signature_of_bits (chameleon_encode_words dict (words_of_bytes chunk)).1)
    (hdict : state.dictionary.entries = dict) :
    (chameleon_encode_words dict (words_of_bytes chunk)).2.1.length
      = 256 - 2 * popcountll
          (signature_of_bits (chameleon_encode_words dict (words_of_bytes chunk)).1)
    ∧ signature_of_bits (chameleon_encode_words dict (words_of_bytes chunk)).1 < 2 ^ 64
    ∧ density_chameleon_decode_process_data
        { ahead := (chameleon_encode_words dict (words_of_bytes chunk)).2.1, stored := [],
          available_bytes := (chameleon_encode_words dict (words_of_bytes chunk)).2.1.length }
        out state
      = some ({ ahead := [], stored := [],
                available_bytes :=
                  (chameleon_encode_words dict (words_of_bytes chunk)).2.1.length },
          { out with stored := out.stored ++ chunk },
          { state with
              shift := 64
              dictionary :=
                { entries := (chameleon_encode_words dict (words_of_bytes chunk)).2.2 } }) := by
  obtain ⟨hwl, hwlt, hflat⟩ := words_of_bytes_facts 64 chunk (by omega) hb
  obtain ⟨hbl, hbits, hbytes⟩ := encode_words_facts (words_of_bytes chunk) dict
  have hlt := signature_of_bits_lt _ hbits
  rw [hbl, hwl] at hlt
  obtain ⟨hfold, hsbb⟩ := reference_fold_of_encode
    (signature_of_bits (chameleon_encode_words dict (words_of_bytes chunk)).1)
    (chameleon_encode_words dict (words_of_bytes chunk)).2.1
    (words_of_bytes chunk) dict 0 0 [] [] hwlt
    (by intro j _; rw [Nat.zero_add]; exact signature_of_bits_bit _ j hbits)
    (by simp)
  rw [hwl] at hfold hsbb
  have hlen' := signature_body_bytes_eq
    (signature_of_bits (chameleon_encode_words dict (words_of_bytes chunk)).1)
  refine ⟨by omega, hlt, ?_⟩
  have h := process_data_loop_reference
    (signature_of_bits (chameleon_encode_words dict (words_of_bytes chunk)).1)
    (chameleon_encode_words dict (words_of_bytes chunk)).2.1 out.stored 64
    { ahead := (chameleon_encode_words dict (words_of_bytes chunk)).2.1, stored := [],
      available_bytes := (chameleon_encode_words dict (words_of_bytes chunk)).2.1.length }
    out state { cursor := 0, dict := dict, output := [] }
    (by omega) hsig hbytes (by simp) (by rw [hshift]; simp only [Nat.zero_add]; exact hsbb)
    hdict (by simp)
  unfold density_chameleon_decode_process_data
  rw [h, hshift, hfold, hflat]
  simp

theorem process_of_three_cases (sizeof_block_footer sizeof_main_footer : Nat) (flush : Bool)
    (inp inp1 inp2 inp3 : density_memory_teleport)
    (out out1 out2 out3 : density_memory_location)
    (state state1 state2 state3 : density_chameleon_decode_state)
    (h1 : density_chameleon_decode_process_case sizeof_block_footer sizeof_main_footer
      inp out state flush = some (none, inp1, out1, state1))
    (h2 : density_chameleon_decode_process_case sizeof_block_footer sizeof_main_footer
      inp1 out1 state1 flush = some (none, inp2, out2, state2))
    (h3 : density_chameleon_decode_process_case sizeof_block_footer sizeof_main_footer
      inp2 out2 state2 flush = some (none, inp3, out3, state3))
    (hroom : out3.available_bytes + 256 = out.available_bytes) :
    density_chameleon_decode_process sizeof_block_footer sizeof_main_footer inp out state flush
      = density_chameleon_decode_process sizeof_block_footer sizeof_main_footer
          inp3 out3 state3 flush := by
  unfold density_chameleon_decode_process
  have hq : 3 * (out.available_bytes / 256) + 3
      = (((3 * (out3.available_bytes / 256) + 3) + 1) + 1) + 1 := by omega
  rw [hq, density_chameleon_decode_process_fuel, h1]
  simp only
  rw [density_chameleon_decode_process_fuel, h2]
  simp only
  rw [density_chameleon_decode_process_fuel, h3]

theorem check_state_zero_shift (out : density_memory_location)
    (state : density_chameleon_decode_state)
    (hk : state.parameters.as_bytes.headD 0 = 0) (hroom : 256 ≤ out.available_bytes) :
    ∃ (r : DENSITY_KERNEL_DECODE_STATE) (state' : density_chameleon_decode_state),
      density_chameleon_decode_check_state out state = some (r, state')
      ∧ state'.dictionary = state.dictionary ∧ state'.parameters = state.parameters
      ∧ state'.process = state.process
      ∧ ((r = .READY ∧ state' = state)
         ∨ ((r = .INFO_NEW_BLOCK ∨ r = .INFO_EFFICIENCY_CHECK)
            ∧ density_chameleon_decode_check_state out state' = some (.READY, state'))) := by
  have hdict : ∀ r state', density_chameleon_decode_check_state out state = some (r, state') →
      state'.dictionary = state.dictionary := by
    intro r state' h
    unfold density_chameleon_decode_check_state at h
    simp only [hk, ne_eq, not_true_eq_false, if_false] at h
    split at h
    · simp only [Option.some.injEq, Prod.mk.injEq] at h; rw [← h.2]
    · split at h
      · split at h <;> (simp only [Option.some.injEq, Prod.mk.injEq] at h; rw [← h.2])
      · split at h
        · split at h <;> (simp only [Option.some.injEq, Prod.mk.injEq] at h; rw [← h.2])
        · simp only [Option.some.injEq, Prod.mk.injEq] at h; rw [← h.2]
  obtain ⟨r, state', hc, hpar⟩ := check_state_total out state (by omega)
  obtain ⟨hproc, hcases⟩ := check_state_cases out state r state' hc
  refine ⟨r, state', hc, hdict r state' hc, hpar, hproc, ?_⟩
  rcases hcases with ⟨-, -, hlt⟩ | ⟨hr, hst, -⟩ | ⟨hr, -, h64, h1⟩ | ⟨hr, -, h0⟩
  · omega
  · exact Or.inl ⟨hr, hst⟩
  · exact Or.inr ⟨Or.inr hr, check_state_after_info out state' hroom (Or.inl ⟨h64, h1⟩)⟩
  · exact Or.inr ⟨Or.inl hr, check_state_after_info out state' hroom (Or.inr h0)⟩

theorem process_block_step (sizeof_block_footer sizeof_main_footer : Nat)
    (chunk rest : List Nat) (hlen : chunk.length = 256) (hb : ∀ b ∈ chunk, b < 256)
    (dict : Nat → Nat) (bits body : List Nat) (dict' : Nat → Nat)
    (henc : chameleon_encode_words dict (words_of_bytes chunk) = (bits, body, dict'))
    (out : density_memory_location) (state : density_chameleon_decode_state)
    (hproc : state.process = .PREPARE_NEW_BLOCK)
    (hcheck : density_chameleon_decode_check_state out state = some (.READY, state))
    (hdict : state.dictionary.entries = dict) :
    density_chameleon_decode_process sizeof_block_footer sizeof_main_footer
        { bytes := signature_bytes (signature_of_bits bits) ++ body ++ rest } out state false
      = density_chameleon_decode_process sizeof_block_footer sizeof_main_footer
        { bytes := rest }
        { out with stored := out.stored ++ chunk, available_bytes := out.available_bytes - 256 }
        { state with
            signature := signature_of_bits bits
            shift := 64
            signaturesCount := state.signaturesCount + 1
            bodyLength := 256 - 2 * popcountll (signature_of_bits bits)
            dictionary := { entries := dict' }
            process := .PREPARE_NEW_BLOCK } false := by
  have hroom := check_state_ready_room out state state hcheck
  obtain ⟨hbl, hslt, hdata⟩ := process_data_of_encoded_block chunk hlen hb dict out
    { state with
        process := .DECOMPRESS_BODY
        signature := signature_of_bits bits
        shift := 0
        signaturesCount := state.signaturesCount + 1
        bodyLength := 256 - 2 * popcountll (signature_of_bits bits) }
    rfl (by rw [henc]) hdict
  rw [henc] at hbl hslt hdata
  simp only at hbl hslt hdata
  have h8 : (signature_bytes (signature_of_bits bits)).length = 8 := signature_bytes_length _
  have h1 : density_chameleon_decode_process_case sizeof_block_footer sizeof_main_footer
      { bytes := signature_bytes (signature_of_bits bits) ++ body ++ rest } out state false
      = some (none, { bytes := signature_bytes (signature_of_bits bits) ++ body ++ rest }, out,
          { state with process := .SIGNATURE }) := by
    unfold density_chameleon_decode_process_case
    rw [hproc]
    simp only [density_chameleon_decode_process_prepare_new_block, hcheck]
    simp
  have h2 : density_chameleon_decode_process_case sizeof_block_footer sizeof_main_footer
      { bytes := signature_bytes (signature_of_bits bits) ++ body ++ rest } out
      { state with process := .SIGNATURE } false
      = some (none, { bytes := body ++ rest }, out,
          { state with
              process := .DECOMPRESS_BODY
              signature := signature_of_bits bits
              shift := 0
              signaturesCount := state.signaturesCount + 1
              bodyLength := 256 - 2 * popcountll (signature_of_bits bits) }) := by
    rw [process_case_signature _ _ _ _ _ _ rfl,
      signature_phase_run _ _ _ _ _ _ (by simp) (by simp [h8])]
    simp only [List.append_assoc, List.take_left' h8, List.drop_left' h8,
      density_memory_teleport_consume, little_endian_64_signature_bytes _ hslt]
  have h3 : density_chameleon_decode_process_case sizeof_block_footer sizeof_main_footer
      { bytes := body ++ rest } out
      { state with
          process := .DECOMPRESS_BODY
          signature := signature_of_bits bits
          shift := 0
          signaturesCount := state.signaturesCount + 1
          bodyLength := 256 - 2 * popcountll (signature_of_bits bits) } false
      = some (none, { bytes := rest },
          { out with stored := out.stored ++ chunk,
                     available_bytes := out.available_bytes - 256 },
          { state with
              signature := signature_of_bits bits
              shift := 64
              signaturesCount := state.signaturesCount + 1
              bodyLength := 256 - 2 * popcountll (signature_of_bits bits)
              dictionary := { entries := dict' }
              process := .PREPARE_NEW_BLOCK }) := by
    unfold density_chameleon_decode_process_case
    simp only [← hbl] at hdata ⊢
    simp only [density_chameleon_decode_process_decompress_body, density_memory_teleport_read,
      List.length_append, Nat.le_add_right, if_true, List.take_left,
      density_memory_teleport_consume, List.drop_left]
    rw [if_neg (by omega), hdata]
  exact process_of_three_cases _ _ _ _ _ _ _ _ _ _ _ _ _ _ _ h1 h2 h3
    (by simp only; omega)

theorem decode_blocks_run (sizeof_block_footer sizeof_main_footer : Nat)
    (trailing : List Nat) :
    ∀ (m : Nat) (X : List Nat) (dict : Nat → Nat) (blk : Nat)
      (out : density_memory_location) (state : density_chameleon_decode_state),
      X.length = 256 * m → (∀ b ∈ X, b < 256) → out.available_bytes = 256 * m →
      state.process = .PREPARE_NEW_BLOCK → state.parameters.as_bytes.headD 0 = 0 →
      state.dictionary.entries = dict →
      ∃ state' : density_chameleon_decode_state,
        decode_reenter sizeof_block_footer sizeof_main_footer
            { bytes := chameleon_encode_blocks 0 (m + 1) dict blk X ++ trailing } out state false
          = some (.STALL_ON_OUTPUT_BUFFER, { bytes := trailing },
              { out with stored := out.stored ++ X, available_bytes := 0 }, state') := by
  intro m
  induction m with
  | zero =>
    intro X dict blk out state hlen _ hroom hproc _ _
    have hX : X = [] := List.length_eq_zero.mp (by omega)
    subst hX
    have hcheck : density_chameleon_decode_check_state out state
        = some (.STALL_ON_OUTPUT_BUFFER, state) := by
      unfold density_chameleon_decode_check_state
      rw [if_pos (by unfold DENSITY_CHAMELEON_DECODE_MINIMUM_OUTPUT_LOOKAHEAD; omega)]
    have hcase : density_chameleon_decode_process_case sizeof_block_footer sizeof_main_footer
        { bytes := trailing } out state false
        = some (some .STALL_ON_OUTPUT_BUFFER, { bytes := trailing }, out, state) := by
      unfold density_chameleon_decode_process_case
      rw [hproc]
      simp only [density_chameleon_decode_process_prepare_new_block, hcheck]
      simp
    refine ⟨state, ?_⟩
    simp only [chameleon_encode_blocks, List.length_nil, Nat.zero_lt_succ, if_true,
      List.nil_append, List.append_nil]
    rw [decode_reenter_eq, process_of_case_return _ _ _ _ _ _ _ _ _ _ hcase]
    simp only
    rw [if_neg (by decide)]
    congr 3
    cases out
    simp only at hroom
    simp [hroom]
  | succ m ih =>
    intro X dict blk out state hlen hb hroom hproc hk hdict
    have hroom' : 256 ≤ out.available_bytes := by omega
    have htake : (X.take 256).length = 256 := by rw [List.length_take]; omega
    have hdrop : (X.drop 256).length = 256 * m := by rw [List.length_drop]; omega
    have hbt : ∀ b ∈ X.take 256, b < 256 := fun b h => hb b (List.mem_of_mem_take h)
    have hbd : ∀ b ∈ X.drop 256, b < 256 := fun b h => hb b (List.mem_of_mem_drop h)
    obtain ⟨bits, body, dict', henc⟩ :
        ∃ bits body dict',
          chameleon_encode_words dict (words_of_bytes (X.take 256)) = (bits, body, dict') :=
      ⟨_, _, _, rfl⟩
    have hstream : chameleon_encode_blocks 0 (m + 1 + 1) dict blk X ++ trailing
        = signature_bytes (signature_of_bits bits) ++ body
          ++ (chameleon_encode_blocks 0 (m + 1) dict' (blk + 1) (X.drop 256) ++ trailing) := by
      rw [chameleon_encode_blocks, if_neg (by omega)]
      simp only [ne_eq, not_true_eq_false, false_and, if_false, henc, List.append_assoc]
    have hready : ∀ state1 : density_chameleon_decode_state,
        state1.process = .PREPARE_NEW_BLOCK →
        density_chameleon_decode_check_state out state1 = some (.READY, state1) →
        state1.parameters.as_bytes.headD 0 = 0 → state1.dictionary.entries = dict →
        ∃ state' : density_chameleon_decode_state,
          decode_reenter sizeof_block_footer sizeof_main_footer
              { bytes := chameleon_encode_blocks 0 (m + 1 + 1) dict blk X ++ trailing }
              out state1 false
            = some (.STALL_ON_OUTPUT_BUFFER, { bytes := trailing },
                { out with stored := out.stored ++ X, available_bytes := 0 }, state') := by
      intro state1 hproc1 hcheck1 hk1 hdict1
      obtain ⟨state', hrun⟩ := ih (X.drop 256) dict' (blk + 1)
        { out with stored := out.stored ++ X.take 256,
                   available_bytes := out.available_bytes - 256 }
        { state1 with
            signature := signature_of_bits bits
            shift := 64
            signaturesCount := state1.signaturesCount + 1
            bodyLength := 256 - 2 * popcountll (signature_of_bits bits)
            dictionary := { entries := dict' }
            process := .PREPARE_NEW_BLOCK }
        hdrop hbd (by simp only; omega) rfl hk1 rfl
      refine ⟨state', ?_⟩
      rw [hstream, decode_reenter_eq,
        process_block_step _ _ (X.take 256) _ htake hbt dict bits body dict' henc out state1
          hproc1 hcheck1 hdict1,
        ← decode_reenter_eq, hrun]
      simp only [List.append_assoc, List.take_append_drop]
    obtain ⟨r, state1, hc, hd1, hp1, hpr1, hcases⟩ := check_state_zero_shift out state hk hroom'
    rcases hcases with ⟨hr, hst⟩ | ⟨hinfo, hcheck1⟩
    · subst hst hr
      exact hready state1 hproc hc hk hdict
    · obtain ⟨state', hrun⟩ := hready state1 (by rw [hpr1, hproc]) hcheck1
        (by rw [hp1]; exact hk) (by rw [hd1]; exact hdict)
      refine ⟨state', ?_⟩
      have hne : r ≠ .READY := by rcases hinfo with rfl | rfl <;> decide
      have hcase : density_chameleon_decode_process_case sizeof_block_footer sizeof_main_footer
          { bytes := chameleon_encode_blocks 0 (m + 1 + 1) dict blk X ++ trailing } out state
          false
          = some (some r,
              { bytes := chameleon_encode_blocks 0 (m + 1 + 1) dict blk X ++ trailing },
              out, state1) := by
        unfold density_chameleon_decode_process_case
        rw [hproc]
        simp only [density_chameleon_decode_process_prepare_new_block, hc]
        rw [if_pos hne]
      rw [decode_reenter_eq, process_of_case_return _ _ _ _ _ _ _ _ _ _ hcase]
      simp only
      rw [if_pos hinfo, hrun]

/-- Round trip of whole blocks: for every byte string `X` of `256 * m` bytes, the stream of the
encoder under parameter byte 0 (the blocks of `X` followed by the two footers), decoded in one
piece with `flush` clear from a freshly initialised state with exactly `256 * m` bytes of output
room, yields `X`: the kernel decodes the `m` blocks, leaves the footers in the teleport, and
stalls on the output. -/
theorem round_trip_whole_blocks (X block_footer main_footer : List Nat)
    (endDataOverhead m : Nat) (hlen : X.length = 256 * m) (hb : ∀ b ∈ X, b < 256) :
    decode_unflushed block_footer.length main_footer.length 0 endDataOverhead X.length
        (chameleon_encode 0 X block_footer main_footer)
      = some (.STALL_ON_OUTPUT_BUFFER, block_footer ++ main_footer, X) := by
  have hinit : density_chameleon_decode_init blank_state { as_bytes := [0] } endDataOverhead
      = some (.READY, initial_state endDataOverhead) := rfl
  obtain ⟨state', hrun⟩ := decode_blocks_run block_footer.length main_footer.length
    (block_footer ++ main_footer) m X (fun _ => 0) 0
    { ahead := [], stored := [], available_bytes := X.length }
    (initial_state endDataOverhead) hlen hb hlen rfl rfl rfl
  have hfuel : X.length / 256 + 1 = m + 1 := by omega
  unfold decode_unflushed chameleon_encode
  rw [hinit]
  simp only [hfuel, List.append_assoc]
  rw [hrun]
  simp

/-! ## The statuses of `check_state` -/

theorem sub_uint64_pow (k : Nat) (hk : k < 31) : sub_uint64 (2 ^ k) 1 = 2 ^ k - 1 := by
  have h1 : 1 ≤ 2 ^ k := Nat.one_le_two_pow
  have h2 : 2 ^ k < 2 ^ 31 := Nat.pow_lt_pow_right (by decide) hk
  unfold sub_uint64
  norm_num at h2 ⊢
  omega

/-- C11. Output stall: with fewer than 256 bytes of output room `check_state` returns
STALL_ON_OUTPUT_BUFFER and the state as it was, whatever the state is; and `process` entered
at PREPARE_NEW_BLOCK returns that status with the teleport, the output location and the state
(phase, counters, dictionary) unchanged, for every footer size and both values of `flush`. -/
theorem output_stall (out : density_memory_location) (state : density_chameleon_decode_state)
    (hroom : out.available_bytes < 256) :
    density_chameleon_decode_check_state out state = some (.STALL_ON_OUTPUT_BUFFER, state)
    ∧ (state.process = .PREPARE_NEW_BLOCK →
        ∀ (sizeof_block_footer sizeof_main_footer : Nat) (inp : density_memory_teleport)
          (flush : Bool),
          density_chameleon_decode_process sizeof_block_footer sizeof_main_footer
            inp out state flush = some (.STALL_ON_OUTPUT_BUFFER, inp, out, state)) := by
  have hcheck : density_chameleon_decode_check_state out state
      = some (.STALL_ON_OUTPUT_BUFFER, state) := by
    unfold density_chameleon_decode_check_state
    simp [DENSITY_CHAMELEON_DECODE_MINIMUM_OUTPUT_LOOKAHEAD, hroom]
  refine ⟨hcheck, ?_⟩
  intro hphase sizeof_block_footer sizeof_main_footer inp flush
  apply process_of_case_return
  unfold density_chameleon_decode_process_case
  rw [hphase]
  simp only [density_chameleon_decode_process_prepare_new_block, hcheck]
  simp

/-- Witness of C11: 255 bytes of output room and a state whose counter stands at 256. -/
theorem output_stall_witness :
    (fresh_output 255).available_bytes < 256 ∧
    (density_chameleon_decode_check_state (fresh_output 255) new_block_state
        = some (.STALL_ON_OUTPUT_BUFFER, new_block_state)
     ∧ (new_block_state.process = .PREPARE_NEW_BLOCK →
        ∀ (sizeof_block_footer sizeof_main_footer : Nat) (inp : density_memory_teleport)
          (flush : Bool),
          density_chameleon_decode_process sizeof_block_footer sizeof_main_footer
            inp (fresh_output 255) new_block_state flush
            = some (.STALL_ON_OUTPUT_BUFFER, inp, fresh_output 255, new_block_state))) :=
  ⟨by decide, output_stall (fresh_output 255) new_block_state (by decide)⟩

/-- The new-block step of `check_state`: for every state with `signaturesCount = 256` and at
least 256 bytes of output room, with `resetCycle > 0` it returns INFO_NEW_BLOCK with
`signaturesCount` and `efficiencyChecked` set to 0, `resetCycle` one lower and nothing else
changed; with `resetCycle = 0` and the shift byte 0, INFO_NEW_BLOCK with the two counters set
to 0 and nothing else changed; with `resetCycle = 0` and a shift byte `k > 0`, what the C
expression `1 << k` on the `int` constant 1 allows (`int_one_shift_left`): for `k ≤ 30`
INFO_NEW_BLOCK, all dictionary entries zero and `resetCycle = 2 ^ k - 1`, for a larger `k` no
defined result. -/
theorem new_block_step (out : density_memory_location) (state : density_chameleon_decode_state)
    (hcount : state.signaturesCount = 256) (hroom : 256 ≤ out.available_bytes) :
    (0 < state.resetCycle →
      density_chameleon_decode_check_state out state
        = some (.INFO_NEW_BLOCK,
            { state with signaturesCount := 0, efficiencyChecked := 0,
                         resetCycle := state.resetCycle - 1 }))
    ∧ (state.resetCycle = 0 → 0 < state.parameters.as_bytes.headD 0 →
      density_chameleon_decode_check_state out state
        = (int_one_shift_left (state.parameters.as_bytes.headD 0)).map
            (fun v => (.INFO_NEW_BLOCK,
              { state with signaturesCount := 0, efficiencyChecked := 0,
                           dictionary := { entries := fun _ => 0 },
                           resetCycle := sub_uint64 v 1 })))
    ∧ (state.parameters.as_bytes.headD 0 < 31 →
        int_one_shift_left (state.parameters.as_bytes.headD 0)
          = some (2 ^ state.parameters.as_bytes.headD 0)
        ∧ sub_uint64 (2 ^ state.parameters.as_bytes.headD 0) 1
          = 2 ^ state.parameters.as_bytes.headD 0 - 1)
    ∧ (state.resetCycle = 0 → state.parameters.as_bytes.headD 0 = 0 →
      density_chameleon_decode_check_state out state
        = some (.INFO_NEW_BLOCK, { state with signaturesCount := 0, efficiencyChecked := 0 })) := by
  have hroom' : ¬ out.available_bytes < 256 := by omega
  refine ⟨?_, ?_, ?_, ?_⟩
  · intro hcycle
    have hne : state.resetCycle ≠ 0 := by omega
    unfold density_chameleon_decode_check_state
    simp [DENSITY_CHAMELEON_DECODE_MINIMUM_OUTPUT_LOOKAHEAD,
      DENSITY_CHAMELEON_PREFERRED_EFFICIENCY_CHECK_SIGNATURES,
      DENSITY_CHAMELEON_PREFERRED_BLOCK_SIGNATURES, hroom', hcount, hne]
  · intro hcycle hpos
    have hne : state.parameters.as_bytes.headD 0 ≠ 0 := by omega
    unfold density_chameleon_decode_check_state
    by_cases hlt : state.parameters.as_bytes.headD 0 < 31
    · simp [DENSITY_CHAMELEON_DECODE_MINIMUM_OUTPUT_LOOKAHEAD,
        DENSITY_CHAMELEON_PREFERRED_EFFICIENCY_CHECK_SIGNATURES,
        DENSITY_CHAMELEON_PREFERRED_BLOCK_SIGNATURES, hroom', hcount, hcycle, hne,
        int_one_shift_left, hlt, density_chameleon_dictionary_reset,
        -List.headD_eq_head?_getD]
    · simp [DENSITY_CHAMELEON_DECODE_MINIMUM_OUTPUT_LOOKAHEAD,
        DENSITY_CHAMELEON_PREFERRED_EFFICIENCY_CHECK_SIGNATURES,
        DENSITY_CHAMELEON_PREFERRED_BLOCK_SIGNATURES, hroom', hcount, hcycle, hne,
        int_one_shift_left, hlt, -List.headD_eq_head?_getD]
  · intro hlt
    exact ⟨by unfold int_one_shift_left; rw [if_pos hlt], sub_uint64_pow _ hlt⟩
  · intro hcycle hzero
    unfold density_chameleon_decode_check_state
    simp [DENSITY_CHAMELEON_DECODE_MINIMUM_OUTPUT_LOOKAHEAD,
      DENSITY_CHAMELEON_PREFERRED_EFFICIENCY_CHECK_SIGNATURES,
      DENSITY_CHAMELEON_PREFERRED_BLOCK_SIGNATURES, hroom', hcount, hcycle, hzero,
      -List.headD_eq_head?_getD]

/-- An instance of `new_block_step`: the counter at 256, `resetCycle` at 0, the parameter byte 1,
and 256 bytes of output room. -/
theorem new_block_step_instance :
    new_block_state.signaturesCount = 256 ∧ 256 ≤ (fresh_output 256).available_bytes ∧
    density_chameleon_decode_check_state (fresh_output 256) new_block_state
      = (int_one_shift_left (new_block_state.parameters.as_bytes.headD 0)).map
          (fun v => (.INFO_NEW_BLOCK,
            { new_block_state with signaturesCount := 0, efficiencyChecked := 0,
                                   dictionary := { entries := fun _ => 0 },
                                   resetCycle := sub_uint64 v 1 })) :=
  ⟨rfl, by decide,
   (new_block_step (fresh_output 256) new_block_state rfl (by decide)).2.1 rfl (by decide)⟩

/-! ## One step of a run -/

theorem check_state_step (out : density_memory_location)
    (state : density_chameleon_decode_state) (r : DENSITY_KERNEL_DECODE_STATE)
    (state' : density_chameleon_decode_state)
    (h : density_chameleon_decode_check_state out state = some (r, state')) :
    (r = .STALL_ON_OUTPUT_BUFFER ∧ state' = state ∧ out.available_bytes < 256)
    ∨ (r = .READY ∧ state' = state ∧ 256 ≤ out.available_bytes ∧ state.signaturesCount ≠ 256
        ∧ (state.signaturesCount = 64 → state.efficiencyChecked = 1))
    ∨ (r = .INFO_EFFICIENCY_CHECK ∧ state' = { state with efficiencyChecked := 1 }
        ∧ 256 ≤ out.available_bytes ∧ state.signaturesCount = 64 ∧ state.efficiencyChecked ≠ 1)
    ∨ (r = .INFO_NEW_BLOCK ∧ 256 ≤ out.available_bytes ∧ state.signaturesCount = 256 ∧
        ((state.resetCycle ≠ 0 ∧
            state' = { state with signaturesCount := 0, efficiencyChecked := 0,
                                  resetCycle := state.resetCycle - 1 })
         ∨ (state.resetCycle = 0 ∧ state.parameters.as_bytes.headD 0 = 0 ∧
            state' = { state with signaturesCount := 0, efficiencyChecked := 0 })
         ∨ (state.resetCycle = 0 ∧ 0 < state.parameters.as_bytes.headD 0 ∧
            state.parameters.as_bytes.headD 0 < 31 ∧
            state' = { state with signaturesCount := 0, efficiencyChecked := 0,
                                  dictionary := { entries := fun _ => 0 },
                                  resetCycle := 2 ^ state.parameters.as_bytes.headD 0 - 1 }))) := by
  unfold density_chameleon_decode_check_state at h
  simp only [DENSITY_CHAMELEON_DECODE_MINIMUM_OUTPUT_LOOKAHEAD,
    DENSITY_CHAMELEON_PREFERRED_EFFICIENCY_CHECK_SIGNATURES,
    DENSITY_CHAMELEON_PREFERRED_BLOCK_SIGNATURES] at h
  split at h
  · simp only [Option.some.injEq, Prod.mk.injEq] at h
    obtain ⟨rfl, rfl⟩ := h
    exact Or.inl ⟨rfl, rfl, by assumption⟩
  · rename_i hroom
    have hroom' : 256 ≤ out.available_bytes := by omega
    split at h
    · rename_i hcount
      split at h
      · rename_i hflag
        simp only [Option.some.injEq, Prod.mk.injEq] at h
        obtain ⟨rfl, rfl⟩ := h
        exact Or.inr (Or.inr (Or.inl ⟨rfl, rfl, hroom', hcount, Nat.xor_ne_zero.mp hflag⟩))
      · rename_i hflag
        simp only [Option.some.injEq, Prod.mk.injEq] at h
        obtain ⟨rfl, rfl⟩ := h
        refine Or.inr (Or.inl ⟨rfl, rfl, hroom', by omega, fun _ => ?_⟩)
        by_contra hne
        exact hflag (Nat.xor_ne_zero.mpr hne)
    · rename_i hcount
      split at h
      · rename_i hcount256
        split at h
        · rename_i hcycle
          simp only [Option.some.injEq, Prod.mk.injEq] at h
          obtain ⟨rfl, rfl⟩ := h
          exact Or.inr (Or.inr (Or.inr ⟨rfl, hroom', hcount256, Or.inl ⟨hcycle, rfl⟩⟩))
        · rename_i hcycle
          have hcycle' : state.resetCycle = 0 := by
            by_contra hne
            exact hcycle hne
          split at h
          · rename_i hshift
            have hshift' : state.parameters.as_bytes.headD 0 ≠ 0 := hshift
            unfold int_one_shift_left at h
            split at h
            · simp at h
            · rename_i v hv
              split at hv
              · rename_i hlt
                have hlt' : state.parameters.as_bytes.headD 0 < 31 := hlt
                simp only [Option.some.injEq] at hv
                subst hv
                simp only [Option.some.injEq, Prod.mk.injEq] at h
                obtain ⟨rfl, rfl⟩ := h
                refine Or.inr (Or.inr (Or.inr ⟨rfl, hroom', hcount256,
                  Or.inr (Or.inr ⟨hcycle', by omega, hlt', ?_⟩)⟩))
                have hsub := sub_uint64_pow _ hlt'
                simp only [density_chameleon_dictionary_reset]
                rw [← hsub]
              · simp at hv
          · rename_i hshift
            have hshift' : state.parameters.as_bytes.headD 0 = 0 := by
              by_contra hne
              exact hshift hne
            simp only [Option.some.injEq, Prod.mk.injEq] at h
            obtain ⟨rfl, rfl⟩ := h
            exact Or.inr (Or.inr (Or.inr ⟨rfl, hroom', hcount256,
              Or.inr (Or.inl ⟨hcycle', hshift', rfl⟩)⟩))
      · simp only [Option.some.injEq, Prod.mk.injEq] at h
        obtain ⟨rfl, rfl⟩ := h
        exact Or.inr (Or.inl ⟨rfl, rfl, hroom', by assumption, fun h64 => absurd h64 hcount⟩)

theorem process_data_loop_state :
    ∀ (n : Nat) (inp out : density_memory_location) (state : density_chameleon_decode_state)
      (inp' out' : density_memory_location) (state' : density_chameleon_decode_state),
      density_chameleon_decode_process_data_loop n inp out state = some (inp', out', state') →
      ∃ (sh : Nat) (d : density_chameleon_dictionary),
        state' = { state with shift := sh, dictionary := d } := by
  intro n
  induction n with
  | zero =>
    intro inp out state inp' out' state' h
    simp only [density_chameleon_decode_process_data_loop] at h
    split at h
    · simp at h
    · simp only [Option.some.injEq, Prod.mk.injEq] at h
      exact ⟨state.shift, state.dictionary, h.2.2.symm⟩
  | succ n ih =>
    intro inp out state inp' out' state' h
    rw [density_chameleon_decode_process_data_loop] at h
    split at h
    · split at h
      · simp at h
      · rename_i compressed _
        split at h
        · simp at h
        · rename_i inp1 out1 state1 hk
          obtain ⟨sh, d, hst⟩ := ih _ _ _ _ _ _ h
          obtain ⟨-, d1, -, hd1⟩ := kernel_frame _ _ _ _ _ _ _ hk
          subst hd1
          exact ⟨sh, d, hst⟩
    · simp only [Option.some.injEq, Prod.mk.injEq] at h
      exact ⟨state.shift, state.dictionary, h.2.2.symm⟩

theorem process_case_step (sizeof_block_footer sizeof_main_footer : Nat)
    (inp : density_memory_teleport) (out : density_memory_location)
    (state : density_chameleon_decode_state) (flush : Bool)
    (r : Option DENSITY_KERNEL_DECODE_STATE) (inp' : density_memory_teleport)
    (out' : density_memory_location) (state' : density_chameleon_decode_state)
    (h : density_chameleon_decode_process_case sizeof_block_footer sizeof_main_footer
      inp out state flush = some (r, inp', out', state')) :
    (state.process = .PREPARE_NEW_BLOCK ∧
      ∃ (rs : DENSITY_KERNEL_DECODE_STATE) (state1 : density_chameleon_decode_state),
        density_chameleon_decode_check_state out state = some (rs, state1) ∧
        ((rs ≠ .READY ∧ r = some rs ∧ state' = state1)
         ∨ (rs = .READY ∧ r = none ∧ state' = { state1 with process := .SIGNATURE })))
    ∨ (state.process = .SIGNATURE ∧
        ((r ≠ none ∧ state' = state)
         ∨ (r = none ∧ ∃ sig : Nat,
              state' = { state with signature := sig, shift := 0,
                                    signaturesCount := state.signaturesCount + 1,
                                    bodyLength := 256 - 2 * popcountll sig,
                                    process := .DECOMPRESS_BODY })))
    ∨ (state.process = .DECOMPRESS_BODY ∧
        ((r = some .STALL_ON_INPUT_BUFFER ∧ state' = state)
         ∨ (r = none ∧ ∃ (sh : Nat) (d : density_chameleon_dictionary),
              state' = { state with shift := sh, dictionary := d,
                                    process := .PREPARE_NEW_BLOCK }))) := by
  unfold density_chameleon_decode_process_case at h
  split at h
  · rename_i hphase
    refine Or.inl ⟨hphase, ?_⟩
    unfold density_chameleon_decode_process_prepare_new_block at h
    split at h
    · simp at h
    · rename_i rs state1 hcheck
      refine ⟨rs, state1, hcheck, ?_⟩
      split at h
      · rename_i hne
        simp only [Option.some.injEq, Prod.mk.injEq] at h
        exact Or.inl ⟨hne, h.1.symm, h.2.2.2.symm⟩
      · rename_i hne
        simp only [Option.some.injEq, Prod.mk.injEq] at h
        refine Or.inr ⟨?_, h.1.symm, h.2.2.2.symm⟩
        by_contra hc
        exact hne hc
  · rename_i hphase
    refine Or.inr (Or.inl ⟨hphase, ?_⟩)
    unfold density_chameleon_decode_process_signature at h
    simp only at h
    split at h
    · split at h
      · simp only [Option.some.injEq, Prod.mk.injEq] at h
        exact Or.inl ⟨by rw [← h.1]; simp, h.2.2.2.symm⟩
      · simp only [Option.some.injEq, Prod.mk.injEq] at h
        exact Or.inl ⟨by rw [← h.1]; simp, h.2.2.2.symm⟩
    · split at h
      · simp only [Option.some.injEq, Prod.mk.injEq] at h
        exact Or.inl ⟨by rw [← h.1]; simp, h.2.2.2.symm⟩
      · rename_i loc hread
        split at h
        · simp at h
        · rename_i loc1 state1 hsig
          unfold density_chameleon_decode_read_signature at hsig
          split at hsig
          · simp only [Option.some.injEq, Prod.mk.injEq] at hsig
            simp only [Option.some.injEq, Prod.mk.injEq] at h
            refine Or.inr ⟨h.1.symm, DENSITY_LITTLE_ENDIAN_64 (loc.ahead.take 8), ?_⟩
            rw [← h.2.2.2, ← hsig.2]
            simp only [density_chameleon_decode_state.mk.injEq, true_and, and_true]
            omega
          · simp at hsig
  · rename_i hphase
    refine Or.inr (Or.inr ⟨hphase, ?_⟩)
    unfold density_chameleon_decode_process_decompress_body at h
    split at h
    · simp only [Option.some.injEq, Prod.mk.injEq] at h
      exact Or.inl ⟨h.1.symm, h.2.2.2.symm⟩
    · split at h
      · simp at h
      · split at h
        · simp at h
        · rename_i loc1 out1 state1 hdata
          simp only [Option.some.injEq, Prod.mk.injEq] at h
          obtain ⟨sh, d, hst⟩ := process_data_loop_state _ _ _ _ _ _ _ hdata
          refine Or.inr ⟨h.1.symm, sh, d, ?_⟩
          rw [← h.2.2.2, hst]

theorem init_step (state0 : density_chameleon_decode_state)
    (parameters : density_main_header_parameters) (endDataOverhead : Nat)
    (r : DENSITY_KERNEL_DECODE_STATE) (state : density_chameleon_decode_state)
    (h : density_chameleon_decode_init state0 parameters endDataOverhead = some (r, state)) :
    r = .READY ∧
    ((parameters.as_bytes.headD 0 = 0 ∧
        state = { state0 with signaturesCount := 0, efficiencyChecked := 0,
                              dictionary := { entries := fun _ => 0 },
                              parameters := parameters,
                              endDataOverhead := endDataOverhead,
                              process := .PREPARE_NEW_BLOCK })
     ∨ (0 < parameters.as_bytes.headD 0 ∧ parameters.as_bytes.headD 0 < 31 ∧
        state = { state0 with signaturesCount := 0, efficiencyChecked := 0,
                              dictionary := { entries := fun _ => 0 },
                              parameters := parameters,
                              resetCycle := 2 ^ parameters.as_bytes.headD 0 - 1,
                              endDataOverhead := endDataOverhead,
                              process := .PREPARE_NEW_BLOCK })) := by
  unfold density_chameleon_decode_init at h
  simp only at h
  split at h
  · rename_i hshift
    unfold int_one_shift_left at h
    split at h
    · simp at h
    · rename_i v hv
      split at hv
      · rename_i hlt
        simp only [Option.some.injEq] at hv
        subst hv
        simp only [Option.some.injEq, Prod.mk.injEq] at h
        obtain ⟨rfl, rfl⟩ := h
        refine ⟨rfl, Or.inr ⟨by omega, hlt, ?_⟩⟩
        rw [sub_uint64_pow _ hlt]
        rfl
      · simp at hv
  · rename_i hshift
    have hshift' : parameters.as_bytes.headD 0 = 0 := by
      by_contra hne
      exact hshift hne
    simp only [Option.some.injEq, Prod.mk.injEq] at h
    obtain ⟨rfl, rfl⟩ := h
    exact ⟨rfl, Or.inl ⟨hshift', rfl⟩⟩

theorem run_counter_invariant (parameters : density_main_header_parameters) (n : Nat)
    (state : density_chameleon_decode_state) (hrun : run_state parameters n state) :
    counter_invariant state ∧ state.parameters = parameters := by
  induction hrun with
  | init state0 endDataOverhead r state hinit =>
    obtain ⟨-, ⟨-, rfl⟩ | ⟨-, -, rfl⟩⟩ := init_step _ _ _ _ _ hinit <;>
      exact ⟨⟨by simp, by simp, by simp, by simp, by simp⟩, rfl⟩
  | case n state bf mf inp out flush r inp' out' state' _ hcase ih =>
    obtain ⟨⟨h1, h2, h3, h4, h5⟩, hpar⟩ := ih
    rcases process_case_step _ _ _ _ _ _ _ _ _ _ hcase with
      ⟨hphase, rs, state1, hcheck, hres⟩ | ⟨hphase, hres⟩ | ⟨hphase, hres⟩
    · have hinv1 : counter_invariant state1 ∧ state1.parameters = parameters
          ∧ state1.process = .PREPARE_NEW_BLOCK ∧ (rs = .READY → state1.signaturesCount < 256) := by
        rcases check_state_step _ _ _ _ hcheck with
          ⟨hstall, rfl, -⟩ | ⟨-, rfl, -, hne, -⟩ | ⟨-, rfl, -, h64, -⟩ | ⟨hr, -, h256, hcyc⟩
        · refine ⟨⟨h1, h2, h3, h4, h5⟩, hpar, hphase, ?_⟩
          intro hr
          rw [hstall] at hr
          exact absurd hr (by decide)
        · exact ⟨⟨h1, h2, h3, h4, h5⟩, hpar, hphase, fun _ => by omega⟩
        · refine ⟨⟨h1, ?_, ?_, by simp, ?_⟩, hpar, hphase, fun _ => ?_⟩
          · intro hp; exact h2 hp
          · intro hp; exact h3 hp
          · intro _; show 64 ≤ state.signaturesCount; omega
          · show state.signaturesCount < 256; omega
        · rcases hcyc with ⟨-, rfl⟩ | ⟨-, -, rfl⟩ | ⟨-, -, -, rfl⟩ <;>
            exact ⟨⟨by simp, by simp, by simp [hphase], by simp, by simp⟩, hpar, hphase,
              fun _ => by simp⟩
      obtain ⟨⟨g1, g2, g3, g4, g5⟩, gpar, gphase, gready⟩ := hinv1
      rcases hres with ⟨-, -, rfl⟩ | ⟨hr, -, rfl⟩
      · exact ⟨⟨g1, g2, g3, g4, g5⟩, gpar⟩
      · exact ⟨⟨g1, fun _ => gready hr, by simp, g4, g5⟩, gpar⟩
    · rcases hres with ⟨-, rfl⟩ | ⟨-, sig, rfl⟩
      · exact ⟨⟨h1, h2, h3, h4, h5⟩, hpar⟩
      · have hlt := h2 hphase
        refine ⟨⟨?_, by simp, by simp, h4, ?_⟩, hpar⟩
        · show state.signaturesCount + 1 ≤ 256; omega
        · intro hf
          have := h5 hf
          show 64 ≤ state.signaturesCount + 1; omega
    · rcases hres with ⟨-, rfl⟩ | ⟨-, sh, d, rfl⟩
      · exact ⟨⟨h1, h2, h3, h4, h5⟩, hpar⟩
      · exact ⟨⟨h1, by simp, by simp, h4, h5⟩, hpar⟩

theorem succ_mod_cases (E P : Nat) (hP : 0 < P) :
    (E % P + 1 < P ∧ (E + 1) % P = E % P + 1) ∨ (E % P + 1 = P ∧ (E + 1) % P = 0) := by
  have hlt := Nat.mod_lt E hP
  have key : (E + 1) % P = (E % P + 1) % P := (Nat.mod_add_mod E P 1).symm
  by_cases h : E % P + 1 < P
  · exact Or.inl ⟨h, by rw [key]; exact Nat.mod_eq_of_lt h⟩
  · have h' : E % P + 1 = P := by omega
    exact Or.inr ⟨h', by rw [key, h']; exact Nat.mod_self P⟩

theorem signatures_read_eq (state : density_chameleon_decode_state)
    (r : Option DENSITY_KERNEL_DECODE_STATE) :
    (state.process = .SIGNATURE ∧ r = none ∧ signatures_read state r = 1)
    ∨ (¬ (state.process = .SIGNATURE ∧ r = none) ∧ signatures_read state r = 0) := by
  unfold signatures_read
  by_cases h : state.process = .SIGNATURE ∧ r = none
  · exact Or.inl ⟨h.1, h.2, by rw [if_pos h]⟩
  · exact Or.inr ⟨h, by rw [if_neg h]⟩

theorem run_cadence_invariant (parameters : density_main_header_parameters)
    (hk1 : 1 ≤ parameters.as_bytes.headD 0) (n : Nat)
    (state : density_chameleon_decode_state) (hrun : run_state parameters n state) :
    cadence_invariant parameters n state := by
  have hP : 2 ≤ 2 ^ parameters.as_bytes.headD 0 := by
    calc 2 = 2 ^ 1 := by norm_num
      _ ≤ 2 ^ parameters.as_bytes.headD 0 := Nat.pow_le_pow_right (by decide) hk1
  induction hrun with
  | init state0 endDataOverhead r state hinit =>
    obtain ⟨-, ⟨hz, -⟩ | ⟨-, -, rfl⟩⟩ := init_step _ _ _ _ _ hinit
    · omega
    · refine ⟨rfl, ⟨0, by simp, ?_⟩, fun _ _ _ => rfl⟩
      simp only [Nat.zero_mod]
      omega
  | case n state bf mf inp out flush r inp' out' state' hrun' hcase ih =>
    obtain ⟨⟨c1, c2, c3, c4, c5⟩, -⟩ := run_counter_invariant _ _ _ hrun'
    obtain ⟨hpar, ⟨E, hn, hcyc⟩, hdict⟩ := ih
    rcases process_case_step _ _ _ _ _ _ _ _ _ _ hcase with
      ⟨hphase, rs, state1, hcheck, hres⟩ | ⟨hphase, hres⟩ | ⟨hphase, hres⟩
    · have hread : signatures_read state r = 0 := by
        rcases signatures_read_eq state r with ⟨hs, -, -⟩ | ⟨-, h0⟩
        · rw [hphase] at hs; exact absurd hs (by decide)
        · exact h0
      rw [hread, Nat.add_zero]
      have hinv1 : cadence_invariant parameters n state1
          ∧ state1.process = .PREPARE_NEW_BLOCK := by
        rcases check_state_step _ _ _ _ hcheck with
          ⟨-, rfl, -⟩ | ⟨-, rfl, -⟩ | ⟨-, rfl, -⟩ | ⟨-, -, h256, hcases⟩
        · exact ⟨⟨hpar, ⟨E, hn, hcyc⟩, hdict⟩, hphase⟩
        · exact ⟨⟨hpar, ⟨E, hn, hcyc⟩, hdict⟩, hphase⟩
        · exact ⟨⟨hpar, ⟨E, hn, hcyc⟩, hdict⟩, hphase⟩
        · have hmul : n % (256 * 2 ^ parameters.as_bytes.headD 0)
              = 256 * ((E + 1) % 2 ^ parameters.as_bytes.headD 0) := by
            have : n = 256 * (E + 1) := by omega
            rw [this]
            exact Nat.mul_mod_mul_left 256 (E + 1) _
          rcases hcases with ⟨hne, rfl⟩ | ⟨-, hzero, -⟩ | ⟨hz, -, -, rfl⟩
          · refine ⟨⟨hpar, ⟨E + 1, ?_, ?_⟩, ?_⟩, hphase⟩
            · show n = 256 * (E + 1) + 0
              omega
            · show state.resetCycle - 1 + (E + 1) % 2 ^ parameters.as_bytes.headD 0 + 1
                = 2 ^ parameters.as_bytes.headD 0
              rcases succ_mod_cases E (2 ^ parameters.as_bytes.headD 0) (by omega) with
                ⟨-, h2⟩ | ⟨h1, -⟩
              · omega
              · omega
            · intro _ _ hmod
              exfalso
              rcases succ_mod_cases E (2 ^ parameters.as_bytes.headD 0) (by omega) with
                ⟨-, h2⟩ | ⟨h1, -⟩
              · omega
              · omega
          · rw [hpar] at hzero
            omega
          · refine ⟨⟨hpar, ⟨E + 1, ?_, ?_⟩, fun _ _ _ => rfl⟩, hphase⟩
            · show n = 256 * (E + 1) + 0
              omega
            · show 2 ^ state.parameters.as_bytes.headD 0 - 1
                  + (E + 1) % 2 ^ parameters.as_bytes.headD 0 + 1
                = 2 ^ parameters.as_bytes.headD 0
              rw [hpar]
              rcases succ_mod_cases E (2 ^ parameters.as_bytes.headD 0) (by omega) with
                ⟨h1, -⟩ | ⟨-, h2⟩
              · omega
              · omega
      obtain ⟨⟨g1, g2, g3⟩, gphase⟩ := hinv1
      rcases hres with ⟨-, -, rfl⟩ | ⟨-, -, rfl⟩
      · exact ⟨g1, g2, g3⟩
      · refine ⟨g1, g2, ?_⟩
        intro _ hc hmod
        exact g3 (by rw [gphase]; decide) hc hmod
    · rcases hres with ⟨hr, rfl⟩ | ⟨hr, sig, rfl⟩
      · have hread : signatures_read state' r = 0 := by
          rcases signatures_read_eq state' r with ⟨-, hs, -⟩ | ⟨-, h0⟩
          · exact absurd hs hr
          · exact h0
        rw [hread, Nat.add_zero]
        exact ⟨hpar, ⟨E, hn, hcyc⟩, hdict⟩
      · have hread : signatures_read state r = 1 := by
          rcases signatures_read_eq state r with ⟨-, -, h1⟩ | ⟨hs, -⟩
          · exact h1
          · exact absurd ⟨hphase, hr⟩ hs
        rw [hread]
        refine ⟨hpar, ⟨E, ?_, hcyc⟩, ?_⟩
        · show n + 1 = 256 * E + (state.signaturesCount + 1)
          omega
        · intro hne
          exact absurd rfl hne
    · have hread : signatures_read state r = 0 := by
        rcases signatures_read_eq state r with ⟨hs, -, -⟩ | ⟨-, h0⟩
        · rw [hphase] at hs; exact absurd hs (by decide)
        · exact h0
      rw [hread, Nat.add_zero]
      rcases hres with ⟨-, rfl⟩ | ⟨-, sh, d, rfl⟩
      · exact ⟨hpar, ⟨E, hn, hcyc⟩, hdict⟩
      · refine ⟨hpar, ⟨E, hn, hcyc⟩, ?_⟩
        intro _ hc hmod
        exfalso
        have hc' : state.signaturesCount ≠ 256 := hc
        have h1 := c3 hphase
        have hdvd : (256 : Nat) ∣ 256 * 2 ^ parameters.as_bytes.headD 0 :=
          Dvd.intro _ rfl
        have h256 := Nat.mod_mod_of_dvd n hdvd
        rw [hmod] at h256
        omega

theorem run_shift_lt (parameters : density_main_header_parameters) (n : Nat)
    (state : density_chameleon_decode_state) (hrun : run_state parameters n state) :
    parameters.as_bytes.headD 0 < 31 := by
  induction hrun with
  | init state0 endDataOverhead r state hinit =>
    obtain ⟨-, ⟨hz, -⟩ | ⟨-, hlt, -⟩⟩ := init_step _ _ _ _ _ hinit
    · omega
    · exact hlt
  | case n state bf mf inp out flush r inp' out' state' _ _ ih => exact ih

theorem check_state_reset (out : density_memory_location)
    (state : density_chameleon_decode_state)
    (hcount : state.signaturesCount = 256) (hroom : 256 ≤ out.available_bytes)
    (hcycle : state.resetCycle = 0) (hpos : 0 < state.parameters.as_bytes.headD 0)
    (hlt : state.parameters.as_bytes.headD 0 < 31) :
    density_chameleon_decode_check_state out state
      = some (.INFO_NEW_BLOCK,
          { state with signaturesCount := 0, efficiencyChecked := 0,
                       dictionary := { entries := fun _ => 0 },
                       resetCycle := 2 ^ state.parameters.as_bytes.headD 0 - 1 }) := by
  have hroom' : ¬ out.available_bytes < 256 := by omega
  have hne : state.parameters.as_bytes.headD 0 ≠ 0 := by omega
  unfold density_chameleon_decode_check_state
  simp [DENSITY_CHAMELEON_DECODE_MINIMUM_OUTPUT_LOOKAHEAD,
    DENSITY_CHAMELEON_PREFERRED_EFFICIENCY_CHECK_SIGNATURES,
    DENSITY_CHAMELEON_PREFERRED_BLOCK_SIGNATURES, hroom', hcount, hcycle, hne,
    int_one_shift_left, hlt, sub_uint64_pow _ hlt, density_chameleon_dictionary_reset,
    -List.headD_eq_head?_getD]

theorem run_state_process_fuel (parameters : density_main_header_parameters)
    (sizeof_block_footer sizeof_main_footer : Nat) (flush : Bool) :
    ∀ (f : Nat) (n : Nat) (inp : density_memory_teleport) (out : density_memory_location)
      (state : density_chameleon_decode_state) (s : DENSITY_KERNEL_DECODE_STATE)
      (inp' : density_memory_teleport) (out' : density_memory_location)
      (state' : density_chameleon_decode_state),
      run_state parameters n state →
      density_chameleon_decode_process_fuel sizeof_block_footer sizeof_main_footer flush
        f inp out state = some (s, inp', out', state') →
      ∃ n' : Nat, n ≤ n' ∧ run_state parameters n' state' := by
  intro f
  induction f with
  | zero =>
    intro n inp out state s inp' out' state' _ h
    simp [density_chameleon_decode_process_fuel] at h
  | succ f ih =>
    intro n inp out state s inp' out' state' hrun h
    rw [density_chameleon_decode_process_fuel] at h
    split at h
    · simp at h
    · rename_i rs inp1 out1 state1 hcase
      simp only [Option.some.injEq, Prod.mk.injEq] at h
      obtain ⟨-, -, -, rfl⟩ := h
      exact ⟨_, Nat.le_add_right _ _, run_state.case _ _ _ _ _ _ _ _ _ _ _ hrun hcase⟩
    · rename_i inp1 out1 state1 hcase
      obtain ⟨n', hle, hrun'⟩ := ih _ _ _ _ _ _ _ _
        (run_state.case _ _ _ _ _ _ _ _ _ _ _ hrun hcase) h
      exact ⟨n', by omega, hrun'⟩

theorem run_state_process (parameters : density_main_header_parameters)
    (sizeof_block_footer sizeof_main_footer : Nat) (flush : Bool)
    (n : Nat) (inp : density_memory_teleport) (out : density_memory_location)
    (state : density_chameleon_decode_state) (s : DENSITY_KERNEL_DECODE_STATE)
    (inp' : density_memory_teleport) (out' : density_memory_location)
    (state' : density_chameleon_decode_state)
    (hrun : run_state parameters n state)
    (h : density_chameleon_decode_process sizeof_block_footer sizeof_main_footer
      inp out state flush = some (s, inp', out', state')) :
    ∃ n' : Nat, n ≤ n' ∧ run_state parameters n' state' :=
  run_state_process_fuel parameters sizeof_block_footer sizeof_main_footer flush _ n inp out
    state s inp' out' state' hrun h

set_option maxRecDepth 1000000 in
/-- Counterexample to C13 as stated: with the shift byte 1 the claim has the dictionary reset
immediately before block 2. From the state that `init` makes for the parameter byte 1, one
call of `process` on a block that stores the word 1, followed by two blocks of 64 references
to its slot, writes 192 words 1: block 2 still finds the word that block 0 stored, so no
reset took place before it. -/
theorem reset_cadence_per_block_fails :
    density_chameleon_decode_init blank_state { as_bytes := [1] } 0
      = some (.READY, initial_state_shift1)
    ∧ (density_chameleon_decode_process 4 4
        { bytes := one_literal_block ++ all_references_block ++ all_references_block }
        (fresh_output 768) initial_state_shift1 false).map
        (fun r => (r.1, r.2.1.bytes, r.2.2.1.stored))
      = some (.STALL_ON_OUTPUT_BUFFER, [],
          sixty_four_ones ++ sixty_four_ones ++ sixty_four_ones) := by
  refine ⟨rfl, ?_⟩
  decide

/-- C13, amended. Reset cadence: in a run that started with `init` on a parameter byte `k`,
let `n` be the number of signatures read so far, so that the next block (one signature plus
its body) is the one numbered `n`, from 0. With `k = 0`, `check_state` never changes the
dictionary. With `k ≥ 1` (and `k ≤ 30`: for a larger `k` the shift in `init` is undefined and
there is no run): (a) when `signaturesCount` stands at 256 and `n` is a multiple of
`256 * 2 ^ k`, `check_state` (given 256 bytes of output room) returns INFO_NEW_BLOCK and
zeroes the dictionary; (b) in every other situation `check_state` leaves the dictionary as it
is; (c) whenever the signature of a block numbered by a multiple of `256 * 2 ^ k` is about to
be read, the dictionary is zero; (d) a state with `signaturesCount = 256` is not at the
SIGNATURE case, and there `n` is a positive multiple of 256. So the dictionary is reset
immediately before the blocks numbered `m * 256 * 2 ^ k`, `m ≥ 1`, and before no other. -/
theorem reset_cadence (parameters : density_main_header_parameters) (n : Nat)
    (state : density_chameleon_decode_state) (hrun : run_state parameters n state) :
    (parameters.as_bytes.headD 0 = 0 →
      ∀ (out : density_memory_location) (r : DENSITY_KERNEL_DECODE_STATE)
        (state' : density_chameleon_decode_state),
        density_chameleon_decode_check_state out state = some (r, state') →
        state'.dictionary = state.dictionary)
    ∧ (1 ≤ parameters.as_bytes.headD 0 →
        (∀ out : density_memory_location, 256 ≤ out.available_bytes →
          state.signaturesCount = 256 →
          n % (256 * 2 ^ parameters.as_bytes.headD 0) = 0 →
          ∃ state' : density_chameleon_decode_state,
            density_chameleon_decode_check_state out state = some (.INFO_NEW_BLOCK, state')
            ∧ state'.dictionary.entries = (fun _ => 0) ∧ state'.signaturesCount = 0)
        ∧ (∀ (out : density_memory_location) (r : DENSITY_KERNEL_DECODE_STATE)
            (state' : density_chameleon_decode_state),
            density_chameleon_decode_check_state out state = some (r, state') →
            ¬ (256 ≤ out.available_bytes ∧ state.signaturesCount = 256 ∧
                n % (256 * 2 ^ parameters.as_bytes.headD 0) = 0) →
            state'.dictionary = state.dictionary)
        ∧ (state.process = .SIGNATURE →
            n % (256 * 2 ^ parameters.as_bytes.headD 0) = 0 →
            state.dictionary.entries = fun _ => 0)
        ∧ (state.signaturesCount = 256 →
            0 < n ∧ n % 256 = 0 ∧ state.process ≠ .SIGNATURE)) := by
  obtain ⟨⟨c1, c2, c3, c4, c5⟩, hpar⟩ := run_counter_invariant _ _ _ hrun
  have hlt := run_shift_lt _ _ _ hrun
  refine ⟨?_, ?_⟩
  · intro hzero out r state' hcheck
    rcases check_state_step _ _ _ _ hcheck with
      ⟨-, rfl, -⟩ | ⟨-, rfl, -⟩ | ⟨-, rfl, -⟩ | ⟨-, -, -, hcases⟩
    · rfl
    · rfl
    · rfl
    · rcases hcases with ⟨-, rfl⟩ | ⟨-, -, rfl⟩ | ⟨-, hpos, -, -⟩
      · rfl
      · rfl
      · rw [hpar] at hpos
        omega
  · intro hk1
    obtain ⟨-, ⟨E, hn, hcyc⟩, hdict⟩ := run_cadence_invariant parameters hk1 n state hrun
    have hP : 0 < 2 ^ parameters.as_bytes.headD 0 := Nat.two_pow_pos _
    refine ⟨?_, ?_, ?_, ?_⟩
    · intro out hroom h256 hmod
      have hmul : n % (256 * 2 ^ parameters.as_bytes.headD 0)
          = 256 * ((E + 1) % 2 ^ parameters.as_bytes.headD 0) := by
        have : n = 256 * (E + 1) := by omega
        rw [this]
        exact Nat.mul_mod_mul_left 256 (E + 1) _
      have hcycle : state.resetCycle = 0 := by
        rcases succ_mod_cases E (2 ^ parameters.as_bytes.headD 0) hP with ⟨-, h2⟩ | ⟨h1, -⟩
        · omega
        · omega
      have hreset := check_state_reset out state h256 hroom hcycle
        (by rw [hpar]; omega) (by rw [hpar]; exact hlt)
      exact ⟨_, hreset, rfl, rfl⟩
    · intro out r state' hcheck hnot
      rcases check_state_step _ _ _ _ hcheck with
        ⟨-, rfl, -⟩ | ⟨-, rfl, -⟩ | ⟨-, rfl, -⟩ | ⟨-, hroom, h256, hcases⟩
      · rfl
      · rfl
      · rfl
      · rcases hcases with ⟨-, rfl⟩ | ⟨-, -, rfl⟩ | ⟨hz, -, -, -⟩
        · rfl
        · rfl
        · exfalso
          apply hnot
          refine ⟨hroom, h256, ?_⟩
          have hmul : n % (256 * 2 ^ parameters.as_bytes.headD 0)
              = 256 * ((E + 1) % 2 ^ parameters.as_bytes.headD 0) := by
            have : n = 256 * (E + 1) := by omega
            rw [this]
            exact Nat.mul_mod_mul_left 256 (E + 1) _
          rcases succ_mod_cases E (2 ^ parameters.as_bytes.headD 0) hP with ⟨h1, -⟩ | ⟨-, h2⟩
          · omega
          · omega
    · intro hphase hmod
      have hc := c2 hphase
      exact hdict (by rw [hphase]; decide) (by omega) hmod
    · intro h256
      refine ⟨by omega, by omega, ?_⟩
      intro hphase
      have := c2 hphase
      omega

/-- Witness of C13, amended: the state that `init` returns for the parameter byte 1, with no
signature read yet; there `check_state` leaves the dictionary as it is. -/
theorem reset_cadence_witness :
    run_state { as_bytes := [1] } 0 initial_state_shift1 ∧
    ∀ (out : density_memory_location) (r : DENSITY_KERNEL_DECODE_STATE)
      (state' : density_chameleon_decode_state),
      density_chameleon_decode_check_state out initial_state_shift1 = some (r, state') →
      ¬ (256 ≤ out.available_bytes ∧ initial_state_shift1.signaturesCount = 256 ∧
          0 % (256 * 2 ^ ({ as_bytes := [1] } : density_main_header_parameters).as_bytes.headD 0)
            = 0) →
      state'.dictionary = initial_state_shift1.dictionary :=
  ⟨run_state.init blank_state 0 .READY initial_state_shift1 rfl,
   ((reset_cadence { as_bytes := [1] } 0 initial_state_shift1
      (run_state.init blank_state 0 .READY initial_state_shift1 rfl)).2 (by decide)).2.1⟩

/-! ## The INFO statuses -/

theorem process_case_info (sizeof_block_footer sizeof_main_footer : Nat)
    (inp : density_memory_teleport) (out : density_memory_location)
    (state : density_chameleon_decode_state) (flush : Bool)
    (s : DENSITY_KERNEL_DECODE_STATE) (inp' : density_memory_teleport)
    (out' : density_memory_location) (state' : density_chameleon_decode_state)
    (h : density_chameleon_decode_process_case sizeof_block_footer sizeof_main_footer
      inp out state flush = some (some s, inp', out', state'))
    (hs : s = .INFO_NEW_BLOCK ∨ s = .INFO_EFFICIENCY_CHECK) :
    state.process = .PREPARE_NEW_BLOCK ∧ inp' = inp ∧ out' = out ∧
    density_chameleon_decode_check_state out state = some (s, state') := by
  unfold density_chameleon_decode_process_case at h
  split at h
  · rename_i hphase
    unfold density_chameleon_decode_process_prepare_new_block at h
    split at h
    · simp at h
    · rename_i rs state1 hcheck
      split at h
      · simp only [Option.some.injEq, Prod.mk.injEq] at h
        obtain ⟨rfl, rfl, rfl, rfl⟩ := h
        exact ⟨hphase, rfl, rfl, hcheck⟩
      · simp at h
  · exfalso
    unfold density_chameleon_decode_process_signature at h
    simp only at h
    split at h
    · split at h
      · simp only [Option.some.injEq, Prod.mk.injEq] at h
        rcases hs with hs | hs <;> (rw [hs] at h; exact absurd h.1 (by decide))
      · simp only [Option.some.injEq, Prod.mk.injEq] at h
        rcases hs with hs | hs <;> (rw [hs] at h; exact absurd h.1 (by decide))
    · split at h
      · simp only [Option.some.injEq, Prod.mk.injEq] at h
        rcases hs with hs | hs <;> (rw [hs] at h; exact absurd h.1 (by decide))
      · split at h
        · simp at h
        · simp at h
  · exfalso
    unfold density_chameleon_decode_process_decompress_body at h
    split at h
    · simp only [Option.some.injEq, Prod.mk.injEq] at h
      rcases hs with hs | hs <;> (rw [hs] at h; exact absurd h.1 (by decide))
    · split at h
      · simp at h
      · split at h
        · simp at h
        · simp at h

theorem process_fuel_info (sizeof_block_footer sizeof_main_footer : Nat) (flush : Bool) :
    ∀ (f : Nat) (inp : density_memory_teleport) (out : density_memory_location)
      (state : density_chameleon_decode_state) (s : DENSITY_KERNEL_DECODE_STATE)
      (inp' : density_memory_teleport) (out' : density_memory_location)
      (state' : density_chameleon_decode_state),
      density_chameleon_decode_process_fuel sizeof_block_footer sizeof_main_footer flush
        f inp out state = some (s, inp', out', state') →
      (s = .INFO_NEW_BLOCK ∨ s = .INFO_EFFICIENCY_CHECK) →
      ∃ state0 : density_chameleon_decode_state,
        state0.process = .PREPARE_NEW_BLOCK ∧
        density_chameleon_decode_check_state out' state0 = some (s, state') := by
  intro f
  induction f with
  | zero =>
    intro inp out state s inp' out' state' h
    simp [density_chameleon_decode_process_fuel] at h
  | succ f ih =>
    intro inp out state s inp' out' state' h hs
    rw [density_chameleon_decode_process_fuel] at h
    split at h
    · simp at h
    · rename_i rs inp1 out1 state1 hcase
      simp only [Option.some.injEq, Prod.mk.injEq] at h
      obtain ⟨rfl, rfl, rfl, rfl⟩ := h
      obtain ⟨hphase, -, rfl, hcheck⟩ := process_case_info _ _ _ _ _ _ _ _ _ _ hcase hs
      exact ⟨state, hphase, hcheck⟩
    · exact ih _ _ _ _ _ _ _ h hs

theorem check_state_info_then_ready (out : density_memory_location)
    (state : density_chameleon_decode_state) (r : DENSITY_KERNEL_DECODE_STATE)
    (state' : density_chameleon_decode_state)
    (h : density_chameleon_decode_check_state out state = some (r, state'))
    (hr : r = .INFO_NEW_BLOCK ∨ r = .INFO_EFFICIENCY_CHECK) :
    density_chameleon_decode_check_state out state' = some (.READY, state') := by
  obtain ⟨-, hcases⟩ := check_state_cases out state r state' h
  rcases hcases with ⟨hs, -, -⟩ | ⟨hs, -, -⟩ | ⟨-, hroom, h64, h1⟩ | ⟨-, hroom, h0⟩
  · rcases hr with hr | hr <;> (rw [hr] at hs; exact absurd hs (by decide))
  · rcases hr with hr | hr <;> (rw [hr] at hs; exact absurd hs (by decide))
  · exact check_state_after_info out state' hroom (Or.inl ⟨h64, h1⟩)
  · exact check_state_after_info out state' hroom (Or.inr h0)

/-- C14. Efficiency check at most once: in every state of a run that started with `init`,
(1) `check_state` returns INFO_EFFICIENCY_CHECK only from `signaturesCount = 64` and
`efficiencyChecked = 0`, and the state it leaves differs in `efficiencyChecked = 1` alone;
(2) once `efficiencyChecked` is 1, no case of `process` returns INFO_EFFICIENCY_CHECK, and the
flag stays 1 until the step of `check_state` that sets `signaturesCount` from 256 back to 0
(and the flag with it), so the status comes at most once between two such resets; (3) when
`process` returns INFO_NEW_BLOCK or INFO_EFFICIENCY_CHECK, the state is left at
PREPARE_NEW_BLOCK and `check_state` on the same output location and that state returns READY
and changes nothing. -/
theorem efficiency_check_once (parameters : density_main_header_parameters) (n : Nat)
    (state : density_chameleon_decode_state) (hrun : run_state parameters n state) :
    (∀ (out : density_memory_location) (state' : density_chameleon_decode_state),
      density_chameleon_decode_check_state out state = some (.INFO_EFFICIENCY_CHECK, state') →
      state.signaturesCount = 64 ∧ state.efficiencyChecked = 0 ∧
      state' = { state with efficiencyChecked := 1 })
    ∧ (state.efficiencyChecked = 1 →
        ∀ (sizeof_block_footer sizeof_main_footer : Nat) (inp : density_memory_teleport)
          (out : density_memory_location) (flush : Bool)
          (r : Option DENSITY_KERNEL_DECODE_STATE) (inp' : density_memory_teleport)
          (out' : density_memory_location) (state' : density_chameleon_decode_state),
          density_chameleon_decode_process_case sizeof_block_footer sizeof_main_footer
            inp out state flush = some (r, inp', out', state') →
          r ≠ some .INFO_EFFICIENCY_CHECK ∧
          (state'.efficiencyChecked = 1 ∨
            (state.signaturesCount = 256 ∧ state'.signaturesCount = 0 ∧
              state'.efficiencyChecked = 0)))
    ∧ (∀ (sizeof_block_footer sizeof_main_footer : Nat) (inp : density_memory_teleport)
          (out : density_memory_location) (flush : Bool)
          (s : DENSITY_KERNEL_DECODE_STATE) (inp' : density_memory_teleport)
          (out' : density_memory_location) (state' : density_chameleon_decode_state),
          density_chameleon_decode_process sizeof_block_footer sizeof_main_footer
            inp out state flush = some (s, inp', out', state') →
          (s = .INFO_NEW_BLOCK ∨ s = .INFO_EFFICIENCY_CHECK) →
          state'.process = .PREPARE_NEW_BLOCK ∧
          density_chameleon_decode_check_state out' state' = some (.READY, state')) := by
  obtain ⟨⟨c1, c2, c3, c4, c5⟩, -⟩ := run_counter_invariant _ _ _ hrun
  refine ⟨?_, ?_, ?_⟩
  · intro out state' hcheck
    rcases check_state_step _ _ _ _ hcheck with
      ⟨hs, -⟩ | ⟨hs, -⟩ | ⟨-, hst, -, h64, hflag⟩ | ⟨hs, -⟩
    · exact absurd hs (by decide)
    · exact absurd hs (by decide)
    · exact ⟨h64, by omega, hst⟩
    · exact absurd hs (by decide)
  · intro hflag bf mf inp out flush r inp' out' state' hcase
    have hstatus : r ≠ some .INFO_EFFICIENCY_CHECK := by
      intro hr
      subst hr
      obtain ⟨-, -, -, hcheck⟩ := process_case_info _ _ _ _ _ _ _ _ _ _ hcase (Or.inr rfl)
      rcases check_state_step _ _ _ _ hcheck with
        ⟨hs, -⟩ | ⟨hs, -⟩ | ⟨-, -, -, -, hne⟩ | ⟨hs, -⟩
      · exact absurd hs (by decide)
      · exact absurd hs (by decide)
      · exact hne hflag
      · exact absurd hs (by decide)
    refine ⟨hstatus, ?_⟩
    rcases process_case_step _ _ _ _ _ _ _ _ _ _ hcase with
      ⟨-, rs, state1, hcheck, hres⟩ | ⟨-, hres⟩ | ⟨-, hres⟩
    · have h1 : state1.efficiencyChecked = 1 ∨
          (state.signaturesCount = 256 ∧ state1.signaturesCount = 0 ∧
            state1.efficiencyChecked = 0) := by
        rcases check_state_step _ _ _ _ hcheck with
          ⟨-, rfl, -⟩ | ⟨-, rfl, -⟩ | ⟨-, rfl, -⟩ | ⟨-, -, h256, hcases⟩
        · exact Or.inl hflag
        · exact Or.inl hflag
        · exact Or.inl rfl
        · rcases hcases with ⟨-, rfl⟩ | ⟨-, -, rfl⟩ | ⟨-, -, -, rfl⟩ <;>
            exact Or.inr ⟨h256, rfl, rfl⟩
      rcases hres with ⟨-, -, rfl⟩ | ⟨-, -, rfl⟩
      · exact h1
      · exact h1
    · rcases hres with ⟨-, rfl⟩ | ⟨-, sig, rfl⟩
      · exact Or.inl hflag
      · exact Or.inl hflag
    · rcases hres with ⟨-, rfl⟩ | ⟨-, sh, d, rfl⟩
      · exact Or.inl hflag
      · exact Or.inl hflag
  · intro bf mf inp out flush s inp' out' state' hproc hs
    obtain ⟨state0, hphase, hcheck⟩ := process_fuel_info _ _ _ _ _ _ _ _ _ _ _ hproc hs
    obtain ⟨hp, -⟩ := check_state_cases _ _ _ _ hcheck
    exact ⟨by rw [hp, hphase], check_state_info_then_ready _ _ _ _ hcheck hs⟩
/-! ## `init` and the reset cycle -/

/-- Counterexample to C15 as stated: on a prior state whose `resetCycle` is 5 and the
parameter byte 0, `init` returns READY and leaves `resetCycle` at 5, not at 0. -/
theorem init_keeps_reset_cycle :
    density_chameleon_decode_init prior_state_cycle5 { as_bytes := [0] } 0
      = some (.READY, { prior_state_cycle5 with parameters := { as_bytes := [0] } })
    ∧ ({ prior_state_cycle5 with parameters := { as_bytes := [0] } }
        : density_chameleon_decode_state).resetCycle = 5 :=
  ⟨rfl, rfl⟩

/-- C15, amended. Init postcondition: for every prior state, every `endDataOverhead` and every
parameter value whose shift byte `k` is at most 30, `init` returns READY and a state with
`signaturesCount = 0`, `efficiencyChecked = 0`, all dictionary entries zero, `parameters` and
`endDataOverhead` equal to the arguments, `process = PREPARE_NEW_BLOCK`, and `resetCycle`
equal to `2 ^ k - 1` when `k ≥ 1` but to its prior value when `k = 0`; `signature`, `shift`
and `bodyLength` keep their prior values. -/
theorem init_postcondition (state0 : density_chameleon_decode_state)
    (parameters : density_main_header_parameters) (endDataOverhead : Nat)
    (hk : parameters.as_bytes.headD 0 < 31) :
    density_chameleon_decode_init state0 parameters endDataOverhead
      = some (.READY,
          { process := .PREPARE_NEW_BLOCK,
            parameters := parameters,
            resetCycle := if parameters.as_bytes.headD 0 = 0 then state0.resetCycle
                          else 2 ^ parameters.as_bytes.headD 0 - 1,
            signature := state0.signature,
            shift := state0.shift,
            bodyLength := state0.bodyLength,
            signaturesCount := 0,
            efficiencyChecked := 0,
            endDataOverhead := endDataOverhead,
            dictionary := { entries := fun _ => 0 } }) := by
  by_cases hz : parameters.as_bytes.headD 0 = 0
  · unfold density_chameleon_decode_init
    simp [hz, density_chameleon_dictionary_reset, -List.headD_eq_head?_getD]
  · unfold density_chameleon_decode_init
    simp [hz, hk, int_one_shift_left, sub_uint64_pow _ hk, density_chameleon_dictionary_reset,
      -List.headD_eq_head?_getD]

/-- Witness of C15, amended: the blank state, the parameter byte 1 and `endDataOverhead = 8`. -/
theorem init_postcondition_witness :
    ({ as_bytes := [1] } : density_main_header_parameters).as_bytes.headD 0 < 31 ∧
    density_chameleon_decode_init blank_state { as_bytes := [1] } 8
      = some (.READY,
          { process := .PREPARE_NEW_BLOCK,
            parameters := { as_bytes := [1] },
            resetCycle :=
              if ({ as_bytes := [1] } : density_main_header_parameters).as_bytes.headD 0 = 0
              then blank_state.resetCycle
              else 2 ^ ({ as_bytes := [1] } : density_main_header_parameters).as_bytes.headD 0 - 1,
            signature := blank_state.signature,
            shift := blank_state.shift,
            bodyLength := blank_state.bodyLength,
            signaturesCount := 0,
            efficiencyChecked := 0,
            endDataOverhead := 8,
            dictionary := { entries := fun _ => 0 } }) :=
  ⟨by decide, init_postcondition blank_state { as_bytes := [1] } 8 (by decide)⟩

/-- C16, the code at the failing input. For the parameter byte 32 the expression
`1 << resetDictionaryCycleShift` shifts the 32-bit `int` constant 1 by 32 places, which C
leaves undefined: neither `init` nor the reset branch of `check_state` has a defined result,
where the claim has `resetCycle = 2 ^ 32 - 1`. For the parameter byte 30 both yield
`2 ^ 30 - 1`. -/
theorem reset_cycle_int_shift :
    density_chameleon_decode_init blank_state { as_bytes := [32] } 0 = none
    ∧ density_chameleon_decode_check_state (fresh_output 256) new_block_state_shift32 = none
    ∧ (density_chameleon_decode_init blank_state { as_bytes := [30] } 0).map
        (fun r => r.2.resetCycle) = some (2 ^ 30 - 1)
    ∧ (density_chameleon_decode_check_state (fresh_output 256)
        { new_block_state_shift32 with parameters := { as_bytes := [30] } }).map
        (fun r => r.2.resetCycle) = some (2 ^ 30 - 1) :=
  ⟨rfl, rfl, by decide, by decide⟩

/-! ## `flush` with fewer bytes than the footers -/

theorem process_case_stall_in (sizeof_block_footer sizeof_main_footer : Nat)
    (inp : density_memory_teleport) (out : density_memory_location)
    (state : density_chameleon_decode_state) (flush : Bool)
    (inp' : density_memory_teleport) (out' : density_memory_location)
    (state' : density_chameleon_decode_state)
    (h : density_chameleon_decode_process_case sizeof_block_footer sizeof_main_footer
      inp out state flush = some (some .STALL_ON_INPUT_BUFFER, inp', out', state')) :
    inp' = inp ∧ out' = out ∧ state' = state ∧
    ((state.process = .SIGNATURE ∧ inp.bytes.length < 8)
     ∨ (state.process = .DECOMPRESS_BODY ∧ inp.bytes.length < state.bodyLength)) := by
  unfold density_chameleon_decode_process_case at h
  split at h
  · exfalso
    unfold density_chameleon_decode_process_prepare_new_block at h
    split at h
    · simp at h
    · rename_i rs state1 hcheck
      split at h
      · simp only [Option.some.injEq, Prod.mk.injEq] at h
        obtain ⟨rfl, -⟩ := h
        rcases check_state_step _ _ _ _ hcheck with
          ⟨hs, -⟩ | ⟨hs, -⟩ | ⟨hs, -⟩ | ⟨hs, -⟩ <;> exact absurd hs (by decide)
      · simp at h
  · rename_i hphase
    unfold density_chameleon_decode_process_signature at h
    simp only at h
    split at h
    · split at h
      · simp only [Option.some.injEq, Prod.mk.injEq] at h
        exact absurd h.1 (by decide)
      · simp only [Option.some.injEq, Prod.mk.injEq] at h
        exact absurd h.1 (by decide)
    · split at h
      · rename_i hread
        simp only [Option.some.injEq, Prod.mk.injEq] at h
        refine ⟨h.2.1.symm, h.2.2.1.symm, h.2.2.2.symm, Or.inl ⟨hphase, ?_⟩⟩
        unfold density_memory_teleport_read at hread
        split at hread
        · simp at hread
        · omega
      · split at h
        · simp at h
        · simp at h
  · rename_i hphase
    unfold density_chameleon_decode_process_decompress_body at h
    split at h
    · rename_i hread
      simp only [Option.some.injEq, Prod.mk.injEq] at h
      refine ⟨h.2.1.symm, h.2.2.1.symm, h.2.2.2.symm, Or.inr ⟨hphase, ?_⟩⟩
      unfold density_memory_teleport_read at hread
      split at hread
      · simp at hread
      · omega
    · split at h
      · simp at h
      · split at h
        · simp at h
        · simp at h

theorem process_fuel_stall_in (sizeof_block_footer sizeof_main_footer : Nat) (flush : Bool) :
    ∀ (f : Nat) (inp : density_memory_teleport) (out : density_memory_location)
      (state : density_chameleon_decode_state)
      (inp' : density_memory_teleport) (out' : density_memory_location)
      (state' : density_chameleon_decode_state),
      density_chameleon_decode_process_fuel sizeof_block_footer sizeof_main_footer flush
        f inp out state = some (.STALL_ON_INPUT_BUFFER, inp', out', state') →
      density_chameleon_decode_process_case sizeof_block_footer sizeof_main_footer
        inp' out' state' flush = some (some .STALL_ON_INPUT_BUFFER, inp', out', state') := by
  intro f
  induction f with
  | zero =>
    intro inp out state inp' out' state' h
    simp [density_chameleon_decode_process_fuel] at h
  | succ f ih =>
    intro inp out state inp' out' state' h
    rw [density_chameleon_decode_process_fuel] at h
    split at h
    · simp at h
    · rename_i rs inp1 out1 state1 hcase
      simp only [Option.some.injEq, Prod.mk.injEq] at h
      obtain ⟨rfl, rfl, rfl, rfl⟩ := h
      obtain ⟨rfl, rfl, rfl, -⟩ := process_case_stall_in _ _ _ _ _ _ _ _ _ hcase
      exact hcase
    · exact ih _ _ _ _ _ _ h

/-- C18. Suspension keeps the resume point: when `process`, entered in a run that started with
`init`, returns STALL_ON_INPUT_BUFFER, then (a) the state is at SIGNATURE with fewer than 8
bytes buffered, or at DECOMPRESS_BODY with fewer than `bodyLength` bytes buffered, `shift = 0`
and `bodyLength = 256 - 2 * popcount(signature)`; (b) the case that failed, run again on what
`process` returned, returns the same status with the same teleport, output and state: it
consumed nothing and changed neither the state (signature, shift, counters, dictionary) nor the
output; (c) with `flush` clear, supplying further input and re-entering gives what the
uninterrupted call on the longer input gives; (d) re-entered with `flush` clear and enough
input, the case that failed reads its 8 bytes, or its `bodyLength` bytes, from the first byte
not yet consumed and passes control on. -/
theorem suspension_keeps_resume_point (sizeof_block_footer sizeof_main_footer : Nat)
    (inp : density_memory_teleport) (out : density_memory_location)
    (state : density_chameleon_decode_state) (flush : Bool)
    (inp' : density_memory_teleport) (out' : density_memory_location)
    (state' : density_chameleon_decode_state)
    (hinv : decode_invariant out state)
    (hret : density_chameleon_decode_process sizeof_block_footer sizeof_main_footer
      inp out state flush = some (.STALL_ON_INPUT_BUFFER, inp', out', state')) :
    ((state'.process = .SIGNATURE ∧ inp'.bytes.length < 8)
      ∨ (state'.process = .DECOMPRESS_BODY ∧ inp'.bytes.length < state'.bodyLength ∧
          state'.shift = 0 ∧ state'.bodyLength = 256 - 2 * popcountll state'.signature))
    ∧ density_chameleon_decode_process_case sizeof_block_footer sizeof_main_footer
        inp' out' state' flush = some (some .STALL_ON_INPUT_BUFFER, inp', out', state')
    ∧ (flush = false → ∀ x : List Nat,
        density_chameleon_decode_process sizeof_block_footer sizeof_main_footer
          (density_memory_teleport_supply inp x) out state false
        = density_chameleon_decode_process sizeof_block_footer sizeof_main_footer
          (density_memory_teleport_supply inp' x) out' state' false)
    ∧ (state'.process = .SIGNATURE → ∀ x : List Nat, 8 ≤ (inp'.bytes ++ x).length →
        density_chameleon_decode_process_case sizeof_block_footer sizeof_main_footer
          (density_memory_teleport_supply inp' x) out' state' false
        = some (none, { bytes := (inp'.bytes ++ x).drop 8 }, out',
            { state' with signature := DENSITY_LITTLE_ENDIAN_64 ((inp'.bytes ++ x).take 8),
                          shift := 0,
                          signaturesCount := state'.signaturesCount + 1,
                          bodyLength :=
                            256 - 2 * popcountll (DENSITY_LITTLE_ENDIAN_64 ((inp'.bytes ++ x).take 8)),
                          process := .DECOMPRESS_BODY }))
    ∧ (state'.process = .DECOMPRESS_BODY → ∀ x : List Nat,
        state'.bodyLength ≤ (inp'.bytes ++ x).length →
        ∃ (written : List Nat) (d : density_chameleon_dictionary),
          density_chameleon_decode_process_case sizeof_block_footer sizeof_main_footer
            (density_memory_teleport_supply inp' x) out' state' false
          = some (none, { bytes := (inp'.bytes ++ x).drop state'.bodyLength },
              { out' with stored := out'.stored ++ written,
                          available_bytes := out'.available_bytes - 256 },
              { state' with shift := 64, dictionary := d, process := .PREPARE_NEW_BLOCK })
          ∧ written.length = 256) := by
  have hcase := process_fuel_stall_in _ _ _ _ _ _ _ _ _ _ hret
  obtain ⟨-, -, -, hphase⟩ := process_case_stall_in _ _ _ _ _ _ _ _ _ hcase
  obtain ⟨s, inp1, out1, state1, hrun, hinv1⟩ := process_total sizeof_block_footer
    sizeof_main_footer inp out state flush hinv
  rw [hret] at hrun
  simp only [Option.some.injEq, Prod.mk.injEq] at hrun
  obtain ⟨rfl, rfl, rfl, rfl⟩ := hrun
  have hinv' := hinv1 (by decide)
  obtain ⟨-, hsig, hbody⟩ := hinv'
  refine ⟨?_, hcase, ?_, ?_, ?_⟩
  · rcases hphase with ⟨hp, hlen⟩ | ⟨hp, hlen⟩
    · exact Or.inl ⟨hp, hlen⟩
    · obtain ⟨-, h0, hbl⟩ := hbody hp
      exact Or.inr ⟨hp, hlen, h0, hbl⟩
  · intro hflush x
    subst hflush
    exact process_supply_stall _ _ x _ _ _ _ _ _ hret
  · intro hp x h8
    rw [process_case_signature _ _ _ _ _ _ hp]
    exact signature_phase_run _ _ (density_memory_teleport_supply inp' x) out' state' false
      (by simp) h8
  · intro hp x hlen
    obtain ⟨hroom, h0, hbl⟩ := hbody hp
    obtain ⟨written, d, -, hrun, hw⟩ := decompress_body_run
      (density_memory_teleport_supply inp' x) out' state' h0 hbl hlen hroom
    refine ⟨written, d, ?_, hw⟩
    unfold density_chameleon_decode_process_case
    rw [hp]
    exact hrun

/-- Witness of C18: the first 5 bytes of the block of scenario 3, from a blank state with 256
bytes of output room; `process` stalls at the SIGNATURE case. -/
theorem suspension_keeps_resume_point_witness :
    decode_invariant (fresh_output 256) blank_state ∧
    density_chameleon_decode_process 4 4 { bytes := scenario3_block.take 5 } (fresh_output 256)
        blank_state false
      = some (.STALL_ON_INPUT_BUFFER, { bytes := scenario3_block.take 5 }, fresh_output 256,
          signature_state) ∧
    ((signature_state.process = .SIGNATURE ∧
        ({ bytes := scenario3_block.take 5 } : density_memory_teleport).bytes.length < 8)
      ∨ (signature_state.process = .DECOMPRESS_BODY ∧
          ({ bytes := scenario3_block.take 5 } : density_memory_teleport).bytes.length
            < signature_state.bodyLength ∧
          signature_state.shift = 0 ∧
          signature_state.bodyLength = 256 - 2 * popcountll signature_state.signature)) :=
  ⟨by decide, rfl,
   (suspension_keeps_resume_point 4 4 { bytes := scenario3_block.take 5 } (fresh_output 256)
      blank_state false { bytes := scenario3_block.take 5 } (fresh_output 256) signature_state
      (by decide) rfl).1⟩

/-- C19. Counter invariant: in every state of a run that started with `init` (each state that a
case of `process` leaves, so each state between two calls of `process` as well),
`signaturesCount ≤ 256`; `efficiencyChecked = 1` implies `signaturesCount ≥ 64`; a state with
`signaturesCount = 256` is not at the SIGNATURE case, and `check_state` on it either stalls on
the output with nothing changed or returns INFO_NEW_BLOCK with `signaturesCount` and
`efficiencyChecked` both set to 0; a case of `process` that reads a signature starts from
`signaturesCount < 256` and raises it by one; and the state that a call of `process` returns
is again a state of the run. -/
theorem counter_invariant_in_runs (parameters : density_main_header_parameters) (n : Nat)
    (state : density_chameleon_decode_state) (hrun : run_state parameters n state) :
    state.signaturesCount ≤ 256
    ∧ (state.efficiencyChecked = 1 → 64 ≤ state.signaturesCount)
    ∧ (state.signaturesCount = 256 →
        state.process ≠ .SIGNATURE ∧
        ∀ (out : density_memory_location) (r : DENSITY_KERNEL_DECODE_STATE)
          (state' : density_chameleon_decode_state),
          density_chameleon_decode_check_state out state = some (r, state') →
          (r = .STALL_ON_OUTPUT_BUFFER ∧ state' = state)
          ∨ (r = .INFO_NEW_BLOCK ∧ state'.signaturesCount = 0 ∧ state'.efficiencyChecked = 0))
    ∧ (∀ (sizeof_block_footer sizeof_main_footer : Nat) (inp : density_memory_teleport)
        (out : density_memory_location) (flush : Bool)
        (r : Option DENSITY_KERNEL_DECODE_STATE) (inp' : density_memory_teleport)
        (out' : density_memory_location) (state' : density_chameleon_decode_state),
        density_chameleon_decode_process_case sizeof_block_footer sizeof_main_footer
          inp out state flush = some (r, inp', out', state') →
        signatures_read state r = 1 →
        state.signaturesCount < 256 ∧ state'.signaturesCount = state.signaturesCount + 1)
    ∧ (∀ (sizeof_block_footer sizeof_main_footer : Nat) (inp : density_memory_teleport)
        (out : density_memory_location) (flush : Bool)
        (s : DENSITY_KERNEL_DECODE_STATE) (inp' : density_memory_teleport)
        (out' : density_memory_location) (state' : density_chameleon_decode_state),
        density_chameleon_decode_process sizeof_block_footer sizeof_main_footer
          inp out state flush = some (s, inp', out', state') →
        ∃ n' : Nat, n ≤ n' ∧ run_state parameters n' state') := by
  obtain ⟨⟨c1, c2, c3, c4, c5⟩, -⟩ := run_counter_invariant _ _ _ hrun
  refine ⟨c1, c5, ?_, ?_, ?_⟩
  · intro h256
    refine ⟨fun hp => by have := c2 hp; omega, ?_⟩
    intro out r state' hcheck
    rcases check_state_step _ _ _ _ hcheck with
      ⟨hr, hst, -⟩ | ⟨-, -, -, hne, -⟩ | ⟨-, -, -, h64, -⟩ | ⟨hr, -, -, hcases⟩
    · exact Or.inl ⟨hr, hst⟩
    · exact absurd h256 hne
    · omega
    · rcases hcases with ⟨-, rfl⟩ | ⟨-, -, rfl⟩ | ⟨-, -, -, rfl⟩ <;>
        exact Or.inr ⟨hr, rfl, rfl⟩
  · intro bf mf inp out flush r inp' out' state' hcase hread
    rcases signatures_read_eq state r with ⟨hp, hr, -⟩ | ⟨-, h0⟩
    · rcases process_case_step _ _ _ _ _ _ _ _ _ _ hcase with
        ⟨hphase, -⟩ | ⟨-, hres⟩ | ⟨hphase, -⟩
      · rw [hp] at hphase
        exact absurd hphase (by decide)
      · rcases hres with ⟨hne, -⟩ | ⟨-, sig, rfl⟩
        · exact absurd hr hne
        · exact ⟨c2 hp, rfl⟩
      · rw [hp] at hphase
        exact absurd hphase (by decide)
    · omega
  · intro bf mf inp out flush s inp' out' state' hproc
    exact run_state_process parameters bf mf flush n inp out state s inp' out' state' hrun hproc

/-- Witness of C19: the state that `init` returns for the parameter byte 1. -/
theorem counter_invariant_in_runs_witness :
    run_state { as_bytes := [1] } 0 initial_state_shift1 ∧
    initial_state_shift1.signaturesCount ≤ 256 ∧
    (initial_state_shift1.efficiencyChecked = 1 → 64 ≤ initial_state_shift1.signaturesCount) :=
  ⟨run_state.init blank_state 0 .READY initial_state_shift1 rfl,
   (counter_invariant_in_runs { as_bytes := [1] } 0 initial_state_shift1
      (run_state.init blank_state 0 .READY initial_state_shift1 rfl)).1,
   (counter_invariant_in_runs { as_bytes := [1] } 0 initial_state_shift1
      (run_state.init blank_state 0 .READY initial_state_shift1 rfl)).2.1⟩

/-! ## The number of blocks that one call of `process` decodes -/

theorem process_data_loop_short :
    ∀ (n : Nat) (inp out : density_memory_location) (state : density_chameleon_decode_state),
      state.shift + n < 64 →
      density_chameleon_decode_process_data_loop n inp out state = none := by
  intro n
  induction n with
  | zero =>
    intro inp out state h
    have hne : state.shift ^^^ 64 ≠ 0 := (shift_xor_ne_zero _).mpr (by omega)
    simp only [density_chameleon_decode_process_data_loop, if_pos hne]
  | succ n ih =>
    intro inp out state h
    have hne : state.shift ^^^ 64 ≠ 0 := (shift_xor_ne_zero _).mpr (by omega)
    rw [density_chameleon_decode_process_data_loop, if_pos hne]
    split
    · rfl
    · split
      · rfl
      · rename_i inp1 out1 state1 hk
        apply ih
        have hshift : state1.shift = state.shift := by
          obtain ⟨-, d1, -, hd1⟩ := kernel_frame _ _ _ _ _ _ _ hk
          rw [hd1]
        show state1.shift + 1 + n < 64
        omega

theorem process_case_blocks (sizeof_block_footer sizeof_main_footer : Nat)
    (inp : density_memory_teleport) (out : density_memory_location)
    (state : density_chameleon_decode_state) (flush : Bool)
    (r : Option DENSITY_KERNEL_DECODE_STATE) (inp' : density_memory_teleport)
    (out' : density_memory_location) (state' : density_chameleon_decode_state)
    (hinv : decode_invariant out state)
    (h : density_chameleon_decode_process_case sizeof_block_footer sizeof_main_footer
      inp out state flush = some (r, inp', out', state')) :
    ∃ b t : Nat, out'.available_bytes + 256 * b + t = out.available_bytes ∧
      out'.stored.length = out.stored.length + 256 * b + t ∧ t < 256 ∧
      (r ≠ some .FINISHED → t = 0) := by
  unfold density_chameleon_decode_process_case at h
  split at h
  · unfold density_chameleon_decode_process_prepare_new_block at h
    split at h
    · simp at h
    · split at h <;>
        (simp only [Option.some.injEq, Prod.mk.injEq] at h
         rw [← h.2.2.1]
         exact ⟨0, 0, by omega, by omega, by omega, fun _ => rfl⟩)
  · unfold density_chameleon_decode_process_signature at h
    simp only at h
    split at h
    · rename_i htail
      split at h
      · simp only [Option.some.injEq, Prod.mk.injEq] at h
        rw [← h.2.2.1]
        exact ⟨0, 0, by omega, by omega, by omega, fun _ => rfl⟩
      · rename_i hfit
        simp only [Option.some.injEq, Prod.mk.injEq] at h
        rw [← h.2.2.1, ← h.1]
        have hlt := htail.2
        unfold DENSITY_CHAMELEON_ENCODE_PROCESS_UNIT_SIZE at hlt
        have hle := List.length_take_le
          (sub_uint64 (sub_uint64 (density_memory_teleport_available inp) sizeof_block_footer)
            sizeof_main_footer) inp.bytes
        refine ⟨0, (inp.bytes.take (sub_uint64 (sub_uint64
          (density_memory_teleport_available inp) sizeof_block_footer)
            sizeof_main_footer)).length, ?_, ?_, by omega, fun hne => absurd rfl hne⟩
        · simp only [density_memory_teleport_copy]
          omega
        · simp only [density_memory_teleport_copy, List.length_append]
          omega
    · split at h
      · simp only [Option.some.injEq, Prod.mk.injEq] at h
        rw [← h.2.2.1]
        exact ⟨0, 0, by omega, by omega, by omega, fun _ => rfl⟩
      · split at h
        · simp at h
        · simp only [Option.some.injEq, Prod.mk.injEq] at h
          rw [← h.2.2.1]
          exact ⟨0, 0, by omega, by omega, by omega, fun _ => rfl⟩
  · rename_i hphase
    obtain ⟨-, -, hbody⟩ := hinv
    obtain ⟨hroom, h0, hbl⟩ := hbody hphase
    by_cases hin : state.bodyLength ≤ inp.bytes.length
    · obtain ⟨written, d, -, hrun, hw⟩ := decompress_body_run inp out state h0 hbl hin hroom
      rw [hrun] at h
      simp only [Option.some.injEq, Prod.mk.injEq] at h
      rw [← h.2.2.1]
      refine ⟨1, 0, ?_, ?_, by omega, fun _ => rfl⟩
      · show out.available_bytes - 256 + 256 * 1 + 0 = out.available_bytes
        omega
      · show (out.stored ++ written).length = out.stored.length + 256 * 1 + 0
        rw [List.length_append, hw]
    · unfold density_chameleon_decode_process_decompress_body at h
      have hread : density_memory_teleport_read inp state.bodyLength = none := by
        unfold density_memory_teleport_read
        rw [if_neg hin]
      rw [hread] at h
      simp only [Option.some.injEq, Prod.mk.injEq] at h
      rw [← h.2.2.1]
      exact ⟨0, 0, by omega, by omega, by omega, fun _ => rfl⟩

theorem process_fuel_blocks (sizeof_block_footer sizeof_main_footer : Nat) (flush : Bool) :
    ∀ (f : Nat) (inp : density_memory_teleport) (out : density_memory_location)
      (state : density_chameleon_decode_state) (s : DENSITY_KERNEL_DECODE_STATE)
      (inp' : density_memory_teleport) (out' : density_memory_location)
      (state' : density_chameleon_decode_state),
      decode_invariant out state →
      density_chameleon_decode_process_fuel sizeof_block_footer sizeof_main_footer flush
        f inp out state = some (s, inp', out', state') →
      ∃ b t : Nat, out'.available_bytes + 256 * b + t = out.available_bytes ∧
        out'.stored.length = out.stored.length + 256 * b + t ∧ t < 256 ∧
        (s ≠ .FINISHED → t = 0) := by
  intro f
  induction f with
  | zero =>
    intro inp out state s inp' out' state' _ h
    simp [density_chameleon_decode_process_fuel] at h
  | succ f ih =>
    intro inp out state s inp' out' state' hinv h
    rw [density_chameleon_decode_process_fuel] at h
    split at h
    · simp at h
    · rename_i rs inp1 out1 state1 hcase
      simp only [Option.some.injEq, Prod.mk.injEq] at h
      obtain ⟨rfl, rfl, rfl, rfl⟩ := h
      obtain ⟨b, t, h1, h2, h3, h4⟩ := process_case_blocks _ _ _ _ _ _ _ _ _ _ hinv hcase
      refine ⟨b, t, h1, h2, h3, fun hne => h4 ?_⟩
      intro hc
      simp only [Option.some.injEq] at hc
      exact hne hc
    · rename_i inp1 out1 state1 hcase
      obtain ⟨b1, t1, h1, h2, h3, h4⟩ := process_case_blocks _ _ _ _ _ _ _ _ _ _ hinv hcase
      have ht1 : t1 = 0 := h4 (by simp)
      obtain ⟨r2, inp2, out2, state2, hcase2, hinv2⟩ := process_case_total sizeof_block_footer
        sizeof_main_footer inp out state flush hinv
      rw [hcase] at hcase2
      simp only [Option.some.injEq, Prod.mk.injEq] at hcase2
      obtain ⟨rfl, rfl, rfl, rfl⟩ := hcase2
      obtain ⟨b, t, g1, g2, g3, g4⟩ := ih _ _ _ _ _ _ _ (hinv2 (by simp)) h
      exact ⟨b1 + b, t, by omega, by omega, g3, g4⟩

set_option maxRecDepth 100000 in
/-- Counterexample to C20 as stated: a reachable state with 100 bytes of output room. From
`init`, `process` on the 8 signature bytes of the block of scenario 3 stalls at
DECOMPRESS_BODY. Entered again in that state with the body buffered and
`out.available_bytes = 100`, the body loop still stores its 256 bytes, one block where
`floor(100 / 256) = 0`; the stores overrun the room, and the call has no defined result. -/
theorem body_entered_without_room :
    density_chameleon_decode_process 4 4 { bytes := scenario3_block.take 8 } (fresh_output 256)
        (initial_state 0) false
      = some (.STALL_ON_INPUT_BUFFER, { bytes := [] }, fresh_output 256, scenario3_body_state)
    ∧ (density_chameleon_decode_process_data
        { ahead := scenario3_body, stored := [], available_bytes := 130 } (fresh_output 100)
        scenario3_body_state).map (fun r => r.2.1.stored.length) = some 256
    ∧ density_chameleon_decode_process 4 4 { bytes := scenario3_body } (fresh_output 100)
        scenario3_body_state false = none := by
  refine ⟨rfl, by decide, rfl⟩

/-- C20, amended. Termination: entered with an output location and a state as they are met in
a run that started with `init` (past PREPARE_NEW_BLOCK the output still has the 256 bytes
that `check_state` found), one call of `process` returns a status within the cases that
`3 * (available_bytes / 256) + 3` allows; it has then decoded `b` blocks of 256 bytes and, if
the status is FINISHED, copied a tail of `t < 256` bytes, `out.available_bytes` is lower by
`256 * b + t`, and `b ≤ floor(out.available_bytes / 256)`. The body loop started at
`shift = 0` on a window of `256 - 2 * popcount(signature)` bytes ends with `shift = 64` after
storing 64 words, and fewer than 64 rounds never end it. -/
theorem process_terminates (sizeof_block_footer sizeof_main_footer : Nat)
    (inp : density_memory_teleport) (out : density_memory_location)
    (state : density_chameleon_decode_state) (flush : Bool)
    (hinv : decode_invariant out state) :
    (∃ (s : DENSITY_KERNEL_DECODE_STATE) (inp' : density_memory_teleport)
       (out' : density_memory_location) (state' : density_chameleon_decode_state) (b t : Nat),
       density_chameleon_decode_process sizeof_block_footer sizeof_main_footer
         inp out state flush = some (s, inp', out', state')
       ∧ out'.available_bytes + 256 * b + t = out.available_bytes
       ∧ out'.stored.length = out.stored.length + 256 * b + t
       ∧ t < 256 ∧ (s ≠ .FINISHED → t = 0)
       ∧ b ≤ out.available_bytes / 256)
    ∧ (∀ (window out2 : density_memory_location) (state2 : density_chameleon_decode_state),
        state2.shift = 0 →
        window.ahead.length = 256 - 2 * popcountll state2.signature →
        (∃ (written : List Nat) (d : density_chameleon_dictionary),
          density_chameleon_decode_process_data window out2 state2
            = some ({ window with ahead := [] }, { out2 with stored := out2.stored ++ written },
                { state2 with shift := 64, dictionary := d })
          ∧ written.length = 4 * 64)
        ∧ ∀ n : Nat, n < 64 →
            density_chameleon_decode_process_data_loop n window out2 state2 = none) := by
  constructor
  · obtain ⟨s, inp', out', state', hrun, -⟩ := process_total sizeof_block_footer
      sizeof_main_footer inp out state flush hinv
    obtain ⟨b, t, h1, h2, h3, h4⟩ := process_fuel_blocks _ _ _ _ _ _ _ _ _ _ _ hinv hrun
    refine ⟨s, inp', out', state', b, t, hrun, h1, h2, h3, h4, ?_⟩
    rw [Nat.le_div_iff_mul_le (by decide)]
    omega
  · intro window out2 state2 h0 hlen
    constructor
    · have hbytes : window.ahead.length = signature_body_bytes state2.signature state2.shift 64 := by
        rw [h0, signature_body_bytes_eq, hlen]
      obtain ⟨written, d, hrun, hw⟩ := process_data_loop_run 64 window out2 state2
        window.ahead [] (by omega) (by simp) hbytes
      exact ⟨written, d, hrun, hw⟩
    · intro n hn
      exact process_data_loop_short n window out2 state2 (by omega)

/-- Witness of C20, amended: the block of scenario 3 from a blank state with 256 bytes of
output room. -/
theorem process_terminates_witness :
    decode_invariant (fresh_output 256) blank_state ∧
    ∃ (s : DENSITY_KERNEL_DECODE_STATE) (inp' : density_memory_teleport)
       (out' : density_memory_location) (state' : density_chameleon_decode_state) (b t : Nat),
       density_chameleon_decode_process 4 4 { bytes := scenario3_block } (fresh_output 256)
         blank_state false = some (s, inp', out', state')
       ∧ out'.available_bytes + 256 * b + t = (fresh_output 256).available_bytes
       ∧ out'.stored.length = (fresh_output 256).stored.length + 256 * b + t
       ∧ t < 256 ∧ (s ≠ .FINISHED → t = 0)
       ∧ b ≤ (fresh_output 256).available_bytes / 256 :=
  ⟨by decide,
   (process_terminates 4 4 { bytes := scenario3_block } (fresh_output 256) blank_state false
      (by decide)).1⟩

/-! ## Runs of any length exist -/

theorem process_case_body (sizeof_block_footer sizeof_main_footer : Nat)
    (inp : density_memory_teleport) (out : density_memory_location)
    (state : density_chameleon_decode_state) (flush : Bool)
    (hphase : state.process = .DECOMPRESS_BODY) :
    density_chameleon_decode_process_case sizeof_block_footer sizeof_main_footer
        inp out state flush
      = density_chameleon_decode_process_decompress_body inp out state := by
  unfold density_chameleon_decode_process_case
  rw [hphase]

theorem run_state_next_block (parameters : density_main_header_parameters) (n : Nat)
    (state : density_chameleon_decode_state) (hrun : run_state parameters n state)
    (hphase : state.process = .PREPARE_NEW_BLOCK) :
    ∃ state' : density_chameleon_decode_state,
      run_state parameters (n + 1) state' ∧ state'.process = .PREPARE_NEW_BLOCK ∧
      1 ≤ state'.signaturesCount := by
  have hlt := run_shift_lt _ _ _ hrun
  -- PREPARE_NEW_BLOCK, until `check_state` answers READY
  have hstep1 : ∃ state1 : density_chameleon_decode_state,
      run_state parameters n state1 ∧ state1.process = .PREPARE_NEW_BLOCK ∧
      density_chameleon_decode_check_state (fresh_output 256) state1 = some (.READY, state1) := by
    obtain ⟨-, hpar⟩ := run_counter_invariant _ _ _ hrun
    obtain ⟨r, state1, hcheck, -⟩ := check_state_total (fresh_output 256) state
      (by rw [hpar]; exact hlt)
    obtain ⟨hproc, hcases⟩ := check_state_cases _ _ _ _ hcheck
    rcases hcases with ⟨-, -, hroom⟩ | ⟨hr, hst, -⟩ | ⟨hr, -, -, -⟩ | ⟨hr, -, -⟩
    · exact absurd hroom (by decide)
    · rw [hr, hst] at hcheck
      exact ⟨state, hrun, hphase, hcheck⟩
    · have hcase : density_chameleon_decode_process_case 0 0 { bytes := [] } (fresh_output 256)
          state false = some (some r, { bytes := [] }, fresh_output 256, state1) := by
        unfold density_chameleon_decode_process_case
        rw [hphase]
        simp only [density_chameleon_decode_process_prepare_new_block, hcheck]
        rw [if_pos (by rw [hr]; decide)]
      have hrun1 := run_state.case _ _ _ _ _ _ _ _ _ _ _ hrun hcase
      have hread : signatures_read state (some r) = 0 := by
        unfold signatures_read
        rw [if_neg (by simp)]
      rw [hread, Nat.add_zero] at hrun1
      exact ⟨state1, hrun1, by rw [hproc, hphase],
        check_state_info_then_ready _ _ _ _ hcheck (Or.inr hr)⟩
    · have hcase : density_chameleon_decode_process_case 0 0 { bytes := [] } (fresh_output 256)
          state false = some (some r, { bytes := [] }, fresh_output 256, state1) := by
        unfold density_chameleon_decode_process_case
        rw [hphase]
        simp only [density_chameleon_decode_process_prepare_new_block, hcheck]
        rw [if_pos (by rw [hr]; decide)]
      have hrun1 := run_state.case _ _ _ _ _ _ _ _ _ _ _ hrun hcase
      have hread : signatures_read state (some r) = 0 := by
        unfold signatures_read
        rw [if_neg (by simp)]
      rw [hread, Nat.add_zero] at hrun1
      exact ⟨state1, hrun1, by rw [hproc, hphase],
        check_state_info_then_ready _ _ _ _ hcheck (Or.inl hr)⟩
  obtain ⟨state1, hrun1, hphase1, hready⟩ := hstep1
  -- PREPARE_NEW_BLOCK passes control on
  have hcase1 : density_chameleon_decode_process_case 0 0 { bytes := [] } (fresh_output 256)
      state1 false
      = some (none, { bytes := [] }, fresh_output 256, { state1 with process := .SIGNATURE }) := by
    unfold density_chameleon_decode_process_case
    rw [hphase1]
    simp only [density_chameleon_decode_process_prepare_new_block, hready]
    simp
  have hrun2 := run_state.case _ _ _ _ _ _ _ _ _ _ _ hrun1 hcase1
  have hread1 : signatures_read state1 none = 0 := by
    unfold signatures_read
    rw [if_neg (by rw [hphase1]; simp)]
  rw [hread1, Nat.add_zero] at hrun2
  -- SIGNATURE reads eight zero bytes
  have hcase2 := signature_phase_run 0 0 { bytes := List.replicate 8 0 } (fresh_output 256)
    { state1 with process := .SIGNATURE } false (by simp) (by simp)
  have hcase2' := (process_case_signature 0 0 { bytes := List.replicate 8 0 } (fresh_output 256)
    { state1 with process := .SIGNATURE } false rfl).trans hcase2
  have hrun3 := run_state.case _ _ _ _ _ _ _ _ _ _ _ hrun2 hcase2'
  have hread2 : signatures_read { state1 with process := .SIGNATURE } none = 1 := by
    unfold signatures_read
    rw [if_pos ⟨rfl, rfl⟩]
  rw [hread2] at hrun3
  -- DECOMPRESS_BODY decodes 256 zero bytes
  obtain ⟨state3, hrun3', h0, hbl, hcount, hphase3⟩ :
      ∃ state3 : density_chameleon_decode_state,
        run_state parameters (n + 1) state3 ∧ state3.shift = 0 ∧
        state3.bodyLength = 256 - 2 * popcountll state3.signature ∧
        state3.signaturesCount = state1.signaturesCount + 1 ∧
        state3.process = .DECOMPRESS_BODY := ⟨_, hrun3, rfl, rfl, rfl, rfl⟩
  obtain ⟨written, d, -, hcase3, -⟩ := decompress_body_run { bytes := List.replicate 256 0 }
    (fresh_output 256) state3 h0 hbl
    (by rw [hbl]; simp only [List.length_replicate]; omega) (by decide)
  have hcase3' := (process_case_body 0 0 { bytes := List.replicate 256 0 } (fresh_output 256)
    state3 false hphase3).trans hcase3
  have hrun4 := run_state.case _ _ _ _ _ _ _ _ _ _ _ hrun3' hcase3'
  have hread3 : signatures_read state3 none = 0 := by
    unfold signatures_read
    rw [if_neg (by rw [hphase3]; simp)]
  rw [hread3, Nat.add_zero] at hrun4
  exact ⟨_, hrun4, rfl, by show 1 ≤ state3.signaturesCount; omega⟩

theorem init_total (state0 : density_chameleon_decode_state)
    (parameters : density_main_header_parameters) (endDataOverhead : Nat)
    (hk : parameters.as_bytes.headD 0 < 31) :
    ∃ state : density_chameleon_decode_state,
      density_chameleon_decode_init state0 parameters endDataOverhead = some (.READY, state)
      ∧ state.process = .PREPARE_NEW_BLOCK := by
  by_cases hz : parameters.as_bytes.headD 0 = 0
  · refine ⟨{ state0 with signaturesCount := 0, efficiencyChecked := 0,
                          dictionary := { entries := fun _ => 0 },
                          parameters := parameters,
                          endDataOverhead := endDataOverhead,
                          process := .PREPARE_NEW_BLOCK }, ?_, rfl⟩
    unfold density_chameleon_decode_init
    simp [hz, density_chameleon_dictionary_reset, -List.headD_eq_head?_getD]
  · refine ⟨{ state0 with signaturesCount := 0, efficiencyChecked := 0,
                          dictionary := { entries := fun _ => 0 },
                          parameters := parameters,
                          resetCycle := 2 ^ parameters.as_bytes.headD 0 - 1,
                          endDataOverhead := endDataOverhead,
                          process := .PREPARE_NEW_BLOCK }, ?_, rfl⟩
    unfold density_chameleon_decode_init
    simp [hz, hk, int_one_shift_left, sub_uint64_pow _ hk, density_chameleon_dictionary_reset,
      -List.headD_eq_head?_getD]

theorem run_state_exists (parameters : density_main_header_parameters)
    (hk : parameters.as_bytes.headD 0 < 31) :
    ∀ n : Nat, ∃ state : density_chameleon_decode_state,
      run_state parameters n state ∧ state.process = .PREPARE_NEW_BLOCK ∧
      (1 ≤ n → 1 ≤ state.signaturesCount) := by
  intro n
  induction n with
  | zero =>
    obtain ⟨state, hinit, hphase⟩ := init_total blank_state parameters 0 hk
    exact ⟨state, run_state.init _ _ _ _ hinit, hphase, fun h => absurd h (by decide)⟩
  | succ n ih =>
    obtain ⟨state, hrun, hphase, -⟩ := ih
    obtain ⟨state', hrun', hphase', hcount⟩ := run_state_next_block _ _ _ hrun hphase
    exact ⟨state', hrun', hphase', fun _ => hcount⟩

theorem reset_point_exists (parameters : density_main_header_parameters)
    (hk1 : 1 ≤ parameters.as_bytes.headD 0) (hk : parameters.as_bytes.headD 0 < 31)
    (m : Nat) (hm : 1 ≤ m) :
    ∃ state : density_chameleon_decode_state,
      run_state parameters (m * (256 * 2 ^ parameters.as_bytes.headD 0)) state ∧
      state.process = .PREPARE_NEW_BLOCK ∧ state.signaturesCount = 256 := by
  obtain ⟨state, hrun, hphase, hcount⟩ := run_state_exists parameters hk
    (m * (256 * 2 ^ parameters.as_bytes.headD 0))
  obtain ⟨⟨c1, -, -, -, -⟩, -⟩ := run_counter_invariant _ _ _ hrun
  obtain ⟨-, ⟨E, hn, -⟩, -⟩ := run_cadence_invariant parameters hk1 _ _ hrun
  have hP : 0 < 2 ^ parameters.as_bytes.headD 0 := Nat.two_pow_pos _
  have hpos : 1 ≤ m * (256 * 2 ^ parameters.as_bytes.headD 0) :=
    Nat.mul_pos hm (Nat.mul_pos (by decide) hP)
  have hc := hcount hpos
  have hmul : m * (256 * 2 ^ parameters.as_bytes.headD 0)
      = 256 * (m * 2 ^ parameters.as_bytes.headD 0) := by ring
  refine ⟨state, hrun, hphase, ?_⟩
  rw [hmul] at hn
  omega

/-! ## Chopping a stream that ends with `flush` -/

set_option maxRecDepth 1000000 in
/-- C10, the code at the failing input. The stream of scenario 3 (138 block bytes and 8 footer
bytes), decoded from `init` with 4096 bytes of output room and `flush` set on the last
delivery: cut after byte 140, the first call decodes the block to 256 zero bytes and the
second finishes with nothing more to copy; cut after byte 7, the first call stalls on the
signature and the second, seeing `remaining = 138 < 256`, copies the 138 block bytes as they
are; supplied in one piece with `flush` set, the 138 block bytes are copied as they are. The
output depends on the chopping. -/
theorem streaming_depends_on_chopping :
    decode_cut_then_flush 4 4 0 4096 (scenario3_stream.take 140) (scenario3_stream.drop 140)
      = some (.FINISHED, List.replicate 256 0)
    ∧ decode_cut_then_flush 4 4 0 4096 (scenario3_stream.take 7) (scenario3_stream.drop 7)
      = some (.FINISHED, scenario3_block)
    ∧ (density_chameleon_decode_process 4 4 { bytes := scenario3_stream } (fresh_output 4096)
        (initial_state 0) true).map (fun r => (r.1, r.2.2.1.stored))
      = some (.FINISHED, scenario3_block)
    ∧ List.replicate 256 0 ≠ scenario3_block := by
  refine ⟨by decide, by decide, by decide, by decide⟩

/-! ## The new-block step for a shift byte beyond 30 -/

/-- C12, the code at the failing input. For a state with `signaturesCount = 256`,
`resetCycle = 0` and the parameter byte 40, with 256 bytes of output room, `check_state`
evaluates `1 << 40` on the 32-bit `int` constant 1, which C leaves undefined: it has no
defined result, where the claim has INFO_NEW_BLOCK with `resetCycle = 2 ^ 40 - 1`. For the
parameter byte 3 in the same state it returns INFO_NEW_BLOCK with both counters 0 and
`resetCycle = 7`. -/
theorem new_block_shift_undefined :
    density_chameleon_decode_check_state (fresh_output 256) new_block_state_shift40 = none
    ∧ (density_chameleon_decode_check_state (fresh_output 256)
        { new_block_state_shift40 with parameters := { as_bytes := [3] } }).map
        (fun r => (r.1, r.2.signaturesCount, r.2.efficiencyChecked, r.2.resetCycle))
      = some (.INFO_NEW_BLOCK, 0, 0, 7) :=
  ⟨rfl, by decide⟩

/-! ## A run that reaches the efficiency check -/

theorem all_ones_bit (shift : Nat) (h : shift < 64) :
    0xFFFFFFFFFFFFFFFF / 2 ^ shift % 2 = 1 := by
  interval_cases shift <;> rfl

theorem process_data_loop_references :
    ∀ (n : Nat) (inp out : density_memory_location) (state : density_chameleon_decode_state),
      state.signature = 0xFFFFFFFFFFFFFFFF → state.shift + n = 64 →
      2 * n ≤ inp.ahead.length →
      ∃ inp' out' : density_memory_location,
        density_chameleon_decode_process_data_loop n inp out state
          = some (inp', out', { state with shift := 64 }) := by
  intro n
  induction n with
  | zero =>
    intro inp out state _ hs _
    have hs64 : state.shift = 64 := by omega
    refine ⟨inp, out, ?_⟩
    simp only [density_chameleon_decode_process_data_loop, hs64, Nat.xor_self, ne_eq,
      not_true_eq_false, if_false]
    rw [← hs64]
  | succ n ih =>
    intro inp out state hsig hs hlen
    have hlt : state.shift < 64 := by omega
    have hne : state.shift ^^^ 64 ≠ 0 := (shift_xor_ne_zero _).mpr (by omega)
    have hbit : state.signature / 2 ^ state.shift % 2 = 1 := by
      rw [hsig]
      exact all_ones_bit _ hlt
    obtain ⟨b0, b1, rest, hahead⟩ : ∃ b0 b1 rest, inp.ahead = b0 :: b1 :: rest := by
      match hm : inp.ahead with
      | b0 :: b1 :: rest => exact ⟨b0, b1, rest, rfl⟩
      | [] => rw [hm] at hlen; simp at hlen
      | [_] => rw [hm] at hlen; simp at hlen; omega
    rw [density_chameleon_decode_process_data_loop, if_pos hne, test_compressed_eq state hlt]
    simp only [hbit, decide_True, density_chameleon_decode_kernel, if_true,
      density_chameleon_decode_read_compressed_chunk, hahead, compressed_chunk_eq]
    exact ih { inp with ahead := rest } _ { state with shift := state.shift + 1 } hsig
      (by show state.shift + 1 + n = 64; omega)
      (by show 2 * n ≤ rest.length; rw [hahead] at hlen; simp at hlen; omega)

theorem run_state_references_block (parameters : density_main_header_parameters) (n : Nat)
    (state : density_chameleon_decode_state) (hrun : run_state parameters n state)
    (hphase : state.process = .PREPARE_NEW_BLOCK) (hcount : state.signaturesCount < 64) :
    run_state parameters (n + 1)
      { state with signature := 0xFFFFFFFFFFFFFFFF, shift := 64, bodyLength := 128,
                   signaturesCount := state.signaturesCount + 1,
                   process := .PREPARE_NEW_BLOCK } := by
  -- PREPARE_NEW_BLOCK: `check_state` answers READY
  have hready : density_chameleon_decode_check_state (fresh_output 256) state
      = some (.READY, state) := by
    have h64 : ¬ state.signaturesCount = 64 := by omega
    have h256 : ¬ state.signaturesCount = 256 := by omega
    unfold density_chameleon_decode_check_state
    simp [DENSITY_CHAMELEON_DECODE_MINIMUM_OUTPUT_LOOKAHEAD,
      DENSITY_CHAMELEON_PREFERRED_EFFICIENCY_CHECK_SIGNATURES,
      DENSITY_CHAMELEON_PREFERRED_BLOCK_SIGNATURES, fresh_output, h64, h256]
  have hcase1 : density_chameleon_decode_process_case 0 0 { bytes := [] } (fresh_output 256)
      state false
      = some (none, { bytes := [] }, fresh_output 256, { state with process := .SIGNATURE }) := by
    unfold density_chameleon_decode_process_case
    rw [hphase]
    simp only [density_chameleon_decode_process_prepare_new_block, hready]
    simp
  have hrun1 := run_state.case _ _ _ _ _ _ _ _ _ _ _ hrun hcase1
  have hread1 : signatures_read state none = 0 := by
    unfold signatures_read
    rw [if_neg (by rw [hphase]; simp)]
  rw [hread1, Nat.add_zero] at hrun1
  -- SIGNATURE reads eight bytes 0xFF
  have hcase2 := (process_case_signature 0 0 { bytes := List.replicate 8 255 }
    (fresh_output 256) { state with process := .SIGNATURE } false rfl).trans
    (signature_phase_run 0 0 { bytes := List.replicate 8 255 } (fresh_output 256)
      { state with process := .SIGNATURE } false (by simp) (by simp))
  have hsig : DENSITY_LITTLE_ENDIAN_64
      (({ bytes := List.replicate 8 255 } : density_memory_teleport).bytes.take 8)
      = 0xFFFFFFFFFFFFFFFF := by decide
  have hpop : popcountll 0xFFFFFFFFFFFFFFFF = 64 := by decide
  rw [hsig, hpop] at hcase2
  have hrun2 := run_state.case _ _ _ _ _ _ _ _ _ _ _ hrun1 hcase2
  have hread2 : signatures_read { state with process := .SIGNATURE } none = 1 := by
    unfold signatures_read
    rw [if_pos ⟨rfl, rfl⟩]
  rw [hread2] at hrun2
  -- DECOMPRESS_BODY decodes 64 references
  obtain ⟨state3, hrun3, hst3⟩ :
      ∃ state3 : density_chameleon_decode_state,
        run_state parameters (n + 1) state3 ∧
        state3 = { state with signature := 0xFFFFFFFFFFFFFFFF, shift := 0,
                              signaturesCount := state.signaturesCount + 1,
                              bodyLength := 128,
                              process := .DECOMPRESS_BODY } := ⟨_, hrun2, rfl⟩
  obtain ⟨inp', out', hloop⟩ := process_data_loop_references 64
    { ahead := List.replicate 128 0, stored := [], available_bytes := 128 } (fresh_output 256)
    state3 (by rw [hst3]) (by rw [hst3]) (by simp)
  have hcase3 : density_chameleon_decode_process_case 0 0 { bytes := List.replicate 128 0 }
      (fresh_output 256) state3 false
      = some (none, density_memory_teleport_consume { bytes := List.replicate 128 0 } 128,
          { out' with available_bytes := out'.available_bytes - 64 * 4 },
          { state3 with shift := 64, process := .PREPARE_NEW_BLOCK }) := by
    have hbl : state3.bodyLength = 128 := by rw [hst3]
    have hread : density_memory_teleport_read { bytes := List.replicate 128 0 } 128
        = some { ahead := List.replicate 128 0, stored := [], available_bytes := 128 } := by
      unfold density_memory_teleport_read
      simp
    rw [process_case_body 0 0 _ _ state3 false (by rw [hst3])]
    unfold density_chameleon_decode_process_decompress_body
    rw [hbl, hread]
    simp only [density_chameleon_decode_process_data, hloop]
    simp [fresh_output, hbl]
  have hrun4 := run_state.case _ _ _ _ _ _ _ _ _ _ _ hrun3 hcase3
  have hread3 : signatures_read state3 none = 0 := by
    unfold signatures_read
    rw [if_neg (by rw [hst3]; simp)]
  rw [hread3, Nat.add_zero, hst3] at hrun4
  exact hrun4

theorem run_state_references :
    ∀ c : Nat, c < 64 → run_state { as_bytes := [1] } (c + 1) (references_state (c + 1)) := by
  intro c
  induction c with
  | zero =>
    intro _
    exact run_state_references_block { as_bytes := [1] } 0 initial_state_shift1
      (run_state.init blank_state 0 .READY initial_state_shift1 rfl) rfl (by decide)
  | succ c ih =>
    intro hc
    exact run_state_references_block { as_bytes := [1] } (c + 1) (references_state (c + 1))
      (ih (by omega)) rfl (by show c + 1 < 64; omega)

theorem run_state_efficiency_checked :
    run_state { as_bytes := [1] } 64 { references_state 64 with efficiencyChecked := 1 } :=
  run_state.case 64 (references_state 64) 0 0 { bytes := [] } (fresh_output 256) false
    (some .INFO_EFFICIENCY_CHECK) { bytes := [] } (fresh_output 256)
    { references_state 64 with efficiencyChecked := 1 }
    (run_state_references 63 (by decide)) rfl

/-- Witness of C14: the run on the parameter byte 1 that has decoded 64 blocks of references.
Its state stands at PREPARE_NEW_BLOCK with `signaturesCount = 64` and `efficiencyChecked = 0`;
there `check_state` does return INFO_EFFICIENCY_CHECK and sets the flag, and no other state
comes with that status. In the state it leaves, with the flag at 1, no case of `process`
returns the status again. -/
theorem efficiency_check_once_witness :
    run_state { as_bytes := [1] } 64 (references_state 64)
    ∧ density_chameleon_decode_check_state (fresh_output 256) (references_state 64)
      = some (.INFO_EFFICIENCY_CHECK, { references_state 64 with efficiencyChecked := 1 })
    ∧ (∀ (out : density_memory_location) (state' : density_chameleon_decode_state),
        density_chameleon_decode_check_state out (references_state 64)
          = some (.INFO_EFFICIENCY_CHECK, state') →
        (references_state 64).signaturesCount = 64 ∧
        (references_state 64).efficiencyChecked = 0 ∧
        state' = { references_state 64 with efficiencyChecked := 1 })
    ∧ run_state { as_bytes := [1] } 64 { references_state 64 with efficiencyChecked := 1 }
    ∧ (∀ (sizeof_block_footer sizeof_main_footer : Nat) (inp : density_memory_teleport)
        (out : density_memory_location) (flush : Bool)
        (r : Option DENSITY_KERNEL_DECODE_STATE) (inp' : density_memory_teleport)
        (out' : density_memory_location) (state' : density_chameleon_decode_state),
        density_chameleon_decode_process_case sizeof_block_footer sizeof_main_footer
          inp out { references_state 64 with efficiencyChecked := 1 } flush
          = some (r, inp', out', state') →
        r ≠ some .INFO_EFFICIENCY_CHECK ∧
        (state'.efficiencyChecked = 1 ∨
          (({ references_state 64 with efficiencyChecked := 1 } :
              density_chameleon_decode_state).signaturesCount = 256 ∧
            state'.signaturesCount = 0 ∧ state'.efficiencyChecked = 0))) :=
  ⟨run_state_references 63 (by decide), rfl,
   (efficiency_check_once { as_bytes := [1] } 64 (references_state 64)
      (run_state_references 63 (by decide))).1,
   run_state_efficiency_checked,
   (efficiency_check_once { as_bytes := [1] } 64
      { references_state 64 with efficiencyChecked := 1 } run_state_efficiency_checked).2.1 rfl⟩

end Density
